import Mathlib

/-!
# chrome_frame/chrome_frame_automation.cc : the automation proxy cache

A shallow embedding of `AutomationProxyCacheEntry` (one worker thread, one
automation proxy and the launch delegates of one profile) and of
`ProxyFactory` (the registry of cache entries), of the live proxy
`ChromeFrameAutomationProxyImpl` with its two message filters, and of the
release path of `ChromeFrameAutomationClient`, followed by the properties
proved about them. The certificate filter of
net/cert/nss_profile_filter_chromeos.cc closes the definitions.

Conventions of the embedding.

* Pointers are addresses (`Nat`), `NULL` is `0`.
* `DCHECK` and `NOTREACHED` are the release-build no-ops; the code after them
  runs as written.
* Every call an entry makes on a collaborator (the delegates, the process
  launcher, the waitable event of a blocked caller) is appended to the entry's
  `calls`, so that "who was notified, with what, in which order" is a value.
-/

/-- Modelled from the spec: the enum `AutomationLaunchResult` is declared outside the sources.
These are the four values the file names and the two further outcomes of the handshake, the
timeout and the version mismatch, that `WaitForAppLaunch` can report. -/
inductive AutomationLaunchResult
  | AUTOMATION_LAUNCH_RESULT_INVALID
  | AUTOMATION_SUCCESS
  | AUTOMATION_TIMEOUT
  | AUTOMATION_VERSION_MISMATCH
  | AUTOMATION_CREATE_TAB_FAILED
  | AUTOMATION_SERVER_CRASHED
  deriving DecidableEq, Repr

open AutomationLaunchResult

/-- The null pointer. -/
abbrev NULL : Nat := 0

/-- A `LaunchDelegate*`. -/
abbrev LaunchDelegate := Nat

/-- A `base::WaitableEvent*` (the event a caller of `ReleaseAutomationServer` blocks on). -/
abbrev WaitableEvent := Nat

/-- The fields of `ChromeFrameLaunchParams` the cache reads. -/
structure ChromeFrameLaunchParams where
  profile_name : String
  launch_timeout : Int
  version_check : Bool
  deriving DecidableEq, Repr

/-- The automation proxy object `CreateProxy` allocates: the entry it reports channel errors
to, its channel and the two settings taken from the launch parameters. -/
structure ChromeFrameAutomationProxyImpl where
  proxy_entry_ : Nat
  channel_id : String
  launch_timeout : Int
  perform_version_check : Bool
  deriving DecidableEq, Repr

/-- What the platform answers during one launch: the channel id generated, the command line
assembled by `chrome_launcher::CreateLaunchCommandLine` and the switches appended to it (empty
when it could not be created), whether `base::LaunchProcess` started the process, and what
`AutomationProxy::WaitForAppLaunch` returns. -/
structure LaunchEnv where
  channel_id : String
  command_line_string : String
  LaunchProcess : Bool
  WaitForAppLaunch : AutomationLaunchResult
  deriving DecidableEq, Repr

/-- A call made by an entry on one of its collaborators. `Signal done b` is `done->Signal()`
at the end of `RemoveDelegate`, `b` being the value `*was_last_delegate` holds then. -/
inductive Call
  | LaunchProcess (command_line_string : String)
  | WaitForAppLaunch
  | LaunchComplete (delegate : LaunchDelegate) (proxy : Option ChromeFrameAutomationProxyImpl)
      (result : AutomationLaunchResult)
  | AutomationServerDied (delegate : LaunchDelegate)
  | Signal (done : WaitableEvent) (was_last_delegate : Bool)
  deriving DecidableEq, Repr

/-- A task bound for the worker thread of an entry (the `base::Bind` closures of the file;
`OnChannelError` is the task through which the channel reports its error on that thread). -/
inductive PendingTask
  | CreateProxy (params : ChromeFrameLaunchParams) (delegate : LaunchDelegate)
  | AddDelegate (delegate : LaunchDelegate)
  | RemoveDelegate (delegate : LaunchDelegate) (done : WaitableEvent)
  | OnChannelError
  deriving DecidableEq, Repr

/-- An `AutomationProxyCacheEntry`. `addr` is the address of the object, `thread_` the tasks
pending on the message loop of its worker thread (oldest first), `posted` every task ever posted
to that loop, `calls` the calls the entry has made so far. -/
structure AutomationProxyCacheEntry where
  addr : Nat
  profile_name : String
  thread_ : List PendingTask
  posted : List PendingTask
  proxy_ : Option ChromeFrameAutomationProxyImpl
  launch_result_ : AutomationLaunchResult
  launch_delegates_ : List LaunchDelegate
  calls : List Call
  deriving DecidableEq, Repr

namespace AutomationProxyCacheEntry

/-- Modelled from the spec: `IsSameProfile` is declared in the header, which is not among the
sources; the registry is keyed by the profile identity string, so it compares the names. -/
def IsSameProfile (e : AutomationProxyCacheEntry) (name : String) : Bool :=
  e.profile_name == name

/-- Modelled from the spec: `message_loop()->PostTask` (base::MessageLoop is not among the
sources) puts the task at the end of the worker's queue. -/
def PostTask (t : PendingTask) (e : AutomationProxyCacheEntry) : AutomationProxyCacheEntry :=
  { e with thread_ := e.thread_ ++ [t], posted := e.posted ++ [t] }

/-- The constructor `AutomationProxyCacheEntry::AutomationProxyCacheEntry`: the entry starts
with an invalid launch result, no proxy and no delegate, and posts `CreateProxy` to the thread
it has just started. -/
def ctor (addr : Nat) (params : ChromeFrameLaunchParams)
    (delegate : LaunchDelegate) : AutomationProxyCacheEntry :=
  PostTask (PendingTask.CreateProxy params delegate)
    { addr := addr
      profile_name := params.profile_name
      thread_ := []
      posted := []
      proxy_ := none
      launch_result_ := AUTOMATION_LAUNCH_RESULT_INVALID
      launch_delegates_ := []
      calls := [] }

/-- The method `CreateProxy`: allocate the proxy, launch the browser and wait for it, then store the
proxy, register the initiating delegate and tell it the result. -/
def CreateProxy (env : LaunchEnv) (params : ChromeFrameLaunchParams)
    (delegate : LaunchDelegate) (e : AutomationProxyCacheEntry) : AutomationProxyCacheEntry :=
  let proxy : ChromeFrameAutomationProxyImpl :=
    { proxy_entry_ := e.addr
      channel_id := env.channel_id
      launch_timeout := params.launch_timeout
      perform_version_check := params.version_check }
  let e1 : AutomationProxyCacheEntry :=
    if env.command_line_string.isEmpty then
      { e with launch_result_ := AUTOMATION_LAUNCH_RESULT_INVALID }
    else if !env.LaunchProcess then
      { e with launch_result_ := AUTOMATION_LAUNCH_RESULT_INVALID
               calls := e.calls ++ [Call.LaunchProcess env.command_line_string] }
    else
      { e with launch_result_ := env.WaitForAppLaunch
               calls := e.calls ++
                 [Call.LaunchProcess env.command_line_string, Call.WaitForAppLaunch] }
  let e2 := { e1 with proxy_ := some proxy }
  let e3 := { e2 with launch_delegates_ := e2.launch_delegates_ ++ [delegate] }
  { e3 with calls := e3.calls ++ [Call.LaunchComplete delegate e3.proxy_ e3.launch_result_] }

/-- The call `std::find(launch_delegates_.begin(), launch_delegates_.end(), delegate)`: the
position of the first occurrence, `none` standing for `end()`. -/
def find (delegate : LaunchDelegate) : List LaunchDelegate → Option Nat
  | [] => none
  | x :: xs => if x = delegate then some 0 else (find delegate xs).map (· + 1)

/-- The method `RemoveDelegate`. `RunUntilIdle` is `thread_->message_loop()->RunUntilIdle()`,
the run of the tasks pending behind this one; `it` is the position `std::find` returns. The second
component is the value left in `*was_last_delegate`. -/
def RemoveDelegate (RunUntilIdle : AutomationProxyCacheEntry → AutomationProxyCacheEntry)
    (delegate : LaunchDelegate) (done : WaitableEvent) (e : AutomationProxyCacheEntry) :
    AutomationProxyCacheEntry × Bool :=
  match find delegate e.launch_delegates_ with
  | none =>
      -- NOTREACHED()
      ({ e with calls := e.calls ++ [Call.Signal done false] }, false)
  | some it =>
      if e.launch_delegates_.length = 1 then
        let e1 := RunUntilIdle e
        let e2 := { e1 with proxy_ := none }
        let e3 := { e2 with launch_delegates_ := e2.launch_delegates_.eraseIdx it }
        ({ e3 with calls := e3.calls ++ [Call.Signal done true] }, true)
      else
        let e3 := { e with launch_delegates_ := e.launch_delegates_.eraseIdx it }
        ({ e3 with calls := e3.calls ++ [Call.Signal done false] }, false)

/-- The method `AddDelegate`: register the delegate and replay the stored launch result to it. -/
def AddDelegate (delegate : LaunchDelegate) (e : AutomationProxyCacheEntry) :
    AutomationProxyCacheEntry :=
  let e1 := { e with launch_delegates_ := e.launch_delegates_ ++ [delegate] }
  { e1 with calls := e1.calls ++ [Call.LaunchComplete delegate e1.proxy_ e1.launch_result_] }

/-- The method `OnChannelError`: the stored result becomes `AUTOMATION_SERVER_CRASHED` and every
registered delegate is told, in list order. -/
def OnChannelError (e : AutomationProxyCacheEntry) : AutomationProxyCacheEntry :=
  let e1 := { e with launch_result_ := AUTOMATION_SERVER_CRASHED }
  { e1 with calls := e1.calls ++ e1.launch_delegates_.map Call.AutomationServerDied }

/-- One task run by the worker. `RunUntilIdle` is the run of the tasks pending behind it.
The second component tells whether the task has run those tasks itself, which only a
`RemoveDelegate` that takes the entry down does. -/
def RunTask (RunUntilIdle : AutomationProxyCacheEntry → AutomationProxyCacheEntry)
    (env : LaunchEnv) : PendingTask → AutomationProxyCacheEntry → AutomationProxyCacheEntry × Bool
  | PendingTask.CreateProxy params delegate, e => (CreateProxy env params delegate e, false)
  | PendingTask.AddDelegate delegate, e => (AddDelegate delegate e, false)
  | PendingTask.OnChannelError, e => (OnChannelError e, false)
  | PendingTask.RemoveDelegate delegate done, e => RemoveDelegate RunUntilIdle delegate done e

/-- Modelled from the spec: the worker's message loop (base::Thread and base::MessageLoop are
not among the sources) runs the pending tasks one at a time, oldest first. A `RemoveDelegate`
that takes the entry down runs the tasks behind it itself, through `RunUntilIdle`, and leaves
the loop idle. -/
def RunTasks (env : LaunchEnv) :
    List PendingTask → AutomationProxyCacheEntry → AutomationProxyCacheEntry
  | [], e => e
  | t :: q, e =>
      let r := RunTask (RunTasks env q) env t e
      if r.2 then r.1 else RunTasks env q r.1

/-- Modelled from the spec: `MessageLoop::RunUntilIdle` on the entry's own loop: every pending
task is run and the queue is left empty. -/
def RunUntilIdle (env : LaunchEnv) (e : AutomationProxyCacheEntry) : AutomationProxyCacheEntry :=
  { RunTasks env e.thread_ e with thread_ := [] }

/-- Modelled from the spec: one turn of the worker's loop: the oldest pending task is taken
off the queue and run. -/
def DoWork (env : LaunchEnv) (e : AutomationProxyCacheEntry) : AutomationProxyCacheEntry :=
  match e.thread_ with
  | [] => e
  | t :: q =>
      let r := RunTask (RunTasks env q) env t e
      { r.1 with thread_ := if r.2 then [] else q }

/-- The worker's side of `ReleaseAutomationServer`: `RemoveDelegate` has been posted and the
caller is blocked in `done.Wait()`, so the worker runs the tasks posted ahead of it and then
`RemoveDelegate`, behind which nothing is pending. The second component is `last_delegate`
as the caller reads it once `done` is signalled. -/
def WaitRemoveDelegate (env : LaunchEnv) (delegate : LaunchDelegate) (done : WaitableEvent)
    (e : AutomationProxyCacheEntry) : AutomationProxyCacheEntry × Bool :=
  let r := RemoveDelegate (RunTasks env []) delegate done (RunTasks env e.thread_ e)
  ({ r.1 with thread_ := []
              posted := e.posted ++ [PendingTask.RemoveDelegate delegate done] }, r.2)

end AutomationProxyCacheEntry

/-- In-place update of the object a pointer designates: the first element that satisfies `p`
is replaced by its image under `f`. -/
def updateFirst {α : Type} (p : α → Bool) (f : α → α) : List α → List α
  | [] => []
  | x :: xs => if p x then f x :: xs else x :: updateFirst p f xs

/-- The `ProxyFactory`: the registry `proxies_` of cache entries, in insertion order, and the
next address the allocator hands out to a new entry. -/
structure ProxyFactory where
  proxies_ : List AutomationProxyCacheEntry
  next_addr : Nat
  deriving DecidableEq, Repr

namespace ProxyFactory

/-- The constructor: an empty registry. Address `0` is `NULL`, so allocation starts at `1`. -/
def ctor : ProxyFactory := { proxies_ := [], next_addr := 1 }

/-- The event `done` that `ReleaseAutomationServer` keeps on its stack. -/
def done : WaitableEvent := 1

/-- The method `GetAutomationServer`, run under the registry lock. The first component is the value
stored in `*automation_server_id`. -/
def GetAutomationServer (delegate : LaunchDelegate) (params : ChromeFrameLaunchParams)
    (s : ProxyFactory) : Nat × ProxyFactory :=
  match s.proxies_.find? (fun p => p.IsSameProfile params.profile_name) with
  | none =>
      let entry := AutomationProxyCacheEntry.ctor s.next_addr params delegate
      (entry.addr, { proxies_ := s.proxies_ ++ [entry], next_addr := s.next_addr + 1 })
  | some entry =>
      if delegate ≠ NULL then
        let proxies := updateFirst (fun p => p.IsSameProfile params.profile_name)
          (AutomationProxyCacheEntry.PostTask (PendingTask.AddDelegate delegate)) s.proxies_
        (entry.addr, { s with proxies_ := proxies })
      else
        (entry.addr, s)

/-- The block `if (delegate) ...` of `ReleaseAutomationServer`: `RemoveDelegate` is posted to
the worker of the entry and the caller waits for `done`. The second component is the local
`last_delegate` after the block. -/
def PostRemoveDelegate (env : LaunchEnv) (delegate : LaunchDelegate)
    (entry : AutomationProxyCacheEntry) : AutomationProxyCacheEntry × Bool :=
  if delegate ≠ NULL then entry.WaitRemoveDelegate env delegate done else (entry, false)

/-- The method `ReleaseAutomationServer`. `server_id` is the address of an entry; the caller posts
`RemoveDelegate`, waits for the worker to have run it, and takes the entry out of the registry
when it was told that the delegate was the last one. A `server_id` that designates no entry
of the registry (the debug assertion of the code) leaves everything as it is. -/
def ReleaseAutomationServer (env : LaunchEnv) (server_id : Nat) (delegate : LaunchDelegate)
    (s : ProxyFactory) : Bool × ProxyFactory :=
  if server_id = NULL then
    -- NOTREACHED()
    (false, s)
  else
    match s.proxies_.find? (fun p => p.addr == server_id) with
    | none => (true, s)
    | some entry =>
        let r := PostRemoveDelegate env delegate entry
        let proxies := updateFirst (fun p => p.addr == server_id) (fun _ => r.1) s.proxies_
        if r.2 then
          (true, { s with proxies_ := proxies.eraseP (fun p => p.addr == server_id) })
        else
          (true, { s with proxies_ := proxies })

end ProxyFactory

/-- What can happen to a factory: the two calls of its clients, one turn of the worker loop of
an entry (with what the platform answers should the task be the launch), and a channel error
reported to the worker of an entry that has a proxy. -/
inductive Op
  | GetAutomationServer (delegate : LaunchDelegate) (params : ChromeFrameLaunchParams)
  | ReleaseAutomationServer (env : LaunchEnv) (server_id : Nat) (delegate : LaunchDelegate)
  | DoWork (env : LaunchEnv) (server_id : Nat)
  | ChannelError (server_id : Nat)
  deriving DecidableEq, Repr

namespace ProxyFactory

/-- One step of the factory. -/
def step (s : ProxyFactory) : Op → ProxyFactory
  | Op.GetAutomationServer delegate params => (s.GetAutomationServer delegate params).2
  | Op.ReleaseAutomationServer env server_id delegate =>
      (s.ReleaseAutomationServer env server_id delegate).2
  | Op.DoWork env server_id =>
      let proxies := updateFirst (fun p => p.addr == server_id)
        (AutomationProxyCacheEntry.DoWork env) s.proxies_
      { s with proxies_ := proxies }
  | Op.ChannelError server_id =>
      let proxies := updateFirst (fun p => p.addr == server_id && p.proxy_.isSome)
        (AutomationProxyCacheEntry.PostTask PendingTask.OnChannelError) s.proxies_
      { s with proxies_ := proxies }

/-- A run of the factory: the steps are taken in order. -/
def run (s : ProxyFactory) (ops : List Op) : ProxyFactory :=
  ops.foldl step s

end ProxyFactory

/-! ## Vocabulary of the statements -/

/-- Whether a task is the launch task `CreateProxy`. -/
def PendingTask.isCreateProxy : PendingTask → Bool
  | PendingTask.CreateProxy _ _ => true
  | _ => false

/-- Whether a task is `OnChannelError`. -/
def PendingTask.isOnChannelError : PendingTask → Bool
  | PendingTask.OnChannelError => true
  | _ => false

/-- Whether a task registers a delegate: `CreateProxy` and `AddDelegate` do. -/
def PendingTask.registers : PendingTask → Bool
  | PendingTask.CreateProxy _ _ => true
  | PendingTask.AddDelegate _ => true
  | _ => false

/-- Whether a call is `LaunchComplete` on the delegate `d`. -/
def Call.isLaunchCompleteOn (d : LaunchDelegate) : Call → Bool
  | Call.LaunchComplete delegate _ _ => delegate == d
  | _ => false

/-- The number of launch tasks that have been posted to the worker of an entry. -/
def AutomationProxyCacheEntry.launchTasks (e : AutomationProxyCacheEntry) : Nat :=
  e.posted.countP PendingTask.isCreateProxy

/-- The number of `LaunchComplete` calls the entry has made on the delegate `d`. -/
def AutomationProxyCacheEntry.launchCompletes (e : AutomationProxyCacheEntry)
    (d : LaunchDelegate) : Nat :=
  e.calls.countP (Call.isLaunchCompleteOn d)

/-- The fields no task of the worker writes. -/
def AutomationProxyCacheEntry.frame (e : AutomationProxyCacheEntry) :
    Nat × String × List PendingTask × List PendingTask :=
  (e.addr, e.profile_name, e.thread_, e.posted)

/-- The local `last_delegate` of `ReleaseAutomationServer` at the end of the call. -/
def ProxyFactory.last_delegate (env : LaunchEnv) (server_id : Nat) (delegate : LaunchDelegate)
    (s : ProxyFactory) : Bool :=
  if server_id = NULL then false
  else
    match s.proxies_.find? (fun p => p.addr == server_id) with
    | none => false
    | some entry => (ProxyFactory.PostRemoveDelegate env delegate entry).2

/-- Whether a step is a release of the last delegate of an entry. -/
def Op.releasesLast (s : ProxyFactory) : Op → Bool
  | Op.ReleaseAutomationServer env server_id delegate => s.last_delegate env server_id delegate
  | _ => false

/-- A run in which no step releases the last delegate of an entry. -/
def ProxyFactory.noLastRelease : ProxyFactory → List Op → Bool
  | _, [] => true
  | s, op :: ops => !(op.releasesLast s) && ProxyFactory.noLastRelease (s.step op) ops

/-! ## Sample inputs -/

/-- A platform on which the browser starts and the handshake succeeds. -/
def launchOk : LaunchEnv :=
  { channel_id := "channel"
    command_line_string := "chrome.exe --automation-channel=channel --chrome-frame"
    LaunchProcess := true
    WaitForAppLaunch := AUTOMATION_SUCCESS }

/-- Launch parameters of the profile `"profileA"`. -/
def profileA : ChromeFrameLaunchParams :=
  { profile_name := "profileA", launch_timeout := 1000, version_check := true }

/-- Launch parameters of the profile `"profileB"`. -/
def profileB : ChromeFrameLaunchParams :=
  { profile_name := "profileB", launch_timeout := 1000, version_check := false }

/-- The entry of `"profileA"` at address `1` once delegate `11` has launched it. -/
def entryLaunched : AutomationProxyCacheEntry :=
  AutomationProxyCacheEntry.RunUntilIdle launchOk (AutomationProxyCacheEntry.ctor 1 profileA 11)

/-- The entry of `"profileA"` at address `1` once delegate `11` has launched it, delegate `12`
has joined it and left it again: the run of the three tasks from the constructed entry. -/
def entryAfterLeave : AutomationProxyCacheEntry :=
  AutomationProxyCacheEntry.RunUntilIdle launchOk
    (AutomationProxyCacheEntry.PostTask (PendingTask.RemoveDelegate 12 1)
      (AutomationProxyCacheEntry.PostTask (PendingTask.AddDelegate 12)
        (AutomationProxyCacheEntry.ctor 1 profileA 11)))

/-- The entry of `"profileA"` at address `1` once delegate `11` has launched it and left it, so
that it has been taken down. -/
def entryTakenDown : AutomationProxyCacheEntry :=
  (AutomationProxyCacheEntry.RemoveDelegate (AutomationProxyCacheEntry.RunTasks launchOk [])
    11 1 entryLaunched).1

/-- A factory in which delegate `11` has launched `"profileA"` and delegate `12` has asked for
it: the `AddDelegate(12)` task is pending while the delegate list is `[11]`. -/
def factoryJoinPending : ProxyFactory :=
  ProxyFactory.ctor.run
    [Op.GetAutomationServer 11 profileA, Op.DoWork launchOk 1, Op.GetAutomationServer 12 profileA]

/-- A factory in which delegates `11` and `12` hold `"profileA"` and delegate `13` has asked
for it: the `AddDelegate(13)` task is pending while the delegate list is `[11, 12]`. -/
def factoryThirdPending : ProxyFactory :=
  ProxyFactory.ctor.run
    [Op.GetAutomationServer 11 profileA, Op.GetAutomationServer 12 profileA,
     Op.DoWork launchOk 1, Op.DoWork launchOk 1, Op.GetAutomationServer 13 profileA]

/-- A factory in which delegate `13` holds `"profileB"` and delegates `11` and `12` hold
`"profileA"`, every worker being idle. -/
def factoryIdle : ProxyFactory :=
  ProxyFactory.ctor.run
    [Op.GetAutomationServer 13 profileB, Op.GetAutomationServer 11 profileA,
     Op.GetAutomationServer 12 profileA, Op.DoWork launchOk 1, Op.DoWork launchOk 2,
     Op.DoWork launchOk 2]

/-! ## The live proxy: the reply dispatcher, the tab filter and the channel -/

/-- An `AutomationHandle`, an `int`. -/
abbrev AutomationHandle := Int

/-- A `TabProxy*`. -/
abbrev TabProxy := Nat

/-- Modelled from the spec: `IPC::Message` is declared outside the sources; it is an opaque
message with a routing id and an optional reply correlation token, and `is_reply()` holds when
the token is there. `tab_message` is what `ChromeFrameDelegateImpl::IsTabMessage`, which reads
the message type and is declared outside the sources too, answers for the message. -/
structure Message where
  routing_id : AutomationHandle
  type : Nat
  reply : Option Nat
  tab_message : Bool
  deriving DecidableEq, Repr

/-- The test `message.is_reply()`. -/
def Message.is_reply (message : Message) : Bool :=
  message.reply.isSome

/-- Modelled from the spec: the `AutomationHandleTracker` (declared outside the sources) is the
routing mapping, from routing id to handler reference. -/
structure AutomationHandleTracker where
  resources : List (AutomationHandle × TabProxy)
  deriving DecidableEq, Repr

/-- Modelled from the spec: `GetResource` resolves a handle to the handler registered for it,
`none` standing for `NULL`. -/
def AutomationHandleTracker.GetResource (tracker : AutomationHandleTracker)
    (handle : AutomationHandle) : Option TabProxy :=
  (tracker.resources.find? (fun r => r.1 == handle)).map (fun r => r.2)

/-- Modelled from the spec: the constructor of `TabProxy` (outside the sources) enters the new
tab into the tracker under its handle, a routing mapping being added when a session object is
created; a mapping the tracker already holds for the handle stays the one that is found. -/
def AutomationHandleTracker.Add (tracker : AutomationHandleTracker) (handle : AutomationHandle)
    (tab : TabProxy) : AutomationHandleTracker :=
  { resources := tracker.resources ++ [(handle, tab)] }

/-- A call the filter makes on a tab proxy; `OnChannelError handle tab` is
`tab->OnChannelError()` on the tab found for `handle`. -/
inductive TabCall
  | OnMessageReceived (tab : TabProxy) (message : Message)
  | OnChannelError (handle : AutomationHandle) (tab : TabProxy)
  deriving DecidableEq, Repr

/-- The `TabProxyNotificationMessageFilter`: the tracker it was given (the one of the proxy),
its list of tab handles, and the calls it has made on tab proxies so far. -/
structure TabProxyNotificationMessageFilter where
  tracker_ : AutomationHandleTracker
  tabs_list_ : List AutomationHandle
  calls : List TabCall
  deriving DecidableEq, Repr

namespace TabProxyNotificationMessageFilter

/-- The method `AddTabProxy`: `tabs_list_.push_back(tab_proxy)`. -/
def AddTabProxy (tab_proxy : AutomationHandle) (f : TabProxyNotificationMessageFilter) :
    TabProxyNotificationMessageFilter :=
  { f with tabs_list_ := f.tabs_list_ ++ [tab_proxy] }

/-- The method `RemoveTabProxy`: `tabs_list_.remove(tab_proxy)`, which takes every occurrence
out of the list. -/
def RemoveTabProxy (tab_proxy : AutomationHandle) (f : TabProxyNotificationMessageFilter) :
    TabProxyNotificationMessageFilter :=
  { f with tabs_list_ := f.tabs_list_.filter (fun h => h != tab_proxy) }

/-- The method `OnMessageReceived`. `handled tab message` is what `tab->OnMessageReceived`
returns. The first component is the value returned. -/
def OnMessageReceived (handled : TabProxy → Message → Bool) (message : Message)
    (f : TabProxyNotificationMessageFilter) : Bool × TabProxyNotificationMessageFilter :=
  if message.is_reply then (false, f)
  else if !message.tab_message then (false, f)
  else
    match f.tracker_.GetResource message.routing_id with
    | some tab =>
        (handled tab message,
          { f with calls := f.calls ++ [TabCall.OnMessageReceived tab message] })
    | none =>
        -- DLOG(ERROR), handled = true
        (true, f)

/-- The loop of `OnChannelError` over the live `tabs_list_`, from the node under the iterator
on. `unregisters tab` lists the handles the callback `tab->OnChannelError()` passes to
`RemoveTabProxy` while it runs; `removed` holds the handles taken out of the list so far, so a
node that holds one of them is no longer there when the iterator comes to it. A callback that
takes out the node under the iterator leaves the iterator dangling: the loop has no defined
continuation and the result is `none`. -/
def OnChannelErrorFrom (unregisters : TabProxy → List AutomationHandle)
    (removed : List AutomationHandle) :
    List AutomationHandle → TabProxyNotificationMessageFilter →
      Option TabProxyNotificationMessageFilter
  | [], f => some f
  | handle :: rest, f =>
      if removed.contains handle then OnChannelErrorFrom unregisters removed rest f
      else
        match f.tracker_.GetResource handle with
        | none => OnChannelErrorFrom unregisters removed rest f
        | some tab =>
            let f1 := { f with calls := f.calls ++ [TabCall.OnChannelError handle tab] }
            let f2 := (unregisters tab).foldl (fun g h => RemoveTabProxy h g) f1
            if (unregisters tab).contains handle then none
            else OnChannelErrorFrom unregisters (removed ++ unregisters tab) rest f2

/-- The method `OnChannelError`: the loop from `tabs_list_.begin()`. -/
def OnChannelError (unregisters : TabProxy → List AutomationHandle)
    (f : TabProxyNotificationMessageFilter) : Option TabProxyNotificationMessageFilter :=
  OnChannelErrorFrom unregisters [] f.tabs_list_ f

end TabProxyNotificationMessageFilter

/-- Modelled from the spec: a `PendingCall` (the `SyncMessageCallContext` queued by the
dispatcher, declared outside the sources) holds the correlation token, which is the key given
to `SendAsAsync`, and the continuation, which is the context given to it. -/
structure PendingCall where
  token : Nat
  continuation : Nat
  deriving DecidableEq, Repr

/-- Modelled from the spec: the reply dispatcher (`SyncMessageReplyDispatcher`, the base of
`CFMsgDispatcher`, is not among the sources) maps correlation tokens to pending calls;
`invoked` lists the continuations it has invoked, with the reply each was invoked for. -/
structure SyncMessageReplyDispatcher where
  message_queue_ : List PendingCall
  invoked : List (Message × Nat)
  deriving DecidableEq, Repr

/-- The method `CFMsgDispatcher::HandleMessageType`, through which the dispatcher hands a reply
to the continuation: it returns `true`. -/
def CFMsgDispatcher.HandleMessageType (_msg : Message) (_context : Nat) : Bool :=
  true

namespace SyncMessageReplyDispatcher

/-- Modelled from the spec: `Push` (not among the sources) registers the pending call of the
request under its token. -/
def Push (_msg : Message) (context : Nat) (key : Nat) (d : SyncMessageReplyDispatcher) :
    SyncMessageReplyDispatcher :=
  { d with message_queue_ := d.message_queue_ ++ [{ token := key, continuation := context }] }

/-- Modelled from the spec: `Cancel` (not among the sources) removes any pending call for the
token; it is idempotent and no error if there is none. -/
def Cancel (key : Nat) (d : SyncMessageReplyDispatcher) : SyncMessageReplyDispatcher :=
  { d with message_queue_ := d.message_queue_.filter (fun c => c.token != key) }

/-- Modelled from the spec: the dispatcher's `OnMessageReceived` (not among the sources) is
`OnReply`: the pending call of the reply's token is popped and its continuation invoked,
through `HandleMessageType`; a message that is no reply, or whose token is absent, is dropped
silently. The first component is the value returned, `false` for a message not handled. -/
def OnMessageReceived (msg : Message) (d : SyncMessageReplyDispatcher) :
    Bool × SyncMessageReplyDispatcher :=
  match msg.reply with
  | none => (false, d)
  | some token =>
      match d.message_queue_.find? (fun c => c.token == token) with
      | none => (false, d)
      | some c =>
          (CFMsgDispatcher.HandleMessageType msg c.continuation,
            { message_queue_ := d.message_queue_.eraseP (fun c => c.token == token)
              invoked := d.invoked ++ [(msg, c.continuation)] })

end SyncMessageReplyDispatcher

/-- A call a live proxy makes on its dispatcher or on its channel. -/
inductive ProxyCall
  | Push (msg : Message) (context : Nat) (key : Nat)
  | Send (msg : Message)
  | Cancel (key : Nat)
  deriving DecidableEq, Repr

/-- The members of a live `ChromeFrameAutomationProxyImpl` that its clients work on through
the `ChromeFrameAutomationProxy` interface: the reply dispatcher `sync_`, the tab filter
`message_filter_` (which holds the tracker), and the calls made on `sync_` and on `channel_`,
in order. -/
structure ChromeFrameAutomationProxy where
  sync_ : SyncMessageReplyDispatcher
  message_filter_ : TabProxyNotificationMessageFilter
  calls : List ProxyCall
  deriving DecidableEq, Repr

namespace ChromeFrameAutomationProxyImpl

/-- The statement `sync_->Push(msg, context, key)` of `SendAsAsync`. -/
def sync_Push (msg : Message) (context : Nat) (key : Nat) (p : ChromeFrameAutomationProxy) :
    ChromeFrameAutomationProxy :=
  { p with sync_ := p.sync_.Push msg context key
           calls := p.calls ++ [ProxyCall.Push msg context key] }

/-- The statement `channel_->ChannelProxy::Send(msg)` of `SendAsAsync`: the message is handed
to the channel. -/
def channel_Send (msg : Message) (p : ChromeFrameAutomationProxy) :
    ChromeFrameAutomationProxy :=
  { p with calls := p.calls ++ [ProxyCall.Send msg] }

/-- The method `SendAsAsync`: `Push`, then `Send`. -/
def SendAsAsync (msg : Message) (context : Nat) (key : Nat) (p : ChromeFrameAutomationProxy) :
    ChromeFrameAutomationProxy :=
  channel_Send msg (sync_Push msg context key p)

/-- The method `CancelAsync`: `sync_->Cancel(key)`. -/
def CancelAsync (key : Nat) (p : ChromeFrameAutomationProxy) : ChromeFrameAutomationProxy :=
  { p with sync_ := p.sync_.Cancel key
           calls := p.calls ++ [ProxyCall.Cancel key] }

/-- The method `OnChannelError`. `proxy_entry_` is the entry the pointer of that name
designates, `none` for a null pointer: the error is passed on to the entry, and nothing else
is done. -/
def OnChannelError (p : ChromeFrameAutomationProxy)
    (proxy_entry_ : Option AutomationProxyCacheEntry) :
    ChromeFrameAutomationProxy × Option AutomationProxyCacheEntry :=
  match proxy_entry_ with
  | some entry => (p, some entry.OnChannelError)
  | none =>
      -- NOTREACHED()
      (p, none)

/-- The method `CreateTabProxy`. `tab_proxy` is the address `new TabProxy(this, tracker_,
handle)` returns: the constructor has entered the tab into the tracker, and the handle is
added to the list of the filter. -/
def CreateTabProxy (tab_proxy : TabProxy) (handle : AutomationHandle)
    (p : ChromeFrameAutomationProxy) : TabProxy × ChromeFrameAutomationProxy :=
  if tab_proxy ≠ NULL then
    let filter := { p.message_filter_ with
      tracker_ := p.message_filter_.tracker_.Add handle tab_proxy }
    (tab_proxy, { p with message_filter_ := filter.AddTabProxy handle })
  else
    (tab_proxy, p)

/-- The method `ReleaseTabProxy`: `message_filter_->RemoveTabProxy(handle)`. -/
def ReleaseTabProxy (handle : AutomationHandle) (p : ChromeFrameAutomationProxy) :
    ChromeFrameAutomationProxy :=
  { p with message_filter_ := p.message_filter_.RemoveTabProxy handle }

end ChromeFrameAutomationProxyImpl

namespace ChromeFrameAutomationProxyImpl

/-- Modelled from the spec: `Dispatch` of an inbound message (the channel that does it is
outside the sources): the two filters are offered the message in the order the constructor has
added them, `message_filter_` and then `sync_`, until one of them handles it. The first
component tells whether one has. -/
def Dispatch (handled : TabProxy → Message → Bool) (msg : Message)
    (p : ChromeFrameAutomationProxy) : Bool × ChromeFrameAutomationProxy :=
  let r := p.message_filter_.OnMessageReceived handled msg
  if r.1 then (true, { p with message_filter_ := r.2 })
  else
    let r2 := p.sync_.OnMessageReceived msg
    (r2.1, { p with message_filter_ := r.2, sync_ := r2.2 })

end ChromeFrameAutomationProxyImpl

/-- What can happen to a live proxy: the four calls of its clients, an inbound message, and a
channel error reported to the tab filter. -/
inductive ProxyOp
  | SendAsAsync (msg : Message) (context : Nat) (key : Nat)
  | CancelAsync (key : Nat)
  | CreateTabProxy (tab_proxy : TabProxy) (handle : AutomationHandle)
  | ReleaseTabProxy (handle : AutomationHandle)
  | Dispatch (msg : Message)
  | OnChannelError
  deriving DecidableEq, Repr

namespace ChromeFrameAutomationProxyImpl

/-- One step of a live proxy; `none` when the step has no defined outcome. -/
def step (handled : TabProxy → Message → Bool) (unregisters : TabProxy → List AutomationHandle)
    (p : ChromeFrameAutomationProxy) : ProxyOp → Option ChromeFrameAutomationProxy
  | ProxyOp.SendAsAsync msg context key => some (SendAsAsync msg context key p)
  | ProxyOp.CancelAsync key => some (CancelAsync key p)
  | ProxyOp.CreateTabProxy tab_proxy handle => some (CreateTabProxy tab_proxy handle p).2
  | ProxyOp.ReleaseTabProxy handle => some (ReleaseTabProxy handle p)
  | ProxyOp.Dispatch msg => some (Dispatch handled msg p).2
  | ProxyOp.OnChannelError =>
      (p.message_filter_.OnChannelError unregisters).map
        (fun f => { p with message_filter_ := f })

/-- A run of a live proxy: the steps are taken in order, as long as they are defined. -/
def run (handled : TabProxy → Message → Bool) (unregisters : TabProxy → List AutomationHandle) :
    ChromeFrameAutomationProxy → List ProxyOp → Option ChromeFrameAutomationProxy
  | p, [] => some p
  | p, op :: ops =>
      match step handled unregisters p op with
      | none => none
      | some q => run handled unregisters q ops

end ChromeFrameAutomationProxyImpl

/-! ## Vocabulary of the statements about the live proxy -/

/-- Whether a call is `OnChannelError` on the tab found for the handle `h`. -/
def TabCall.isOnChannelErrorFor (h : AutomationHandle) : TabCall → Bool
  | TabCall.OnChannelError handle _ => handle == h
  | _ => false

/-- Whether a step registers a pending call under the key `T`. -/
def ProxyOp.sendsWith (T : Nat) : ProxyOp → Bool
  | ProxyOp.SendAsAsync _ _ key => key == T
  | _ => false

/-- Whether a step registers the handle `h` with the tab filter. -/
def ProxyOp.creates (h : AutomationHandle) : ProxyOp → Bool
  | ProxyOp.CreateTabProxy _ handle => handle == h
  | _ => false

namespace AutomationHandleTracker

/-- The calls of a broadcast that reaches every node of the list: `OnChannelError` on the tab
of each handle of the list that the tracker resolves, in list order. -/
def broadcast (tracker : AutomationHandleTracker) : List AutomationHandle → List TabCall
  | [] => []
  | handle :: rest =>
      match tracker.GetResource handle with
      | none => broadcast tracker rest
      | some tab => TabCall.OnChannelError handle tab :: broadcast tracker rest

end AutomationHandleTracker

/-! ## Sample inputs for the live proxy -/

/-- A proxy with nothing pending, no tab and no call made. -/
def proxyIdle : ChromeFrameAutomationProxy :=
  { sync_ := { message_queue_ := [], invoked := [] }
    message_filter_ := { tracker_ := { resources := [] }, tabs_list_ := [], calls := [] }
    calls := [] }

/-- A request, of routing id `5`. -/
def requestFind : Message :=
  { routing_id := 5, type := 1, reply := none, tab_message := false }

/-- The reply that carries the correlation token `42`. -/
def reply42 : Message :=
  { routing_id := 5, type := 1, reply := some 42, tab_message := false }

/-- A notification for the tab of routing id `5`. -/
def tabMessage5 : Message :=
  { routing_id := 5, type := 2, reply := none, tab_message := true }

/-- A proxy with the tabs `70` and `71` created under the handles `5` and `6`. -/
def proxyTwoTabs : ChromeFrameAutomationProxy :=
  (ChromeFrameAutomationProxyImpl.CreateTabProxy 71 6
    (ChromeFrameAutomationProxyImpl.CreateTabProxy 70 5 proxyIdle).2).2

/-- A proxy with one call pending, sent with context `7` under the key `42`. -/
def proxyOnePending : ChromeFrameAutomationProxy :=
  ChromeFrameAutomationProxyImpl.SendAsAsync requestFind 7 42 proxyIdle

/-- Every tab answers that it has handled the message. -/
def handledAlways : TabProxy → Message → Bool :=
  fun _ _ => true

/-- No callback unregisters anything. -/
def unregistersNothing : TabProxy → List AutomationHandle :=
  fun _ => []

namespace ProxyFactory

/-- The method `ReleaseAutomationServer` up to the return of `done.Wait()`, for a `server_id`
that is not null: `RemoveDelegate` has been posted to the worker of the entry and run by it.
The registry lock is not held here, and the entry stays in the registry as the worker leaves
it. The first component is the local `last_delegate`. -/
def ReleaseAutomationServer_wait (env : LaunchEnv) (server_id : Nat) (delegate : LaunchDelegate)
    (s : ProxyFactory) : Bool × ProxyFactory :=
  match s.proxies_.find? (fun p => p.addr == server_id) with
  | none => (false, s)
  | some entry =>
      let r := PostRemoveDelegate env delegate entry
      let proxies := updateFirst (fun p => p.addr == server_id) (fun _ => r.1) s.proxies_
      (r.2, { s with proxies_ := proxies })

/-- The block `if (last_delegate) ...` that ends `ReleaseAutomationServer`: under the registry
lock the entry is looked up and erased. -/
def ReleaseAutomationServer_erase (server_id : Nat) (last_delegate : Bool) (s : ProxyFactory) :
    ProxyFactory :=
  if last_delegate then
    { s with proxies_ := s.proxies_.eraseP (fun p => p.addr == server_id) }
  else s

end ProxyFactory

/-! ## The assertions of `AddDelegate` and the discipline of the clients -/

namespace AutomationProxyCacheEntry

/-- The condition of the `DCHECK` "Same delegate being added twice" of `AddDelegate`: `std::find`
returns `end()`. -/
def AddDelegate_DCHECK_find (delegate : LaunchDelegate) (e : AutomationProxyCacheEntry) : Bool :=
  find delegate e.launch_delegates_ == none

/-- The condition of `DCHECK(launch_result_ != AUTOMATION_LAUNCH_RESULT_INVALID)` of
`AddDelegate`. -/
def AddDelegate_DCHECK_launch_result (e : AutomationProxyCacheEntry) : Bool :=
  e.launch_result_ != AUTOMATION_LAUNCH_RESULT_INVALID

end AutomationProxyCacheEntry

/-- Whether a call is `Signal` on the event `done`. -/
def Call.isSignalOn (done : WaitableEvent) : Call → Bool
  | Call.Signal event _ => event == done
  | _ => false

/-- The delegate a task registers when the worker runs it. -/
def PendingTask.registrant : PendingTask → Option LaunchDelegate
  | PendingTask.CreateProxy _ delegate => some delegate
  | PendingTask.AddDelegate delegate => some delegate
  | _ => none

/-- Whether a task is `RemoveDelegate`. -/
def PendingTask.isRemoveDelegate : PendingTask → Bool
  | PendingTask.RemoveDelegate _ _ => true
  | _ => false

/-- The delegates of an entry together with those its pending tasks are about to register, in
the order of registration. -/
def AutomationProxyCacheEntry.registrants (e : AutomationProxyCacheEntry) :
    List LaunchDelegate :=
  e.launch_delegates_ ++ e.thread_.filterMap PendingTask.registrant

/-- The acquisitions outstanding after a step, as pairs of a delegate and a profile name:
`GetAutomationServer` adds the acquisition of its delegate, `ReleaseAutomationServer` on the
entry of a profile ends the acquisition of that profile by its delegate. -/
def ProxyFactory.acquired (s : ProxyFactory) (held : List (LaunchDelegate × String)) :
    Op → List (LaunchDelegate × String)
  | Op.GetAutomationServer delegate params => (delegate, params.profile_name) :: held
  | Op.ReleaseAutomationServer _ server_id delegate =>
      if server_id = NULL then held
      else
        match s.proxies_.find? (fun p => p.addr == server_id) with
        | none => held
        | some entry => held.filter (fun a => a != (delegate, entry.profile_name))
  | _ => held

/-- Whether a step is a `GetAutomationServer` of a delegate for a profile it has acquired and
not released. -/
def Op.reacquires (held : List (LaunchDelegate × String)) : Op → Bool
  | Op.GetAutomationServer delegate params => held.contains (delegate, params.profile_name)
  | _ => false

/-- A run in which no delegate calls `GetAutomationServer` for a profile again before it has
released its previous acquisition of that profile. -/
def ProxyFactory.disciplined :
    ProxyFactory → List (LaunchDelegate × String) → List Op → Bool
  | _, _, [] => true
  | s, held, op :: ops =>
      !(op.reacquires held) && ProxyFactory.disciplined (s.step op) (s.acquired held op) ops

/-! ## Further sample inputs of the cache -/

/-- A platform on which no command line could be assembled, so that no process is started. -/
def launchNoCommandLine : LaunchEnv :=
  { channel_id := "channel"
    command_line_string := ""
    LaunchProcess := true
    WaitForAppLaunch := AUTOMATION_SUCCESS }

/-- A platform on which the browser starts and the handshake times out. -/
def launchTimeout : LaunchEnv :=
  { channel_id := "channel"
    command_line_string := "chrome.exe --automation-channel=channel --chrome-frame"
    LaunchProcess := true
    WaitForAppLaunch := AUTOMATION_TIMEOUT }

/-- A factory in which delegate `11` holds `"profileA"`, the worker being idle. -/
def factoryOneHolder : ProxyFactory :=
  ProxyFactory.ctor.run [Op.GetAutomationServer 11 profileA, Op.DoWork launchOk 1]

/-- A factory in which delegate `11` has asked for `"profileA"` twice without releasing it in
between and the worker has run both tasks: the delegate list is `[11, 11]`. -/
def factoryJoinedTwice : ProxyFactory :=
  ProxyFactory.ctor.run
    [Op.GetAutomationServer 11 profileA, Op.GetAutomationServer 11 profileA,
     Op.DoWork launchOk 1, Op.DoWork launchOk 1]

/-- A factory in which the launch of `"profileA"` for delegate `11` could not start the
process, and delegate `12` has asked for the profile since: `AddDelegate(12)` is pending. -/
def factoryLaunchFailed : ProxyFactory :=
  ProxyFactory.ctor.run
    [Op.GetAutomationServer 11 profileA, Op.DoWork launchNoCommandLine 1,
     Op.GetAutomationServer 12 profileA]

/-- The entry of `"profileA"` that delegate `11` has launched and holds alone, while the worker
has `RemoveDelegate(11)` to run and, behind it, the channel error that has just been
reported. -/
def entryLeavingOnError : AutomationProxyCacheEntry :=
  AutomationProxyCacheEntry.PostTask PendingTask.OnChannelError
    (AutomationProxyCacheEntry.PostTask (PendingTask.RemoveDelegate 11 1) entryLaunched)

/-- What the discipline of the clients keeps true of an entry: no `RemoveDelegate` is left
pending (the caller waits for it), no delegate is registered or about to be registered twice,
and every such delegate that is not null holds an acquisition of the profile of the entry. -/
def AutomationProxyCacheEntry.accounted (held : List (LaunchDelegate × String))
    (e : AutomationProxyCacheEntry) : Prop :=
  (∀ t ∈ e.thread_, t.isRemoveDelegate = false) ∧ e.registrants.Nodup ∧
    ∀ d ∈ e.registrants, d ≠ NULL → (d, e.profile_name) ∈ held

/-! ## `ChromeFrameAutomationClient` -/

/-- The initialization states of a client. The enum is declared in the header, outside the
sources: these are the three values the file names and `INITIALIZED`, the state
`is_initialized()` asks for. -/
inductive InitializationState
  | UNINITIALIZED
  | INITIALIZING
  | INITIALIZED
  | UNINITIALIZING
  deriving DecidableEq, Repr

/-- A `TabProxy` object as its client sees it: its address and what `handle()` returns. -/
structure TabProxyObject where
  addr : TabProxy
  handle : AutomationHandle
  deriving DecidableEq, Repr

/-- A call a client makes on one of its collaborators: on its tab, on the automation proxy
`automation_server_`, on the proxy factory, on its window. -/
inductive ClientCall
  | RemoveObserver (tab : TabProxy) (observer : Nat)
  | ReleaseTabProxy (handle : AutomationHandle)
  | CancelAsync (key : Nat)
  | ReleaseAutomationServer (server_id : Nat) (delegate : LaunchDelegate)
  | DestroyWindow
  deriving DecidableEq, Repr

/-- The members of a `ChromeFrameAutomationClient` that `Uninitialize` and
`ReleaseAutomationServer` read or write. `addr` is the address of the client, which it hands out
as delegate and as key; `tab_` is `none` for a null reference; `m_hWnd` tells whether
`::IsWindow(m_hWnd)` holds; `calls` lists the calls the client has made, in order. -/
structure ChromeFrameAutomationClient where
  addr : Nat
  chrome_frame_delegate_ : Nat
  automation_server_ : Nat
  automation_server_id_ : Nat
  ui_thread_id_ : Nat
  init_state_ : InitializationState
  handle_top_level_requests_ : Bool
  url_fetcher_ : Nat
  tab_ : Option TabProxyObject
  m_hWnd : Bool
  calls : List ClientCall
  deriving DecidableEq, Repr

namespace ChromeFrameAutomationClient

open InitializationState

/-- The constructor `ChromeFrameAutomationClient::ChromeFrameAutomationClient`: every pointer
is null, the state is `UNINITIALIZED`, and there is no window yet. -/
def ctor (addr : Nat) : ChromeFrameAutomationClient :=
  { addr := addr
    chrome_frame_delegate_ := NULL
    automation_server_ := NULL
    automation_server_id_ := NULL
    ui_thread_id_ := NULL
    init_state_ := UNINITIALIZED
    handle_top_level_requests_ := false
    url_fetcher_ := NULL
    tab_ := none
    m_hWnd := false
    calls := [] }

/-- The condition of the `DCHECK(automation_server_ == NULL)` that `ReleaseAutomationServer`
makes on its branch without a server id: a proxy is held only together with a server id. -/
def ReleaseAutomationServer_DCHECK (c : ChromeFrameAutomationClient) : Bool :=
  c.automation_server_id_ != NULL || c.automation_server_ == NULL

/-- The method `ReleaseAutomationServer` of the client. The callbacks the factory may make on
the client while it releases (`LaunchComplete`, whose body is empty, and
`AutomationServerDied`, which posts a task) write none of these members. -/
def ReleaseAutomationServer (c : ChromeFrameAutomationClient) : ChromeFrameAutomationClient :=
  if c.automation_server_id_ ≠ NULL then
    let server_id := c.automation_server_id_
    let c1 := { c with automation_server_id_ := NULL }
    let c2 :=
      if c1.automation_server_ ≠ NULL then
        { c1 with calls := c1.calls ++ [ClientCall.CancelAsync c1.addr] }
      else c1
    let release := ClientCall.ReleaseAutomationServer server_id c2.addr
    let c3 := { c2 with calls := c2.calls ++ [release] }
    { c3 with automation_server_ := NULL }
  else
    -- DCHECK(automation_server_ == NULL)
    c

/-- The call `DestroyWindow()`: the window is gone afterwards. -/
def DestroyWindow (c : ChromeFrameAutomationClient) : ChromeFrameAutomationClient :=
  { c with m_hWnd := false, calls := c.calls ++ [ClientCall.DestroyWindow] }

/-- The method `Uninitialize`. -/
def Uninitialize (c : ChromeFrameAutomationClient) : ChromeFrameAutomationClient :=
  if c.init_state_ = UNINITIALIZED then c
  else
    let c1 := { c with init_state_ := UNINITIALIZING }
    let c2 := if c1.url_fetcher_ ≠ NULL then { c1 with url_fetcher_ := NULL } else c1
    let c3 :=
      match c2.tab_ with
      | some tab =>
          let c31 := { c2 with calls := c2.calls ++ [ClientCall.RemoveObserver tab.addr c2.addr] }
          let c32 :=
            if c31.automation_server_ ≠ NULL then
              { c31 with calls := c31.calls ++ [ClientCall.ReleaseTabProxy tab.handle] }
            else c31
          { c32 with tab_ := none }
      | none => c2
    let c4 := ReleaseAutomationServer c3
    let c5 := if c4.m_hWnd then DestroyWindow c4 else c4
    { c5 with handle_top_level_requests_ := false
              ui_thread_id_ := 0
              chrome_frame_delegate_ := NULL
              init_state_ := UNINITIALIZED }

end ChromeFrameAutomationClient

/-- Whether a call is made on the proxy factory. -/
def ClientCall.isFactoryCall : ClientCall → Bool
  | ClientCall.ReleaseAutomationServer _ _ => true
  | _ => false

/-- A client at address `21` that is initialized: it holds the server id `1`, the proxy `50`
and the tab `70` of handle `5`, and its window exists. -/
def clientInitialized : ChromeFrameAutomationClient :=
  { addr := 21
    chrome_frame_delegate_ := 31
    automation_server_ := 50
    automation_server_id_ := 1
    ui_thread_id_ := 9
    init_state_ := InitializationState.INITIALIZED
    handle_top_level_requests_ := true
    url_fetcher_ := 41
    tab_ := some { addr := 70, handle := 5 }
    m_hWnd := true
    calls := [] }

/-- A client that is initializing and holds a proxy but no server id: a state that the
assertion of `ReleaseAutomationServer` rules out and that no method of the file produces. -/
def clientProxyWithoutId : ChromeFrameAutomationClient :=
  { clientInitialized with
    automation_server_id_ := NULL
    init_state_ := InitializationState.INITIALIZING }

/-! ## net/cert/nss_profile_filter_chromeos.cc -/

/-- A `PK11SlotInfo*`. -/
abbrev PK11SlotInfo := Nat

/-- A `SECMODModule*`. -/
abbrev SECMODModule := Nat

/-- The handle of a certificate, `cert->os_cert_handle()`. -/
abbrev X509Certificate := Nat

/-- What the NSS library, which is outside the sources, answers: whether a slot is the
internal key slot, the module of a slot, and the slots of a certificate, `none` standing for
the null list that `PK11_GetAllSlotsForCert` returns when there is none. -/
structure NSS where
  PK11_IsInternalKeySlot : PK11SlotInfo → Bool
  PK11_GetModule : PK11SlotInfo → SECMODModule
  PK11_GetAllSlotsForCert : X509Certificate → Option (List PK11SlotInfo)

/-- The `NSSProfileFilterChromeOS`: the two slots `Init` has stored. -/
structure NSSProfileFilterChromeOS where
  public_slot_ : PK11SlotInfo
  private_slot_ : PK11SlotInfo
  deriving DecidableEq, Repr

namespace NSSProfileFilterChromeOS

/-- The method `IsModuleAllowed`. -/
def IsModuleAllowed (nss : NSS) (filter : NSSProfileFilterChromeOS) (slot : PK11SlotInfo) :
    Bool :=
  if slot == filter.public_slot_ || slot == filter.private_slot_ then true
  else if nss.PK11_IsInternalKeySlot slot then true
  else if nss.PK11_GetModule slot != nss.PK11_GetModule filter.public_slot_ &&
      nss.PK11_GetModule slot != nss.PK11_GetModule filter.private_slot_ then true
  else false

/-- The loop of `IsCertAllowed` over the slot list, from the element under the iterator on:
it returns at the first slot that is allowed. -/
def IsCertAllowedFrom (nss : NSS) (filter : NSSProfileFilterChromeOS) :
    List PK11SlotInfo → Bool
  | [] => false
  | slot :: rest =>
      if IsModuleAllowed nss filter slot then true else IsCertAllowedFrom nss filter rest

/-- The method `IsCertAllowed`. -/
def IsCertAllowed (nss : NSS) (filter : NSSProfileFilterChromeOS) (cert : X509Certificate) :
    Bool :=
  match nss.PK11_GetAllSlotsForCert cert with
  | none => true
  | some slots_for_cert => IsCertAllowedFrom nss filter slots_for_cert

end NSSProfileFilterChromeOS

/-- An NSS state: slot `3` is the internal key slot; the slots `1`, `2` and `4` belong to the
module `100`, the others to the module `200`; certificate `1` has no slot list, certificate `2`
is on the slots `4` and `5`, certificate `3` on the slot `4` only, certificate `4` has an empty
list. -/
def nssSample : NSS :=
  { PK11_IsInternalKeySlot := fun slot => slot == 3
    PK11_GetModule := fun slot => if slot == 1 || slot == 2 || slot == 4 then 100 else 200
    PK11_GetAllSlotsForCert := fun cert =>
      if cert == 1 then none
      else if cert == 2 then some [4, 5]
      else if cert == 3 then some [4]
      else some [] }

/-- The filter of a profile whose public slot is `1` and whose private slot is `2`. -/
def filterSample : NSSProfileFilterChromeOS :=
  { public_slot_ := 1, private_slot_ := 2 }

/-! # Theorems -/

/-! ## What the worker leaves alone -/

namespace AutomationProxyCacheEntry

theorem frame_CreateProxy (env : LaunchEnv) (params : ChromeFrameLaunchParams)
    (delegate : LaunchDelegate) (e : AutomationProxyCacheEntry) :
    (CreateProxy env params delegate e).frame = e.frame := by
  unfold CreateProxy frame
  by_cases h1 : env.command_line_string.isEmpty = true <;>
    by_cases h2 : env.LaunchProcess = true <;> simp [h1, h2]

theorem frame_AddDelegate (delegate : LaunchDelegate) (e : AutomationProxyCacheEntry) :
    (AddDelegate delegate e).frame = e.frame := rfl

theorem frame_OnChannelError (e : AutomationProxyCacheEntry) :
    (OnChannelError e).frame = e.frame := rfl

theorem frame_RemoveDelegate (R : AutomationProxyCacheEntry → AutomationProxyCacheEntry)
    (hR : ∀ x, (R x).frame = x.frame) (delegate : LaunchDelegate) (done : WaitableEvent)
    (e : AutomationProxyCacheEntry) :
    (RemoveDelegate R delegate done e).1.frame = e.frame := by
  unfold RemoveDelegate
  cases find delegate e.launch_delegates_ with
  | none => rfl
  | some it =>
    by_cases h : e.launch_delegates_.length = 1
    · simp only [h, if_true]
      exact hR e
    · simp only [h, if_false]
      rfl

theorem frame_RunTask (R : AutomationProxyCacheEntry → AutomationProxyCacheEntry)
    (hR : ∀ x, (R x).frame = x.frame) (env : LaunchEnv) (t : PendingTask)
    (e : AutomationProxyCacheEntry) : (RunTask R env t e).1.frame = e.frame := by
  cases t with
  | CreateProxy params delegate => exact frame_CreateProxy env params delegate e
  | AddDelegate delegate => rfl
  | OnChannelError => rfl
  | RemoveDelegate delegate done => exact frame_RemoveDelegate R hR delegate done e

theorem frame_RunTasks (env : LaunchEnv) (q : List PendingTask) :
    ∀ e : AutomationProxyCacheEntry, (RunTasks env q e).frame = e.frame := by
  induction q with
  | nil => intro e; rfl
  | cons t q ih =>
    intro e
    have h1 := frame_RunTask (RunTasks env q) ih env t e
    simp only [RunTasks]
    split
    · exact h1
    · rw [ih]; exact h1

end AutomationProxyCacheEntry

namespace AutomationProxyCacheEntry

theorem addr_of_frame {x y : AutomationProxyCacheEntry} (h : x.frame = y.frame) :
    x.addr = y.addr := congrArg (fun f => f.1) h

theorem profile_name_of_frame {x y : AutomationProxyCacheEntry} (h : x.frame = y.frame) :
    x.profile_name = y.profile_name := congrArg (fun f => f.2.1) h

theorem thread_of_frame {x y : AutomationProxyCacheEntry} (h : x.frame = y.frame) :
    x.thread_ = y.thread_ := congrArg (fun f => f.2.2.1) h

theorem posted_of_frame {x y : AutomationProxyCacheEntry} (h : x.frame = y.frame) :
    x.posted = y.posted := congrArg (fun f => f.2.2.2) h

theorem frame_RunTask_RunTasks (env : LaunchEnv) (t : PendingTask) (q : List PendingTask)
    (e : AutomationProxyCacheEntry) : (RunTask (RunTasks env q) env t e).1.frame = e.frame :=
  frame_RunTask (RunTasks env q) (frame_RunTasks env q) env t e

/-- What one turn of the worker keeps: the address, the profile and the history of posts. -/
theorem DoWork_keeps (env : LaunchEnv) (e : AutomationProxyCacheEntry) :
    (DoWork env e).addr = e.addr ∧ (DoWork env e).profile_name = e.profile_name ∧
      (DoWork env e).posted = e.posted := by
  unfold DoWork
  cases e.thread_ with
  | nil => exact ⟨rfl, rfl, rfl⟩
  | cons t q =>
    have hf := frame_RunTask_RunTasks env t q e
    have h1 := addr_of_frame hf
    have h2 := profile_name_of_frame hf
    have h3 := posted_of_frame hf
    exact ⟨h1, h2, h3⟩

/-- What the worker's side of a release keeps: the address and the profile; the history of
posts grows by the `RemoveDelegate` task. -/
theorem WaitRemoveDelegate_keeps (env : LaunchEnv) (delegate : LaunchDelegate)
    (done : WaitableEvent) (e : AutomationProxyCacheEntry) :
    (WaitRemoveDelegate env delegate done e).1.addr = e.addr ∧
      (WaitRemoveDelegate env delegate done e).1.profile_name = e.profile_name ∧
      (WaitRemoveDelegate env delegate done e).1.posted =
        e.posted ++ [PendingTask.RemoveDelegate delegate done] := by
  have hf : (RemoveDelegate (RunTasks env []) delegate done (RunTasks env e.thread_ e)).1.frame
      = e.frame :=
    (frame_RemoveDelegate _ (frame_RunTasks env []) delegate done _).trans
      (frame_RunTasks env e.thread_ e)
  have h1 := addr_of_frame hf
  have h2 := profile_name_of_frame hf
  exact ⟨h1, h2, rfl⟩

end AutomationProxyCacheEntry

/-! ## The registry as a list -/

theorem map_updateFirst {α β : Type} (g : α → β) (p : α → Bool) (f : α → α) (l : List α)
    (h : ∀ x ∈ l, p x = true → g (f x) = g x) : (updateFirst p f l).map g = l.map g := by
  induction l with
  | nil => rfl
  | cons x xs ih =>
    by_cases hp : p x = true
    · simp [updateFirst, hp, h x (List.mem_cons_self x xs) hp]
    · simp [updateFirst, hp, ih (fun y hy => h y (List.mem_cons_of_mem x hy))]

theorem updateFirst_id {α : Type} (p : α → Bool) (l : List α) :
    updateFirst p (fun x => x) l = l := by
  induction l with
  | nil => rfl
  | cons x xs ih =>
    by_cases hp : p x = true
    · simp [updateFirst, hp]
    · simp [updateFirst, hp, ih]

/-- Writing a value over the first element that satisfies `p` is the in-place update by any
function that sends that element to the value. -/
theorem updateFirst_const {α : Type} (p : α → Bool) (f : α → α) (l : List α) (a : α)
    (h : l.find? p = some a) : updateFirst p (fun _ => f a) l = updateFirst p f l := by
  induction l with
  | nil => simp at h
  | cons x xs ih =>
    by_cases hp : p x = true
    · simp only [List.find?_cons, hp] at h
      cases h
      simp [updateFirst, hp]
    · have hp2 : p x = false := by simpa using hp
      simp only [List.find?_cons, hp2] at h
      simp [updateFirst, hp, ih h]

namespace ProxyFactory

/-- The value of `GetAutomationServer` when the lookup misses. -/
theorem GetAutomationServer_miss (delegate : LaunchDelegate) (params : ChromeFrameLaunchParams)
    (s : ProxyFactory)
    (h : s.proxies_.find? (fun p => p.IsSameProfile params.profile_name) = none) :
    s.GetAutomationServer delegate params =
      (s.next_addr,
        { proxies_ := s.proxies_ ++ [AutomationProxyCacheEntry.ctor s.next_addr params delegate]
          next_addr := s.next_addr + 1 }) := by
  simp [GetAutomationServer, h, AutomationProxyCacheEntry.ctor,
    AutomationProxyCacheEntry.PostTask]

/-- The value of `GetAutomationServer` when the lookup hits. -/
theorem GetAutomationServer_hit (delegate : LaunchDelegate) (params : ChromeFrameLaunchParams)
    (s : ProxyFactory) (entry : AutomationProxyCacheEntry)
    (h : s.proxies_.find? (fun p => p.IsSameProfile params.profile_name) = some entry) :
    s.GetAutomationServer delegate params =
      (entry.addr,
        ProxyFactory.mk
          (updateFirst (fun p => p.IsSameProfile params.profile_name)
            (fun e => if delegate ≠ NULL then e.PostTask (PendingTask.AddDelegate delegate) else e)
            s.proxies_)
          s.next_addr) := by
  by_cases hd : delegate = NULL
  · simp [GetAutomationServer, h, hd, updateFirst_id]
  · simp [GetAutomationServer, h, hd]

/-- The value of `ReleaseAutomationServer` when the handle designates an entry of the registry. -/
theorem ReleaseAutomationServer_hit (env : LaunchEnv) (server_id : Nat)
    (delegate : LaunchDelegate) (s : ProxyFactory) (entry : AutomationProxyCacheEntry)
    (h0 : server_id ≠ NULL) (h : s.proxies_.find? (fun p => p.addr == server_id) = some entry) :
    s.ReleaseAutomationServer env server_id delegate =
      (true,
        ProxyFactory.mk
          (if (PostRemoveDelegate env delegate entry).2 then
            (updateFirst (fun p => p.addr == server_id)
              (fun e => (PostRemoveDelegate env delegate e).1) s.proxies_).eraseP
              (fun p => p.addr == server_id)
          else
            updateFirst (fun p => p.addr == server_id)
              (fun e => (PostRemoveDelegate env delegate e).1) s.proxies_)
          s.next_addr) := by
  have hc := updateFirst_const (fun p => p.addr == server_id)
    (fun e => (PostRemoveDelegate env delegate e).1) s.proxies_ entry h
  simp only [ReleaseAutomationServer, h0, if_false, h]
  rw [← hc]
  by_cases hl : (PostRemoveDelegate env delegate entry).2 = true
  · simp [hl]
  · simp [hl]

theorem PostRemoveDelegate_keeps (env : LaunchEnv) (delegate : LaunchDelegate)
    (e : AutomationProxyCacheEntry) :
    (PostRemoveDelegate env delegate e).1.addr = e.addr ∧
      (PostRemoveDelegate env delegate e).1.profile_name = e.profile_name := by
  unfold PostRemoveDelegate
  by_cases hd : delegate = NULL
  · simp [hd]
  · simp only [ne_eq, hd, not_false_eq_true, if_true]
    exact ⟨(AutomationProxyCacheEntry.WaitRemoveDelegate_keeps _ _ _ e).1,
      (AutomationProxyCacheEntry.WaitRemoveDelegate_keeps _ _ _ e).2.1⟩

/-- A step changes the list of profile names of the registry in one of three ways: not at
all, by a new name at the end, or by taking names out. -/
theorem names_step (s : ProxyFactory) (op : Op) :
    (s.step op).proxies_.map (·.profile_name) = s.proxies_.map (·.profile_name) ∨
    (∃ name, name ∉ s.proxies_.map (·.profile_name) ∧
      (s.step op).proxies_.map (·.profile_name) = s.proxies_.map (·.profile_name) ++ [name]) ∨
    ((s.step op).proxies_.map (·.profile_name)).Sublist (s.proxies_.map (·.profile_name)) := by
  cases op with
  | GetAutomationServer delegate params =>
    cases h : s.proxies_.find? (fun p => p.IsSameProfile params.profile_name) with
    | none =>
      right; left
      refine ⟨params.profile_name, ?_, ?_⟩
      · intro hmem
        obtain ⟨x, hx, hxn⟩ := List.mem_map.1 hmem
        have := List.find?_eq_none.1 h x hx
        simp [AutomationProxyCacheEntry.IsSameProfile, hxn] at this
      · simp [step, GetAutomationServer_miss _ _ _ h, AutomationProxyCacheEntry.ctor,
          AutomationProxyCacheEntry.PostTask]
    | some entry =>
      left
      simp only [step, GetAutomationServer_hit _ _ _ _ h]
      refine map_updateFirst _ _ _ _ (fun x _ _ => ?_)
      by_cases hd : delegate = NULL
      · simp [hd]
      · simp [hd, AutomationProxyCacheEntry.PostTask]
  | ReleaseAutomationServer env server_id delegate =>
    by_cases h0 : server_id = NULL
    · left; simp [step, ReleaseAutomationServer, h0]
    · cases h : s.proxies_.find? (fun p => p.addr == server_id) with
      | none => left; simp [step, ReleaseAutomationServer, h0, h]
      | some entry =>
        have hkeep : (updateFirst (fun p => p.addr == server_id)
            (fun e => (PostRemoveDelegate env delegate e).1) s.proxies_).map (·.profile_name)
            = s.proxies_.map (·.profile_name) :=
          map_updateFirst _ _ _ _ (fun x _ _ => (PostRemoveDelegate_keeps env delegate x).2)
        simp only [step, ReleaseAutomationServer_hit env server_id delegate s entry h0 h]
        by_cases hl : (PostRemoveDelegate env delegate entry).2 = true
        · right; right
          simp only [hl, if_true]
          rw [← hkeep]
          exact (List.eraseP_sublist _).map _
        · left
          simp only [hl, if_false]
          exact hkeep
  | DoWork env server_id =>
    left
    exact map_updateFirst _ _ _ _
      (fun x _ _ => (AutomationProxyCacheEntry.DoWork_keeps env x).2.1)
  | ChannelError server_id =>
    left
    exact map_updateFirst _ _ _ _ (fun x _ _ => rfl)

theorem run_cons (s : ProxyFactory) (op : Op) (ops : List Op) :
    s.run (op :: ops) = (s.step op).run ops := rfl

/-- The profile names stay pairwise different along every run. -/
theorem names_nodup_run (ops : List Op) :
    ∀ s : ProxyFactory, (s.proxies_.map (·.profile_name)).Nodup →
      ((s.run ops).proxies_.map (·.profile_name)).Nodup := by
  induction ops with
  | nil => intro s h; exact h
  | cons op ops ih =>
    intro s h
    rw [run_cons]
    apply ih
    rcases names_step s op with h1 | ⟨name, hn, h2⟩ | h3
    · rw [h1]; exact h
    · rw [h2]
      exact List.Nodup.append h (List.nodup_singleton name) (by simpa using hn)
    · exact h.sublist h3

end ProxyFactory

/-- C1: along every sequence of `GetAutomationServer` and `ReleaseAutomationServer` calls
(interleaved with any turns of the workers and any channel errors) that starts from the empty
registry, the registry never holds two entries with the same profile name: whatever the
sequence run so far, the profile names of `proxies_` are pairwise different. -/
theorem registry_profile_names_unique (ops : List Op) :
    ((ProxyFactory.ctor.run ops).proxies_.map (·.profile_name)).Nodup :=
  ProxyFactory.names_nodup_run ops ProxyFactory.ctor List.nodup_nil

/-! ## Addresses along a run -/

namespace ProxyFactory

/-- A step changes the list of addresses of the registry in one of three ways: not at all,
by the address the allocator hands out next, or by taking addresses out. -/
theorem addrs_step (s : ProxyFactory) (op : Op) :
    ((s.step op).proxies_.map (·.addr) = s.proxies_.map (·.addr) ∧
      (s.step op).next_addr = s.next_addr) ∨
    ((s.step op).proxies_.map (·.addr) = s.proxies_.map (·.addr) ++ [s.next_addr] ∧
      (s.step op).next_addr = s.next_addr + 1) ∨
    (((s.step op).proxies_.map (·.addr)).Sublist (s.proxies_.map (·.addr)) ∧
      (s.step op).next_addr = s.next_addr) := by
  cases op with
  | GetAutomationServer delegate params =>
    cases h : s.proxies_.find? (fun p => p.IsSameProfile params.profile_name) with
    | none =>
      right; left
      simp [step, GetAutomationServer_miss _ _ _ h, AutomationProxyCacheEntry.ctor,
        AutomationProxyCacheEntry.PostTask]
    | some entry =>
      left
      simp only [step, GetAutomationServer_hit _ _ _ _ h, and_true]
      refine map_updateFirst _ _ _ _ (fun x _ _ => ?_)
      by_cases hd : delegate = NULL
      · simp [hd]
      · simp [hd, AutomationProxyCacheEntry.PostTask]
  | ReleaseAutomationServer env server_id delegate =>
    by_cases h0 : server_id = NULL
    · left; simp [step, ReleaseAutomationServer, h0]
    · cases h : s.proxies_.find? (fun p => p.addr == server_id) with
      | none => left; simp [step, ReleaseAutomationServer, h0, h]
      | some entry =>
        have hkeep : (updateFirst (fun p => p.addr == server_id)
            (fun e => (PostRemoveDelegate env delegate e).1) s.proxies_).map (·.addr)
            = s.proxies_.map (·.addr) :=
          map_updateFirst _ _ _ _ (fun x _ _ => (PostRemoveDelegate_keeps env delegate x).1)
        simp only [step, ReleaseAutomationServer_hit env server_id delegate s entry h0 h]
        by_cases hl : (PostRemoveDelegate env delegate entry).2 = true
        · right; right
          simp only [hl, if_true, and_true]
          rw [← hkeep]
          exact (List.eraseP_sublist _).map _
        · left
          simp only [hl, if_false, and_true]
          exact hkeep
  | DoWork env server_id =>
    left
    exact ⟨map_updateFirst _ _ _ _
      (fun x _ _ => (AutomationProxyCacheEntry.DoWork_keeps env x).1), rfl⟩
  | ChannelError server_id =>
    left
    exact ⟨map_updateFirst _ _ _ _ (fun x _ _ => rfl), rfl⟩

/-- Along every run from a factory whose entries have pairwise different addresses, none null
and all below the next address of the allocator, the entries keep such addresses. -/
theorem addrs_run (ops : List Op) :
    ∀ s : ProxyFactory,
      ((s.proxies_.map (·.addr)).Nodup ∧ 0 < s.next_addr ∧
        ∀ a ∈ s.proxies_.map (·.addr), 0 < a ∧ a < s.next_addr) →
      (((s.run ops).proxies_.map (·.addr)).Nodup ∧ 0 < (s.run ops).next_addr ∧
        ∀ a ∈ (s.run ops).proxies_.map (·.addr), 0 < a ∧ a < (s.run ops).next_addr) := by
  induction ops with
  | nil => intro s h; exact h
  | cons op ops ih =>
    intro s ⟨hn, hpos, hb⟩
    rw [run_cons]
    apply ih
    rcases addrs_step s op with ⟨h1, h2⟩ | ⟨h1, h2⟩ | ⟨h1, h2⟩
    · rw [h1, h2]; exact ⟨hn, hpos, hb⟩
    · rw [h1, h2]
      have hfresh : s.next_addr ∉ s.proxies_.map (·.addr) :=
        fun hmem => Nat.lt_irrefl _ (hb _ hmem).2
      refine ⟨List.Nodup.append hn (List.nodup_singleton _) (by simpa using hfresh),
        Nat.succ_pos _, ?_⟩
      intro a ha
      rcases List.mem_append.1 ha with h | h
      · exact ⟨(hb a h).1, Nat.lt_succ_of_lt (hb a h).2⟩
      · simp only [List.mem_singleton] at h
        subst h
        exact ⟨hpos, Nat.lt_succ_self _⟩
    · rw [h2]
      exact ⟨hn.sublist h1, hpos, fun a ha => hb a (h1.subset ha)⟩

/-- In every factory reached from the constructed one, the entries have pairwise different
addresses, none of them null, and the allocator has not handed out its next address yet. -/
theorem addrs_reachable (ops : List Op) :
    ((ctor.run ops).proxies_.map (·.addr)).Nodup ∧
      ∀ e ∈ (ctor.run ops).proxies_, e.addr ≠ NULL ∧ e.addr ≠ (ctor.run ops).next_addr := by
  obtain ⟨h1, _, h3⟩ := addrs_run ops ctor ⟨List.nodup_nil, Nat.one_pos, by simp [ctor]⟩
  refine ⟨h1, fun e he => ?_⟩
  have := h3 e.addr (List.mem_map.2 ⟨e, he, rfl⟩)
  exact ⟨Nat.pos_iff_ne_zero.1 this.1, Nat.ne_of_lt this.2⟩

end ProxyFactory

/-! ## One entry and one launch per profile -/

namespace AutomationProxyCacheEntry

theorem launchTasks_ctor (addr : Nat) (params : ChromeFrameLaunchParams)
    (delegate : LaunchDelegate) : (ctor addr params delegate).launchTasks = 1 := by
  simp [ctor, PostTask, launchTasks, PendingTask.isCreateProxy]

theorem launchTasks_PostTask (t : PendingTask) (e : AutomationProxyCacheEntry)
    (h : t.isCreateProxy = false) : (PostTask t e).launchTasks = e.launchTasks := by
  simp [PostTask, launchTasks, List.countP_append, h]

theorem launchTasks_DoWork (env : LaunchEnv) (e : AutomationProxyCacheEntry) :
    (DoWork env e).launchTasks = e.launchTasks := by
  unfold launchTasks
  rw [(DoWork_keeps env e).2.2]

end AutomationProxyCacheEntry

namespace ProxyFactory

theorem launchTasks_PostRemoveDelegate (env : LaunchEnv) (delegate : LaunchDelegate)
    (e : AutomationProxyCacheEntry) :
    (PostRemoveDelegate env delegate e).1.launchTasks = e.launchTasks := by
  unfold PostRemoveDelegate
  by_cases hd : delegate = NULL
  · simp [hd]
  · simp only [ne_eq, hd, not_false_eq_true, if_true]
    unfold AutomationProxyCacheEntry.launchTasks
    rw [(AutomationProxyCacheEntry.WaitRemoveDelegate_keeps _ _ _ e).2.2]
    simp [List.countP_append, PendingTask.isCreateProxy]

/-- A step that is not the release of a last delegate leaves the profile and the number of
launch tasks of every entry as they are, and at most appends the entry a lookup has missed. -/
theorem summary_step (s : ProxyFactory) (op : Op) (h : op.releasesLast s = false) :
    (s.step op).proxies_.map (fun e => (e.profile_name, e.launchTasks)) =
        s.proxies_.map (fun e => (e.profile_name, e.launchTasks)) ∨
    (∃ d p, op = Op.GetAutomationServer d p ∧ p.profile_name ∉ s.proxies_.map (·.profile_name) ∧
      (s.step op).proxies_.map (fun e => (e.profile_name, e.launchTasks)) =
        s.proxies_.map (fun e => (e.profile_name, e.launchTasks)) ++ [(p.profile_name, 1)]) := by
  cases op with
  | GetAutomationServer delegate params =>
    cases hf : s.proxies_.find? (fun p => p.IsSameProfile params.profile_name) with
    | none =>
      right
      refine ⟨delegate, params, rfl, ?_, ?_⟩
      · intro hmem
        obtain ⟨x, hx, hxn⟩ := List.mem_map.1 hmem
        have := List.find?_eq_none.1 hf x hx
        simp [AutomationProxyCacheEntry.IsSameProfile, hxn] at this
      · simp only [step, GetAutomationServer_miss _ _ _ hf, List.map_append, List.map_cons,
          List.map_nil, AutomationProxyCacheEntry.launchTasks_ctor]
        rfl
    | some entry =>
      left
      simp only [step, GetAutomationServer_hit _ _ _ _ hf]
      refine map_updateFirst _ _ _ _ (fun x _ _ => ?_)
      by_cases hd : delegate = NULL
      · simp [hd]
      · simp only [ne_eq, hd, not_false_eq_true, if_true]
        rw [AutomationProxyCacheEntry.launchTasks_PostTask (PendingTask.AddDelegate delegate) x rfl]
        rfl
  | ReleaseAutomationServer env server_id delegate =>
    left
    by_cases h0 : server_id = NULL
    · simp [step, ReleaseAutomationServer, h0]
    · cases hf : s.proxies_.find? (fun p => p.addr == server_id) with
      | none => simp [step, ReleaseAutomationServer, h0, hf]
      | some entry =>
        have hl : (PostRemoveDelegate env delegate entry).2 = false := by
          simpa [Op.releasesLast, last_delegate, h0, hf] using h
        simp only [step, ReleaseAutomationServer_hit env server_id delegate s entry h0 hf, hl]
        refine map_updateFirst _ _ _ _ (fun x _ _ => ?_)
        rw [launchTasks_PostRemoveDelegate, (PostRemoveDelegate_keeps env delegate x).2]
  | DoWork env server_id =>
    left
    refine map_updateFirst _ _ _ _ (fun x _ _ => ?_)
    rw [AutomationProxyCacheEntry.launchTasks_DoWork,
      (AutomationProxyCacheEntry.DoWork_keeps env x).2.1]
  | ChannelError server_id =>
    left
    refine map_updateFirst _ _ _ _ (fun x _ _ => ?_)
    rw [AutomationProxyCacheEntry.launchTasks_PostTask PendingTask.OnChannelError x rfl]
    rfl

end ProxyFactory

namespace ProxyFactory

/-- A registry in which profile `P` has exactly one entry, with one launch task, stays so
along every run without a release of a last delegate. -/
theorem one_entry_kept (P : String) (ops : List Op) :
    ∀ s : ProxyFactory, s.noLastRelease ops = true →
      (s.proxies_.map (fun e => (e.profile_name, e.launchTasks))).countP (fun x => x.1 == P) = 1 →
      (∀ x ∈ s.proxies_.map (fun e => (e.profile_name, e.launchTasks)), x.1 = P → x.2 = 1) →
      ((s.run ops).proxies_.map (fun e => (e.profile_name, e.launchTasks))).countP
          (fun x => x.1 == P) = 1 ∧
      (∀ x ∈ (s.run ops).proxies_.map (fun e => (e.profile_name, e.launchTasks)),
          x.1 = P → x.2 = 1) := by
  induction ops with
  | nil => intro s _ h1 h2; exact ⟨h1, h2⟩
  | cons op ops ih =>
    intro s hk h1 h2
    simp only [noLastRelease, Bool.and_eq_true, Bool.not_eq_true'] at hk
    rw [run_cons]
    apply ih _ hk.2
    · rcases summary_step s op hk.1 with h | ⟨d, p, _, hp, h⟩
      · rw [h]; exact h1
      · rw [h, List.countP_append, h1]
        have hne : p.profile_name ≠ P := by
          intro he
          apply hp
          have hpos : 0 < (s.proxies_.map (fun e => (e.profile_name, e.launchTasks))).countP
              (fun x => x.1 == P) := by omega
          obtain ⟨x, hx, hxP⟩ := List.countP_pos_iff.1 hpos
          obtain ⟨y, hy, hyx⟩ := List.mem_map.1 hx
          refine List.mem_map.2 ⟨y, hy, ?_⟩
          subst hyx
          simpa [he] using hxP
        simp [hne]
    · rcases summary_step s op hk.1 with h | ⟨d, p, _, _, h⟩
      · rw [h]; exact h2
      · rw [h]
        intro x hx hxP
        rcases List.mem_append.1 hx with hx | hx
        · exact h2 x hx hxP
        · simp only [List.mem_singleton] at hx
          subst hx
          rfl

/-- From a registry without an entry of profile `P`, a run that holds a `GetAutomationServer`
for `P` and no release of a last delegate ends with one entry of `P`, with one launch task. -/
theorem one_entry_made (P : String) (ops : List Op) :
    ∀ s : ProxyFactory, s.noLastRelease ops = true →
      (∀ e ∈ s.proxies_, e.profile_name ≠ P) →
      (∃ d p, Op.GetAutomationServer d p ∈ ops ∧ p.profile_name = P) →
      ((s.run ops).proxies_.map (fun e => (e.profile_name, e.launchTasks))).countP
          (fun x => x.1 == P) = 1 ∧
      (∀ x ∈ (s.run ops).proxies_.map (fun e => (e.profile_name, e.launchTasks)),
          x.1 = P → x.2 = 1) := by
  induction ops with
  | nil => intro s _ _ ⟨d, p, hmem, _⟩; simp at hmem
  | cons op ops ih =>
    intro s hk hfresh hget
    simp only [noLastRelease, Bool.and_eq_true, Bool.not_eq_true'] at hk
    have hzero : (s.proxies_.map (fun e => (e.profile_name, e.launchTasks))).countP
        (fun x => x.1 == P) = 0 := by
      rw [List.countP_eq_zero]
      intro x hx
      obtain ⟨y, hy, hyx⟩ := List.mem_map.1 hx
      subst hyx
      simpa using hfresh y hy
    by_cases hop : ∃ d p, op = Op.GetAutomationServer d p ∧ p.profile_name = P
    · obtain ⟨d, p, rfl, hpP⟩ := hop
      have hmiss : s.proxies_.find? (fun e => e.IsSameProfile p.profile_name) = none := by
        rw [List.find?_eq_none]
        intro x hx
        simpa [AutomationProxyCacheEntry.IsSameProfile, hpP] using hfresh x hx
      have hmap : ((s.step (Op.GetAutomationServer d p)).proxies_.map
          (fun e => (e.profile_name, e.launchTasks))) =
          s.proxies_.map (fun e => (e.profile_name, e.launchTasks)) ++ [(P, 1)] := by
        simp only [step, GetAutomationServer_miss _ _ _ hmiss, List.map_append, List.map_cons,
          List.map_nil, AutomationProxyCacheEntry.launchTasks_ctor]
        rw [← hpP]
        rfl
      rw [run_cons]
      apply one_entry_kept P ops _ hk.2
      · rw [hmap, List.countP_append, hzero]
        simp
      · rw [hmap]
        intro x hx hxP
        rcases List.mem_append.1 hx with hx | hx
        · exfalso
          obtain ⟨y, hy, hyx⟩ := List.mem_map.1 hx
          subst hyx
          exact hfresh y hy hxP
        · simp only [List.mem_singleton] at hx
          subst hx
          rfl
    · rw [run_cons]
      apply ih _ hk.2
      · intro e he heP
        have hmem : (e.profile_name, e.launchTasks) ∈
            (s.step op).proxies_.map (fun e => (e.profile_name, e.launchTasks)) :=
          List.mem_map.2 ⟨e, he, rfl⟩
        rcases summary_step s op hk.1 with h | ⟨d, p, hopeq, _, h⟩
        · rw [h] at hmem
          obtain ⟨y, hy, hyx⟩ := List.mem_map.1 hmem
          exact hfresh y hy ((congrArg Prod.fst hyx).trans heP)
        · rw [h] at hmem
          rcases List.mem_append.1 hmem with hn | hn
          · obtain ⟨y, hy, hyx⟩ := List.mem_map.1 hn
            exact hfresh y hy ((congrArg Prod.fst hyx).trans heP)
          · simp only [List.mem_singleton] at hn
            exact hop ⟨d, p, hopeq, ((congrArg Prod.fst hn).symm).trans heP⟩
      · obtain ⟨d, p, hmem, hpP⟩ := hget
        rcases List.mem_cons.1 hmem with hm | hm
        · exact absurd ⟨d, p, hm.symm, hpP⟩ hop
        · exact ⟨d, p, hm, hpP⟩

end ProxyFactory

/-- C2: from a registry that holds no entry of profile `P`, after every run that holds at least
one `GetAutomationServer` for `P` (any number of them, in any order, interleaved with worker
turns, channel errors and calls for other profiles) and no release of a last delegate, the
registry holds exactly one entry of profile `P`, and exactly one `CreateProxy` launch task has
been posted to the worker of that entry. -/
theorem one_entry_and_one_launch_per_profile (P : String) (s : ProxyFactory) (ops : List Op)
    (hfresh : ∀ e ∈ s.proxies_, e.profile_name ≠ P)
    (hget : ∃ d p, Op.GetAutomationServer d p ∈ ops ∧ p.profile_name = P)
    (hkeep : s.noLastRelease ops = true) :
    ((s.run ops).proxies_.filter (fun e => e.IsSameProfile P)).length = 1 ∧
      ∀ e ∈ (s.run ops).proxies_, e.IsSameProfile P = true → e.launchTasks = 1 := by
  obtain ⟨h1, h2⟩ := ProxyFactory.one_entry_made P ops s hkeep hfresh hget
  constructor
  · rw [← List.countP_eq_length_filter]
    rw [List.countP_map] at h1
    exact h1
  · intro e he heP
    have hname : e.profile_name = P := by
      simpa [AutomationProxyCacheEntry.IsSameProfile] using heP
    exact h2 (e.profile_name, e.launchTasks) (List.mem_map.2 ⟨e, he, rfl⟩) hname

/-- Witness of C2: two delegates ask for `"profileA"`, the worker runs the launch and the join,
a third delegate asks for `"profileB"` and the second delegate releases `"profileA"`. -/
theorem one_entry_and_one_launch_per_profile_witness :
    ((ProxyFactory.ctor.run
        [Op.GetAutomationServer 11 profileA, Op.GetAutomationServer 12 profileA,
         Op.DoWork launchOk 1, Op.DoWork launchOk 1, Op.GetAutomationServer 13 profileB,
         Op.ReleaseAutomationServer launchOk 1 12]).proxies_.filter
        (fun e => e.IsSameProfile "profileA")).length = 1 ∧
      ∀ e ∈ (ProxyFactory.ctor.run
        [Op.GetAutomationServer 11 profileA, Op.GetAutomationServer 12 profileA,
         Op.DoWork launchOk 1, Op.DoWork launchOk 1, Op.GetAutomationServer 13 profileB,
         Op.ReleaseAutomationServer launchOk 1 12]).proxies_,
        e.IsSameProfile "profileA" = true → e.launchTasks = 1 :=
  one_entry_and_one_launch_per_profile "profileA" ProxyFactory.ctor _
    (by simp [ProxyFactory.ctor])
    ⟨11, profileA, by simp, rfl⟩
    (by decide)

/-! ## `GetAutomationServer`: hit and miss -/

theorem find?_first {α : Type} (p : α → Bool) (l1 l2 : List α) (a : α)
    (h1 : ∀ x ∈ l1, p x = false) (ha : p a = true) : (l1 ++ a :: l2).find? p = some a := by
  induction l1 with
  | nil => simp [ha]
  | cons x xs ih =>
    have hx : p x = false := h1 x (List.mem_cons_self x xs)
    simp only [List.cons_append, List.find?_cons, hx]
    exact ih (fun y hy => h1 y (List.mem_cons_of_mem x hy))

theorem updateFirst_first {α : Type} (p : α → Bool) (f : α → α) (l1 l2 : List α) (a : α)
    (h1 : ∀ x ∈ l1, p x = false) (ha : p a = true) :
    updateFirst p f (l1 ++ a :: l2) = l1 ++ f a :: l2 := by
  induction l1 with
  | nil => simp [updateFirst, ha]
  | cons x xs ih =>
    have hx : p x = false := h1 x (List.mem_cons_self x xs)
    simp [updateFirst, hx, ih (fun y hy => h1 y (List.mem_cons_of_mem x hy))]

/-- The value of `GetAutomationServer` when the first entry of the requested profile is `entry`. -/
theorem GetAutomationServer_hit_at (s : ProxyFactory) (delegate : LaunchDelegate)
    (params : ChromeFrameLaunchParams) (l1 l2 : List AutomationProxyCacheEntry)
    (entry : AutomationProxyCacheEntry) (hs : s.proxies_ = l1 ++ entry :: l2)
    (hl1 : ∀ x ∈ l1, x.profile_name ≠ params.profile_name)
    (he : entry.profile_name = params.profile_name) :
    s.GetAutomationServer delegate params =
      (entry.addr,
        ProxyFactory.mk
          (l1 ++
            { entry with
              thread_ := entry.thread_ ++
                (if delegate ≠ NULL then [PendingTask.AddDelegate delegate] else [])
              posted := entry.posted ++
                (if delegate ≠ NULL then [PendingTask.AddDelegate delegate] else []) } :: l2)
          s.next_addr) := by
  have h1 : ∀ x ∈ l1, (fun p : AutomationProxyCacheEntry =>
      p.IsSameProfile params.profile_name) x = false := by
    intro x hx
    simpa [AutomationProxyCacheEntry.IsSameProfile] using hl1 x hx
  have ha : (fun p : AutomationProxyCacheEntry =>
      p.IsSameProfile params.profile_name) entry = true := by
    simp [AutomationProxyCacheEntry.IsSameProfile, he]
  have hfind : s.proxies_.find? (fun p => p.IsSameProfile params.profile_name) = some entry := by
    rw [hs]; exact find?_first _ l1 l2 entry h1 ha
  rw [ProxyFactory.GetAutomationServer_hit delegate params s entry hfind, hs,
    updateFirst_first _ _ l1 l2 entry h1 ha]
  by_cases hd : delegate = NULL
  · simp [hd]
  · simp [hd, AutomationProxyCacheEntry.PostTask]

/-- C3: when the registry already holds an entry of the requested profile (`entry`, the first
of that profile in `proxies_`), `GetAutomationServer` returns the address of that entry and
leaves the registry as it is, entry for entry and in the same order, but for the queue of that
entry's worker: exactly one `AddDelegate(delegate)` task is appended to it when the delegate is
not null and nothing when it is null; no launch task is posted and no entry is created. -/
theorem GetAutomationServer_existing_entry (s : ProxyFactory) (delegate : LaunchDelegate)
    (params : ChromeFrameLaunchParams) (l1 l2 : List AutomationProxyCacheEntry)
    (entry : AutomationProxyCacheEntry) (hs : s.proxies_ = l1 ++ entry :: l2)
    (hl1 : ∀ x ∈ l1, x.profile_name ≠ params.profile_name)
    (he : entry.profile_name = params.profile_name) :
    s.GetAutomationServer delegate params =
      (entry.addr,
        ProxyFactory.mk
          (l1 ++
            { entry with
              thread_ := entry.thread_ ++
                (if delegate ≠ NULL then [PendingTask.AddDelegate delegate] else [])
              posted := entry.posted ++
                (if delegate ≠ NULL then [PendingTask.AddDelegate delegate] else []) } :: l2)
          s.next_addr) :=
  GetAutomationServer_hit_at s delegate params l1 l2 entry hs hl1 he

/-- Witness of C3: a second delegate asks for `"profileA"` while the registry holds the entries
of `"profileB"` and `"profileA"`. -/
theorem GetAutomationServer_existing_entry_witness :
    ((ProxyFactory.ctor.run [Op.GetAutomationServer 13 profileB,
        Op.GetAutomationServer 11 profileA]).GetAutomationServer 12 profileA).1 = 2 ∧
      (((ProxyFactory.ctor.run [Op.GetAutomationServer 13 profileB,
        Op.GetAutomationServer 11 profileA]).GetAutomationServer 12 profileA).2.proxies_.map
          (fun e => e.thread_)) =
        [[PendingTask.CreateProxy profileB 13],
         [PendingTask.CreateProxy profileA 11, PendingTask.AddDelegate 12]] := by
  have h := GetAutomationServer_existing_entry
    (ProxyFactory.ctor.run [Op.GetAutomationServer 13 profileB, Op.GetAutomationServer 11 profileA])
    12 profileA [AutomationProxyCacheEntry.ctor 1 profileB 13] []
    (AutomationProxyCacheEntry.ctor 2 profileA 11) (by decide) (by decide) (by decide)
  rw [h]
  decide

/-- The value of `GetAutomationServer` when no entry of the registry has the requested profile. -/
theorem GetAutomationServer_miss_all (s : ProxyFactory) (delegate : LaunchDelegate)
    (params : ChromeFrameLaunchParams)
    (hmiss : ∀ x ∈ s.proxies_, x.profile_name ≠ params.profile_name) :
    s.GetAutomationServer delegate params =
      (s.next_addr,
        ProxyFactory.mk
          (s.proxies_ ++
            [{ addr := s.next_addr
               profile_name := params.profile_name
               thread_ := [PendingTask.CreateProxy params delegate]
               posted := [PendingTask.CreateProxy params delegate]
               proxy_ := none
               launch_result_ := AUTOMATION_LAUNCH_RESULT_INVALID
               launch_delegates_ := []
               calls := [] }])
          (s.next_addr + 1)) := by
  have hfind : s.proxies_.find? (fun p => p.IsSameProfile params.profile_name) = none := by
    rw [List.find?_eq_none]
    intro x hx
    simpa [AutomationProxyCacheEntry.IsSameProfile] using hmiss x hx
  rw [ProxyFactory.GetAutomationServer_miss delegate params s hfind]
  rfl

/-- C4: when the registry holds no entry of the requested profile, `GetAutomationServer`
appends exactly one entry to the registry, after the existing entries, which stay as they are
and in the same order; the new entry carries the requested profile, its worker has exactly
one pending task, the launch task `CreateProxy(params, delegate)`, and the call returns the
address of the new entry while no call at all, so no `LaunchComplete`, has been made on the
delegate: the new entry has made no call and is still without proxy, result and delegates. -/
theorem GetAutomationServer_new_entry (s : ProxyFactory) (delegate : LaunchDelegate)
    (params : ChromeFrameLaunchParams)
    (hmiss : ∀ x ∈ s.proxies_, x.profile_name ≠ params.profile_name) :
    s.GetAutomationServer delegate params =
      (s.next_addr,
        ProxyFactory.mk
          (s.proxies_ ++
            [{ addr := s.next_addr
               profile_name := params.profile_name
               thread_ := [PendingTask.CreateProxy params delegate]
               posted := [PendingTask.CreateProxy params delegate]
               proxy_ := none
               launch_result_ := AUTOMATION_LAUNCH_RESULT_INVALID
               launch_delegates_ := []
               calls := [] }])
          (s.next_addr + 1)) :=
  GetAutomationServer_miss_all s delegate params hmiss

/-- Witness of C4: a delegate asks for `"profileA"` while the registry holds only the entry of
`"profileB"`. -/
theorem GetAutomationServer_new_entry_witness :
    ((ProxyFactory.ctor.run [Op.GetAutomationServer 13 profileB]).GetAutomationServer 11
        profileA).1 = 2 ∧
      (((ProxyFactory.ctor.run [Op.GetAutomationServer 13 profileB]).GetAutomationServer 11
        profileA).2.proxies_.map (fun e => (e.profile_name, e.thread_, e.calls))) =
        [("profileB", [PendingTask.CreateProxy profileB 13], []),
         ("profileA", [PendingTask.CreateProxy profileA 11], [])] := by
  have h := GetAutomationServer_new_entry
    (ProxyFactory.ctor.run [Op.GetAutomationServer 13 profileB]) 11 profileA (by decide)
  rw [h]
  decide

/-! ## `AddDelegate` -/

/-- C5, as stated, fails: delegate `12` joined the entry and left it; it is not in the list,
every delegate in the list has received exactly one `LaunchComplete`, the launch has
completed, and yet after `AddDelegate(12)` delegate `12` is in the list and has received two
`LaunchComplete`. -/
theorem AddDelegate_rejoin_notified_twice :
    entryAfterLeave.proxy_.isSome = true ∧
    12 ∉ entryAfterLeave.launch_delegates_ ∧
    (∀ x ∈ entryAfterLeave.launch_delegates_, entryAfterLeave.launchCompletes x = 1) ∧
    12 ∈ (entryAfterLeave.AddDelegate 12).launch_delegates_ ∧
    (entryAfterLeave.AddDelegate 12).launchCompletes 12 = 2 := by
  decide

/-- C5, amended: for every entry and every delegate `d`, `AddDelegate(d)` appends `d` at the
end of the delegate list and makes exactly one call, `LaunchComplete` on `d` with the stored
proxy and the stored launch result: no other delegate is called, nothing is launched, and the
stored proxy and result stay. Consequently, when every delegate in the list had received
exactly one `LaunchComplete` and `d` none, every delegate in the list has received exactly one
`LaunchComplete` after the call. -/
theorem AddDelegate_appends_and_notifies_once (e : AutomationProxyCacheEntry)
    (d : LaunchDelegate) :
    (e.AddDelegate d).launch_delegates_ = e.launch_delegates_ ++ [d] ∧
    (e.AddDelegate d).calls = e.calls ++ [Call.LaunchComplete d e.proxy_ e.launch_result_] ∧
    (e.AddDelegate d).proxy_ = e.proxy_ ∧
    (e.AddDelegate d).launch_result_ = e.launch_result_ ∧
    ((∀ x ∈ e.launch_delegates_, e.launchCompletes x = 1) → e.launchCompletes d = 0 →
      ∀ x ∈ (e.AddDelegate d).launch_delegates_, (e.AddDelegate d).launchCompletes x = 1) := by
  refine ⟨rfl, rfl, rfl, rfl, ?_⟩
  intro hall hd x hx
  have hcalls : (e.AddDelegate d).launchCompletes x =
      e.launchCompletes x + if d = x then 1 else 0 := by
    simp [AutomationProxyCacheEntry.AddDelegate, AutomationProxyCacheEntry.launchCompletes,
      List.countP_append, List.countP_cons, Call.isLaunchCompleteOn]
  rw [hcalls]
  by_cases hdx : d = x
  · subst hdx
    simp [hd]
  · have hx' : x ∈ e.launch_delegates_ := by
      simp only [AutomationProxyCacheEntry.AddDelegate, List.mem_append,
        List.mem_singleton] at hx
      rcases hx with h | h
      · exact h
      · exact absurd h.symm hdx
    simp [hdx, hall x hx']

/-- Witness of C5: delegate `12` joins the entry that delegate `11` has launched. -/
theorem AddDelegate_appends_and_notifies_once_witness :
    (entryLaunched.AddDelegate 12).launch_delegates_ = [11, 12] ∧
    ∀ x ∈ (entryLaunched.AddDelegate 12).launch_delegates_,
      (entryLaunched.AddDelegate 12).launchCompletes x = 1 :=
  ⟨by decide,
    (AddDelegate_appends_and_notifies_once entryLaunched 12).2.2.2.2 (by decide) (by decide)⟩

/-! ## The stored launch result -/

namespace AutomationProxyCacheEntry

/-- What `RemoveDelegate` does to the stored result is what `RunUntilIdle` does to it. -/
theorem launch_result_RemoveDelegate (R : AutomationProxyCacheEntry → AutomationProxyCacheEntry)
    (delegate : LaunchDelegate) (done : WaitableEvent) (e : AutomationProxyCacheEntry) :
    (RemoveDelegate R delegate done e).1.launch_result_ =
      if (RemoveDelegate R delegate done e).2 then (R e).launch_result_
      else e.launch_result_ := by
  unfold RemoveDelegate
  cases find delegate e.launch_delegates_ with
  | none => rfl
  | some it =>
    by_cases h : e.launch_delegates_.length = 1
    · simp [h]
    · simp [h]

/-- The stored result after a run of tasks none of which is the launch: the crash result if
one of them is `OnChannelError`, the result stored before otherwise. -/
theorem launch_result_RunTasks (env : LaunchEnv) (q : List PendingTask)
    (hq : ∀ t ∈ q, t.isCreateProxy = false) :
    ∀ e : AutomationProxyCacheEntry, (RunTasks env q e).launch_result_ =
      if q.any PendingTask.isOnChannelError then AUTOMATION_SERVER_CRASHED
      else e.launch_result_ := by
  induction q with
  | nil => intro e; rfl
  | cons t q ih =>
    intro e
    have ihq := ih (fun t ht => hq t (List.mem_cons_of_mem _ ht))
    have ht := hq t (List.mem_cons_self t q)
    cases t with
    | CreateProxy params delegate => simp [PendingTask.isCreateProxy] at ht
    | AddDelegate delegate =>
      simp only [RunTasks, RunTask, List.any_cons, PendingTask.isOnChannelError,
        Bool.false_or, Bool.false_eq_true, if_false]
      rw [ihq]
      rfl
    | OnChannelError =>
      simp only [RunTasks, RunTask, List.any_cons, PendingTask.isOnChannelError,
        Bool.true_or, Bool.false_eq_true, if_false, if_true]
      rw [ihq]
      by_cases hany : q.any PendingTask.isOnChannelError = true
      · simp [hany]
      · simp [hany, OnChannelError]
    | RemoveDelegate delegate done =>
      simp only [RunTasks, RunTask, List.any_cons, PendingTask.isOnChannelError,
        Bool.false_or]
      have hr := launch_result_RemoveDelegate (RunTasks env q) delegate done e
      by_cases hl : (RemoveDelegate (RunTasks env q) delegate done e).2 = true
      · simp only [hl, if_true] at hr ⊢
        rw [hr, ihq]
      · simp only [hl, Bool.false_eq_true, if_false] at hr ⊢
        rw [ihq, hr]

end AutomationProxyCacheEntry

namespace AutomationProxyCacheEntry

/-- The calls of `RemoveDelegate`: those of `RunUntilIdle` when it takes the entry down, then
the signal. -/
theorem calls_RemoveDelegate (R : AutomationProxyCacheEntry → AutomationProxyCacheEntry)
    (delegate : LaunchDelegate) (done : WaitableEvent) (e : AutomationProxyCacheEntry) :
    (RemoveDelegate R delegate done e).1.calls =
      (if (RemoveDelegate R delegate done e).2 then (R e).calls else e.calls) ++
        [Call.Signal done (RemoveDelegate R delegate done e).2] := by
  unfold RemoveDelegate
  cases find delegate e.launch_delegates_ with
  | none => rfl
  | some it =>
    by_cases h : e.launch_delegates_.length = 1
    · simp [h]
    · simp [h]

/-- Along a run of tasks without launch and without channel error, the calls made so far stay
and every `LaunchComplete` that is added carries the result stored at the start. -/
theorem calls_RunTasks (env : LaunchEnv) (q : List PendingTask)
    (hq : ∀ t ∈ q, t.isCreateProxy = false) (hq2 : q.any PendingTask.isOnChannelError = false) :
    ∀ e : AutomationProxyCacheEntry, ∃ new, (RunTasks env q e).calls = e.calls ++ new ∧
      ∀ d p r, Call.LaunchComplete d p r ∈ new → r = e.launch_result_ := by
  induction q with
  | nil => intro e; exact ⟨[], by simp [RunTasks], by simp⟩
  | cons t q ih =>
    intro e
    have hqt : ∀ t ∈ q, t.isCreateProxy = false := fun t ht => hq t (List.mem_cons_of_mem _ ht)
    simp only [List.any_cons, Bool.or_eq_false_iff] at hq2
    have ihq := ih hqt hq2.2
    have ht := hq t (List.mem_cons_self t q)
    cases t with
    | CreateProxy params delegate => simp [PendingTask.isCreateProxy] at ht
    | OnChannelError => simp [PendingTask.isOnChannelError] at hq2
    | AddDelegate delegate =>
      obtain ⟨new, h1, h2⟩ := ihq (AddDelegate delegate e)
      refine ⟨Call.LaunchComplete delegate e.proxy_ e.launch_result_ :: new, ?_, ?_⟩
      · simp only [RunTasks, RunTask, Bool.false_eq_true, if_false]
        rw [h1]
        simp [AddDelegate]
      · intro d p r hmem
        rcases List.mem_cons.1 hmem with h | h
        · cases h; rfl
        · exact h2 d p r h
    | RemoveDelegate delegate done =>
      have hc := calls_RemoveDelegate (RunTasks env q) delegate done e
      have hr := launch_result_RemoveDelegate (RunTasks env q) delegate done e
      by_cases hl : (RemoveDelegate (RunTasks env q) delegate done e).2 = true
      · simp only [hl, if_true] at hc hr
        obtain ⟨new, h1, h2⟩ := ihq e
        refine ⟨new ++ [Call.Signal done true], ?_, ?_⟩
        · simp only [RunTasks, RunTask, hl, if_true]
          rw [hc, h1, List.append_assoc]
        · intro d p r hmem
          rcases List.mem_append.1 hmem with h | h
          · exact h2 d p r h
          · simp at h
      · simp only [hl, Bool.false_eq_true, if_false] at hc hr
        obtain ⟨new, h1, h2⟩ := ihq (RemoveDelegate (RunTasks env q) delegate done e).1
        refine ⟨Call.Signal done false :: new, ?_, ?_⟩
        · simp only [RunTasks, RunTask, hl, Bool.false_eq_true, if_false]
          rw [h1, hc]
          simp
        · intro d p r hmem
          rcases List.mem_cons.1 hmem with h | h
          · cases h
          · rw [← hr]; exact h2 d p r h

end AutomationProxyCacheEntry

/-- C6, as stated, fails: the launch stores `AUTOMATION_SUCCESS`, the initiating delegate
`11` is told so; then `OnChannelError` runs and delegate `12` is added: the stored result is
`AUTOMATION_SERVER_CRASHED`, and that is what delegate `12` is told. -/
theorem launch_result_replaced_by_channel_error :
    entryLaunched.launch_result_ = AUTOMATION_SUCCESS ∧
    Call.LaunchComplete 11 entryLaunched.proxy_ AUTOMATION_SUCCESS ∈ entryLaunched.calls ∧
    (AutomationProxyCacheEntry.RunTasks launchOk
      [PendingTask.OnChannelError, PendingTask.AddDelegate 12] entryLaunched).launch_result_ =
        AUTOMATION_SERVER_CRASHED ∧
    Call.LaunchComplete 12 entryLaunched.proxy_ AUTOMATION_SERVER_CRASHED ∈
      (AutomationProxyCacheEntry.RunTasks launchOk
        [PendingTask.OnChannelError, PendingTask.AddDelegate 12] entryLaunched).calls := by
  decide

/-- C6, amended: once `CreateProxy` has stored a launch result in an entry (the result its
`LaunchComplete` on the initiating delegate carries), then after every subsequent run of
`AddDelegate`, `RemoveDelegate` and `OnChannelError` tasks the stored result is that result if
no `OnChannelError` is among them and `AUTOMATION_SERVER_CRASHED` if one is; and as long as no
`OnChannelError` is among them, the run only adds calls and every `LaunchComplete` it adds,
so the one on every delegate added, carries the result the initiating delegate received. -/
theorem launch_result_cached_until_channel_error (env : LaunchEnv)
    (params : ChromeFrameLaunchParams) (d0 : LaunchDelegate) (e0 : AutomationProxyCacheEntry)
    (q : List PendingTask) (hq : ∀ t ∈ q, t.isCreateProxy = false) :
    (e0.CreateProxy env params d0).calls.getLast? =
      some (Call.LaunchComplete d0 (e0.CreateProxy env params d0).proxy_
        (e0.CreateProxy env params d0).launch_result_) ∧
    ((e0.CreateProxy env params d0).RunTasks env q).launch_result_ =
      (if q.any PendingTask.isOnChannelError then AUTOMATION_SERVER_CRASHED
       else (e0.CreateProxy env params d0).launch_result_) ∧
    (q.any PendingTask.isOnChannelError = false →
      ∃ new, ((e0.CreateProxy env params d0).RunTasks env q).calls =
          (e0.CreateProxy env params d0).calls ++ new ∧
        ∀ d p r, Call.LaunchComplete d p r ∈ new →
          r = (e0.CreateProxy env params d0).launch_result_) := by
  refine ⟨?_, AutomationProxyCacheEntry.launch_result_RunTasks env q hq _,
    fun hq2 => AutomationProxyCacheEntry.calls_RunTasks env q hq hq2 _⟩
  simp [AutomationProxyCacheEntry.CreateProxy]

/-- Witness of C6: after the launch for delegate `11`, delegate `12` joins and delegate `11`
leaves; the stored result is still the one of the launch. -/
theorem launch_result_cached_until_channel_error_witness :
    (((AutomationProxyCacheEntry.ctor 1 profileA 11).CreateProxy launchOk profileA 11).RunTasks
      launchOk [PendingTask.AddDelegate 12, PendingTask.RemoveDelegate 11 1]).launch_result_ =
      AUTOMATION_SUCCESS := by
  rw [(launch_result_cached_until_channel_error launchOk profileA 11
    (AutomationProxyCacheEntry.ctor 1 profileA 11)
    [PendingTask.AddDelegate 12, PendingTask.RemoveDelegate 11 1] (by decide)).2.1]
  decide

/-! ## Two delegates before the launch -/

/-- C7: delegate `D1` and then delegate `D2` call `GetAutomationServer` for one profile that
has no entry yet, before the launch task has run, and the launch succeeds. Both calls return
the address of the one new entry, and once the worker has run its two pending tasks in FIFO
order the entry is idle, its delegate list is `[D1, D2]`, and the calls it has made are the
launch, the wait, `LaunchComplete` on `D1` and then `LaunchComplete` on `D2`, each with the
proxy and `AUTOMATION_SUCCESS`. -/
theorem two_delegates_before_launch (s : ProxyFactory) (D1 D2 : LaunchDelegate)
    (params1 params2 : ChromeFrameLaunchParams) (env : LaunchEnv)
    (_hD1 : D1 ≠ NULL) (hD2 : D2 ≠ NULL)
    (hsame : params2.profile_name = params1.profile_name)
    (hfresh : ∀ x ∈ s.proxies_, x.profile_name ≠ params1.profile_name)
    (haddr : ∀ x ∈ s.proxies_, x.addr ≠ s.next_addr)
    (hcmd : env.command_line_string.isEmpty = false) (hlaunch : env.LaunchProcess = true)
    (hwait : env.WaitForAppLaunch = AUTOMATION_SUCCESS) :
    (s.GetAutomationServer D1 params1).1 = s.next_addr ∧
    ((s.GetAutomationServer D1 params1).2.GetAutomationServer D2 params2).1 = s.next_addr ∧
    (s.run [Op.GetAutomationServer D1 params1, Op.GetAutomationServer D2 params2,
        Op.DoWork env s.next_addr, Op.DoWork env s.next_addr]).proxies_ =
      s.proxies_ ++
        [{ addr := s.next_addr
           profile_name := params1.profile_name
           thread_ := []
           posted := [PendingTask.CreateProxy params1 D1, PendingTask.AddDelegate D2]
           proxy_ := some
             { proxy_entry_ := s.next_addr
               channel_id := env.channel_id
               launch_timeout := params1.launch_timeout
               perform_version_check := params1.version_check }
           launch_result_ := AUTOMATION_SUCCESS
           launch_delegates_ := [D1, D2]
           calls :=
             [Call.LaunchProcess env.command_line_string, Call.WaitForAppLaunch,
              Call.LaunchComplete D1
                (some
                  { proxy_entry_ := s.next_addr
                    channel_id := env.channel_id
                    launch_timeout := params1.launch_timeout
                    perform_version_check := params1.version_check })
                AUTOMATION_SUCCESS,
              Call.LaunchComplete D2
                (some
                  { proxy_entry_ := s.next_addr
                    channel_id := env.channel_id
                    launch_timeout := params1.launch_timeout
                    perform_version_check := params1.version_check })
                AUTOMATION_SUCCESS] }] := by
  have h1 := GetAutomationServer_miss_all s D1 params1 hfresh
  have h2 := GetAutomationServer_hit_at (s.GetAutomationServer D1 params1).2 D2 params2
    s.proxies_ [] (AutomationProxyCacheEntry.ctor s.next_addr params1 D1)
    (by rw [h1]; rfl) (by rw [hsame]; exact hfresh) (by rw [hsame]; rfl)
  have hp : ∀ x ∈ s.proxies_,
      (fun p : AutomationProxyCacheEntry => p.addr == s.next_addr) x = false := by
    intro x hx
    simpa using haddr x hx
  refine ⟨by rw [h1], by rw [h2]; rfl, ?_⟩
  simp only [ProxyFactory.run, List.foldl, ProxyFactory.step]
  rw [h2]
  simp only [hD2, ne_eq, not_false_eq_true, if_true]
  rw [updateFirst_first _ _ s.proxies_ [] _ hp (by simp [AutomationProxyCacheEntry.ctor,
    AutomationProxyCacheEntry.PostTask])]
  rw [updateFirst_first _ _ s.proxies_ [] _ hp (by
    simp [AutomationProxyCacheEntry.ctor, AutomationProxyCacheEntry.PostTask,
      (AutomationProxyCacheEntry.DoWork_keeps _ _).1])]
  simp [AutomationProxyCacheEntry.ctor, AutomationProxyCacheEntry.PostTask,
    AutomationProxyCacheEntry.DoWork, AutomationProxyCacheEntry.RunTask,
    AutomationProxyCacheEntry.RunTasks, AutomationProxyCacheEntry.CreateProxy,
    AutomationProxyCacheEntry.AddDelegate, hcmd, hlaunch, hwait]

/-- Witness of C7: delegates `11` and `12` ask for `"profileA"` at a new factory. -/
theorem two_delegates_before_launch_witness :
    (ProxyFactory.ctor.run [Op.GetAutomationServer 11 profileA, Op.GetAutomationServer 12 profileA,
        Op.DoWork launchOk 1, Op.DoWork launchOk 1]).proxies_.map
      (fun e => (e.launch_delegates_, e.launch_result_, e.thread_)) =
      [([11, 12], AUTOMATION_SUCCESS, [])] := by
  exact (congrArg (List.map (fun e => (e.launch_delegates_, e.launch_result_, e.thread_)))
    (two_delegates_before_launch ProxyFactory.ctor 11 12 profileA profileA launchOk
      (by decide) (by decide) rfl (by decide) (by decide) (by decide) rfl rfl).2.2).trans rfl

/-! ## `RemoveDelegate` -/

namespace AutomationProxyCacheEntry

theorem find_eq_none (d : LaunchDelegate) (l : List LaunchDelegate) :
    find d l = none ↔ d ∉ l := by
  induction l with
  | nil => simp [find]
  | cons x xs ih =>
    by_cases hx : x = d
    · simp [find, hx]
    · have hx' : ¬ d = x := fun h => hx h.symm
      simp [find, hx, hx', ih]

theorem find_lt (d : LaunchDelegate) (l : List LaunchDelegate) :
    ∀ i, find d l = some i → i < l.length := by
  induction l with
  | nil => intro i h; simp [find] at h
  | cons x xs ih =>
    intro i h
    by_cases hx : x = d
    · simp [find, hx] at h
      subst h
      simp
    · simp only [find, hx, if_false, Option.map_eq_some'] at h
      obtain ⟨j, hj, rfl⟩ := h
      have := ih j hj
      simp only [List.length_cons]
      omega

/-- Erasing at the position `std::find` returns erases the first occurrence. -/
theorem eraseIdx_find (d : LaunchDelegate) (l : List LaunchDelegate) :
    ∀ i, find d l = some i → l.eraseIdx i = l.erase d := by
  induction l with
  | nil => intro i h; simp [find] at h
  | cons x xs ih =>
    intro i h
    by_cases hx : x = d
    · simp [find, hx] at h
      subst h
      simp [hx]
    · simp only [find, hx, if_false, Option.map_eq_some'] at h
      obtain ⟨j, hj, rfl⟩ := h
      have hbeq : (x == d) = false := by simpa using hx
      simp [List.erase_cons, hbeq, ih j hj]

theorem length_RemoveDelegate_le (R : AutomationProxyCacheEntry → AutomationProxyCacheEntry)
    (delegate : LaunchDelegate) (done : WaitableEvent) (e : AutomationProxyCacheEntry) :
    (RemoveDelegate R delegate done e).1.launch_delegates_.length ≤
      if (RemoveDelegate R delegate done e).2 then (R e).launch_delegates_.length
      else e.launch_delegates_.length := by
  unfold RemoveDelegate
  cases find delegate e.launch_delegates_ with
  | none => simp
  | some it =>
    by_cases h : e.launch_delegates_.length = 1
    · simp only [h, if_true]
      exact List.length_eraseIdx_le _ _
    · simp only [h, if_false, Bool.false_eq_true]
      exact List.length_eraseIdx_le _ _

/-- A run of tasks none of which registers a delegate does not make the list longer. -/
theorem length_RunTasks_le (env : LaunchEnv) (q : List PendingTask)
    (hq : ∀ t ∈ q, t.registers = false) :
    ∀ e : AutomationProxyCacheEntry,
      (RunTasks env q e).launch_delegates_.length ≤ e.launch_delegates_.length := by
  induction q with
  | nil => intro e; exact Nat.le_refl _
  | cons t q ih =>
    intro e
    have ihq := ih (fun t ht => hq t (List.mem_cons_of_mem _ ht))
    have ht := hq t (List.mem_cons_self t q)
    cases t with
    | CreateProxy params delegate => simp [PendingTask.registers] at ht
    | AddDelegate delegate => simp [PendingTask.registers] at ht
    | OnChannelError =>
      simp only [RunTasks, RunTask, Bool.false_eq_true, if_false]
      exact ihq (OnChannelError e)
    | RemoveDelegate delegate done =>
      have hr := length_RemoveDelegate_le (RunTasks env q) delegate done e
      by_cases hl : (RemoveDelegate (RunTasks env q) delegate done e).2 = true
      · simp only [hl, if_true] at hr
        simp only [RunTasks, RunTask, hl, if_true]
        exact Nat.le_trans hr (ihq e)
      · simp only [hl, Bool.false_eq_true, if_false] at hr
        simp only [RunTasks, RunTask, hl, Bool.false_eq_true, if_false]
        exact Nat.le_trans (ihq _) hr

end AutomationProxyCacheEntry

/-- C8, as stated, fails in both directions. For a delegate that is not registered (here on
the entry that has been taken down) `RemoveDelegate` leaves through its not-found branch: the
list is empty when it returns and yet it reports `false`. And when delegate `11` is the only
one while an `AddDelegate(12)` is pending, `RemoveDelegate(11)` reports `true` and resets the
proxy and yet the list is `[12]` when it returns. -/
theorem RemoveDelegate_last_not_iff_empty :
    ((entryTakenDown.RemoveDelegate (AutomationProxyCacheEntry.RunTasks launchOk [])
        11 1).1.launch_delegates_ = [] ∧
      (entryTakenDown.RemoveDelegate (AutomationProxyCacheEntry.RunTasks launchOk [])
        11 1).2 = false) ∧
    ((entryLaunched.RemoveDelegate
        (AutomationProxyCacheEntry.RunTasks launchOk [PendingTask.AddDelegate 12]) 11 1).2 = true ∧
      (entryLaunched.RemoveDelegate
        (AutomationProxyCacheEntry.RunTasks launchOk [PendingTask.AddDelegate 12]) 11 1).1.proxy_
        = none ∧
      (entryLaunched.RemoveDelegate
        (AutomationProxyCacheEntry.RunTasks launchOk [PendingTask.AddDelegate 12])
        11 1).1.launch_delegates_ = [12]) := by
  decide

/-- C8, amended: for every entry state and every queue `q` of tasks pending on the worker,
`RemoveDelegate(d)` on a delegate that is not in the list reports `false` and leaves the proxy
and the list as they are; and on a delegate that is in the list, when no pending task
registers a delegate, it reports `was_last_delegate = true` and has reset `proxy_` if and only
if the delegate list is empty when it returns. -/
theorem RemoveDelegate_last_iff_empty (env : LaunchEnv) (q : List PendingTask)
    (d : LaunchDelegate) (done : WaitableEvent) (e : AutomationProxyCacheEntry) :
    (d ∉ e.launch_delegates_ →
      (e.RemoveDelegate (AutomationProxyCacheEntry.RunTasks env q) d done).2 = false ∧
      (e.RemoveDelegate (AutomationProxyCacheEntry.RunTasks env q) d done).1.proxy_ = e.proxy_ ∧
      (e.RemoveDelegate (AutomationProxyCacheEntry.RunTasks env q) d done).1.launch_delegates_ =
        e.launch_delegates_) ∧
    (d ∈ e.launch_delegates_ → (∀ t ∈ q, t.registers = false) →
      (((e.RemoveDelegate (AutomationProxyCacheEntry.RunTasks env q) d done).2 = true ∧
        (e.RemoveDelegate (AutomationProxyCacheEntry.RunTasks env q) d done).1.proxy_ = none) ↔
        (e.RemoveDelegate (AutomationProxyCacheEntry.RunTasks env q) d done).1.launch_delegates_ =
          [])) := by
  constructor
  · intro hd
    have hf := (AutomationProxyCacheEntry.find_eq_none d e.launch_delegates_).2 hd
    simp [AutomationProxyCacheEntry.RemoveDelegate, hf]
  · intro hd hq
    cases hf : AutomationProxyCacheEntry.find d e.launch_delegates_ with
    | none => exact absurd hd ((AutomationProxyCacheEntry.find_eq_none d _).1 hf)
    | some it =>
      have hlt := AutomationProxyCacheEntry.find_lt d _ it hf
      by_cases h1 : e.launch_delegates_.length = 1
      · have hle := AutomationProxyCacheEntry.length_RunTasks_le env q hq e
        have hit : it = 0 := by omega
        subst hit
        have hnil : (AutomationProxyCacheEntry.RunTasks env q e).launch_delegates_.eraseIdx 0
            = [] := by
          cases hrun : (AutomationProxyCacheEntry.RunTasks env q e).launch_delegates_ with
          | nil => rfl
          | cons x xs =>
            rw [hrun, h1] at hle
            cases xs with
            | nil => rfl
            | cons y ys => simp at hle
        simp [AutomationProxyCacheEntry.RemoveDelegate, hf, h1, hnil]
      · have hne : e.launch_delegates_.eraseIdx it ≠ [] := by
          intro hnil
          have hlen := congrArg List.length hnil
          rw [List.length_eraseIdx] at hlen
          simp only [hlt, if_true, List.length_nil] at hlen
          omega
        simp [AutomationProxyCacheEntry.RemoveDelegate, hf, h1, hne]

/-- Witness of C8: delegate `11` is the only one and the only pending task is a channel error;
both sides of the equivalence hold. -/
theorem RemoveDelegate_last_iff_empty_witness :
    (entryLaunched.RemoveDelegate
      (AutomationProxyCacheEntry.RunTasks launchOk [PendingTask.OnChannelError])
      11 1).1.launch_delegates_ = [] ∧
    (((entryLaunched.RemoveDelegate
        (AutomationProxyCacheEntry.RunTasks launchOk [PendingTask.OnChannelError]) 11 1).2 = true ∧
      (entryLaunched.RemoveDelegate
        (AutomationProxyCacheEntry.RunTasks launchOk [PendingTask.OnChannelError]) 11 1).1.proxy_
        = none) ↔
      (entryLaunched.RemoveDelegate
        (AutomationProxyCacheEntry.RunTasks launchOk [PendingTask.OnChannelError])
        11 1).1.launch_delegates_ = []) :=
  ⟨by decide,
    (RemoveDelegate_last_iff_empty launchOk [PendingTask.OnChannelError] 11 1 entryLaunched).2
      (by decide) (by decide)⟩

/-! ## `ReleaseAutomationServer` -/

theorem eraseP_first {α : Type} (p : α → Bool) (l1 l2 : List α) (a : α)
    (h1 : ∀ x ∈ l1, p x = false) (ha : p a = true) : (l1 ++ a :: l2).eraseP p = l1 ++ l2 := by
  induction l1 with
  | nil => simp [List.eraseP_cons, ha]
  | cons x xs ih =>
    have hx : p x = false := h1 x (List.mem_cons_self x xs)
    simp [List.eraseP_cons, hx, ih (fun y hy => h1 y (List.mem_cons_of_mem x hy))]

namespace ProxyFactory

/-- The value of `ReleaseAutomationServer` on the entry at a given place of the registry, for
a delegate that is not null: the entry is left as the worker leaves it, and is taken out of the registry
when the worker reports the last delegate. -/
theorem ReleaseAutomationServer_at (env : LaunchEnv) (s : ProxyFactory)
    (l1 l2 : List AutomationProxyCacheEntry) (entry : AutomationProxyCacheEntry)
    (d : LaunchDelegate) (hs : s.proxies_ = l1 ++ entry :: l2)
    (haddr : ∀ x ∈ l1, x.addr ≠ entry.addr) (h0 : entry.addr ≠ NULL) (hd : d ≠ NULL) :
    s.ReleaseAutomationServer env entry.addr d =
      (true,
        ProxyFactory.mk
          (if (entry.WaitRemoveDelegate env d done).2 then l1 ++ l2
           else l1 ++ (entry.WaitRemoveDelegate env d done).1 :: l2)
          s.next_addr) := by
  have h1 : ∀ x ∈ l1, (fun p : AutomationProxyCacheEntry => p.addr == entry.addr) x = false := by
    intro x hx
    simpa using haddr x hx
  have ha : (fun p : AutomationProxyCacheEntry => p.addr == entry.addr) entry = true := by simp
  have hfind : s.proxies_.find? (fun p => p.addr == entry.addr) = some entry := by
    rw [hs]; exact find?_first _ l1 l2 entry h1 ha
  have hpost : ∀ e, PostRemoveDelegate env d e = e.WaitRemoveDelegate env d done := by
    intro e; simp [PostRemoveDelegate, hd]
  rw [ReleaseAutomationServer_hit env entry.addr d s entry h0 hfind, hs,
    updateFirst_first _ _ l1 l2 entry h1 ha, hpost]
  by_cases hl : (entry.WaitRemoveDelegate env d done).2 = true
  · have ha' : (fun p : AutomationProxyCacheEntry => p.addr == entry.addr)
        (entry.WaitRemoveDelegate env d done).1 = true := by
      simp [(AutomationProxyCacheEntry.WaitRemoveDelegate_keeps env d done entry).1]
    simp only [hl, if_true]
    rw [eraseP_first _ l1 l2 _ h1 ha']
  · simp only [hl, Bool.false_eq_true, if_false]

end ProxyFactory

/-- C9, as stated, fails: the delegate list of the entry is exactly `[11]` while the
`AddDelegate(12)` of a delegate that has just asked for the profile is pending; the worker
runs it before `RemoveDelegate(11)`, so `ReleaseAutomationServer(entry, 11)` returns `true`
and the entry is still in the registry, with the delegate list `[12]`. -/
theorem ReleaseAutomationServer_join_pending_keeps_entry :
    factoryJoinPending.proxies_.map (fun e => (e.addr, e.launch_delegates_, e.thread_)) =
      [(1, [11], [PendingTask.AddDelegate 12])] ∧
    (factoryJoinPending.ReleaseAutomationServer launchOk 1 11).1 = true ∧
    (factoryJoinPending.ReleaseAutomationServer launchOk 1 11).2.proxies_.map
      (fun e => (e.addr, e.launch_delegates_, e.thread_)) = [(1, [12], [])] := by
  decide

/-- C9, amended: for every entry of the registry whose delegate list is exactly `[d]` once the
tasks pending on its worker have run (in particular when the list is `[d]` and the worker is
idle), `ReleaseAutomationServer(entry, d)` returns `true` and leaves the registry without that
entry, every other entry being present, as it was and in the same relative order. -/
theorem ReleaseAutomationServer_last_delegate (env : LaunchEnv) (s : ProxyFactory)
    (l1 l2 : List AutomationProxyCacheEntry) (entry : AutomationProxyCacheEntry)
    (d : LaunchDelegate) (hs : s.proxies_ = l1 ++ entry :: l2)
    (haddr : ∀ x ∈ l1, x.addr ≠ entry.addr) (h0 : entry.addr ≠ NULL) (hd : d ≠ NULL)
    (hlist : (entry.RunTasks env entry.thread_).launch_delegates_ = [d]) :
    s.ReleaseAutomationServer env entry.addr d =
      (true, ProxyFactory.mk (l1 ++ l2) s.next_addr) := by
  have hl : (entry.WaitRemoveDelegate env d ProxyFactory.done).2 = true := by
    simp [AutomationProxyCacheEntry.WaitRemoveDelegate, AutomationProxyCacheEntry.RemoveDelegate,
      hlist, AutomationProxyCacheEntry.find]
  rw [ProxyFactory.ReleaseAutomationServer_at env s l1 l2 entry d hs haddr h0 hd]
  simp [hl]

/-- Witness of C9: delegate `13`, the only one of `"profileB"`, releases it while `"profileA"`
is held by two others. -/
theorem ReleaseAutomationServer_last_delegate_witness :
    (factoryIdle.ReleaseAutomationServer launchOk 1 13).1 = true ∧
    (factoryIdle.ReleaseAutomationServer launchOk 1 13).2.proxies_.map
      (fun e => (e.addr, e.profile_name, e.launch_delegates_)) = [(2, "profileA", [11, 12])] := by
  have h := ReleaseAutomationServer_last_delegate launchOk factoryIdle []
    (factoryIdle.proxies_.drop 1) (AutomationProxyCacheEntry.RunUntilIdle launchOk
      (AutomationProxyCacheEntry.ctor 1 profileB 13)) 13 (by decide) (by decide) (by decide)
    (by decide) (by decide)
  exact ⟨congrArg Prod.fst h, (congrArg (fun r => r.2.proxies_.map
    (fun e => (e.addr, e.profile_name, e.launch_delegates_))) h).trans rfl⟩

/-- C10, as stated, fails: the delegate list of the entry is `[11, 12]` while the
`AddDelegate(13)` of a delegate that has just asked for the profile is pending; the worker
runs it before `RemoveDelegate(11)`, so after `ReleaseAutomationServer(entry, 11)` the list
is `[12, 13]` and not the old list with `11` removed. -/
theorem ReleaseAutomationServer_join_pending_changes_list :
    factoryThirdPending.proxies_.map (fun e => (e.addr, e.launch_delegates_, e.thread_)) =
      [(1, [11, 12], [PendingTask.AddDelegate 13])] ∧
    (factoryThirdPending.ReleaseAutomationServer launchOk 1 11).2.proxies_.map
      (fun e => (e.addr, e.launch_delegates_)) = [(1, [12, 13])] ∧
    ([11, 12] : List LaunchDelegate).erase 11 = [12] := by
  decide

/-- C10, amended: for every entry of the registry whose delegate list has two or more members
once the tasks pending on its worker have run (in particular when the list has two or more
members and the worker is idle) and every member `d` of that list,
`ReleaseAutomationServer(entry, d)` returns `true` and leaves the registry with the same
entries at the same places, the entry released from being the only one written to; the
worker reports `was_last_delegate = false`, the proxy is the one the pending tasks have left
(it is not reset), as are the address, the profile and the stored result, and the delegate
list is the list the pending tasks have left with the first occurrence of `d` removed, the
others in their order; the one call added is the signal of `done`. -/
theorem ReleaseAutomationServer_not_last_delegate (env : LaunchEnv) (s : ProxyFactory)
    (l1 l2 : List AutomationProxyCacheEntry) (entry : AutomationProxyCacheEntry)
    (d : LaunchDelegate) (hs : s.proxies_ = l1 ++ entry :: l2)
    (haddr : ∀ x ∈ l1, x.addr ≠ entry.addr) (h0 : entry.addr ≠ NULL) (hd : d ≠ NULL)
    (hmem : d ∈ (entry.RunTasks env entry.thread_).launch_delegates_)
    (hlen : 2 ≤ (entry.RunTasks env entry.thread_).launch_delegates_.length) :
    s.ReleaseAutomationServer env entry.addr d =
      (true,
        ProxyFactory.mk (l1 ++ (entry.WaitRemoveDelegate env d ProxyFactory.done).1 :: l2)
          s.next_addr) ∧
    (entry.WaitRemoveDelegate env d ProxyFactory.done).2 = false ∧
    (entry.WaitRemoveDelegate env d ProxyFactory.done).1.addr = entry.addr ∧
    (entry.WaitRemoveDelegate env d ProxyFactory.done).1.profile_name = entry.profile_name ∧
    (entry.WaitRemoveDelegate env d ProxyFactory.done).1.proxy_ =
      (entry.RunTasks env entry.thread_).proxy_ ∧
    (entry.WaitRemoveDelegate env d ProxyFactory.done).1.launch_result_ =
      (entry.RunTasks env entry.thread_).launch_result_ ∧
    (entry.WaitRemoveDelegate env d ProxyFactory.done).1.launch_delegates_ =
      (entry.RunTasks env entry.thread_).launch_delegates_.erase d ∧
    (entry.WaitRemoveDelegate env d ProxyFactory.done).1.calls =
      (entry.RunTasks env entry.thread_).calls ++ [Call.Signal ProxyFactory.done false] := by
  cases hf : AutomationProxyCacheEntry.find d
      (entry.RunTasks env entry.thread_).launch_delegates_ with
  | none => exact absurd hmem ((AutomationProxyCacheEntry.find_eq_none d _).1 hf)
  | some it =>
    have h1 : ¬ (entry.RunTasks env entry.thread_).launch_delegates_.length = 1 := by omega
    have herase := AutomationProxyCacheEntry.eraseIdx_find d _ it hf
    have hl : (entry.WaitRemoveDelegate env d ProxyFactory.done).2 = false := by
      simp [AutomationProxyCacheEntry.WaitRemoveDelegate,
        AutomationProxyCacheEntry.RemoveDelegate, hf, h1]
    have hk := AutomationProxyCacheEntry.WaitRemoveDelegate_keeps env d ProxyFactory.done entry
    refine ⟨?_, hl, hk.1, hk.2.1, ?_, ?_, ?_, ?_⟩
    · rw [ProxyFactory.ReleaseAutomationServer_at env s l1 l2 entry d hs haddr h0 hd]
      simp [hl]
    · simp [AutomationProxyCacheEntry.WaitRemoveDelegate,
        AutomationProxyCacheEntry.RemoveDelegate, hf, h1]
    · simp [AutomationProxyCacheEntry.WaitRemoveDelegate,
        AutomationProxyCacheEntry.RemoveDelegate, hf, h1]
    · simp [AutomationProxyCacheEntry.WaitRemoveDelegate,
        AutomationProxyCacheEntry.RemoveDelegate, hf, h1, herase]
    · simp [AutomationProxyCacheEntry.WaitRemoveDelegate,
        AutomationProxyCacheEntry.RemoveDelegate, hf, h1]

/-- Witness of C10: delegate `11` releases `"profileA"`, which delegate `12` holds as well. -/
theorem ReleaseAutomationServer_not_last_delegate_witness :
    (factoryIdle.ReleaseAutomationServer launchOk 2 11).2.proxies_.map
      (fun e => (e.addr, e.profile_name, e.proxy_.isSome, e.launch_delegates_)) =
      [(1, "profileB", true, [13]), (2, "profileA", true, [12])] := by
  have h := (ReleaseAutomationServer_not_last_delegate launchOk factoryIdle
    (factoryIdle.proxies_.take 1) []
    (AutomationProxyCacheEntry.RunUntilIdle launchOk
      (AutomationProxyCacheEntry.PostTask (PendingTask.AddDelegate 12)
        (AutomationProxyCacheEntry.ctor 2 profileA 11)))
    11 (by decide) (by decide) (by decide) (by decide) (by decide) (by decide)).1
  exact (congrArg (fun r => r.2.proxies_.map
    (fun e => (e.addr, e.profile_name, e.proxy_.isSome, e.launch_delegates_))) h).trans rfl

/-! ## `OnChannelError` of the entry -/

theorem count_map_AutomationServerDied (d : LaunchDelegate) (l : List LaunchDelegate) :
    (l.map Call.AutomationServerDied).count (Call.AutomationServerDied d) = l.count d := by
  induction l with
  | nil => rfl
  | cons x xs ih =>
    by_cases hx : x = d
    · subst hx
      simp [ih]
    · have hne : ¬ Call.AutomationServerDied x = Call.AutomationServerDied d := by
        intro h
        exact hx (Call.AutomationServerDied.inj h)
      have hbeq : (x == d) = false := by simpa using hx
      simp [List.count_cons, hne, hbeq, ih]

/-- C11, as stated, fails: delegate `11` has asked for `"profileA"` twice, and since the
duplicate check of `AddDelegate` is a `DCHECK`, the delegate list of the entry is `[11, 11]`.
`OnChannelError` then calls `AutomationServerDied` on delegate `11` twice, once for each entry
of the list, and not exactly once. -/
theorem OnChannelError_notifies_duplicate_twice :
    factoryJoinedTwice.proxies_.map
        (fun e => (e.launch_delegates_, e.calls.count (Call.AutomationServerDied 11),
          e.OnChannelError.calls.count (Call.AutomationServerDied 11))) =
      [([11, 11], 0, 2)] := by
  decide

/-- C11, amended: for every entry state, `AutomationProxyCacheEntry::OnChannelError` makes
exactly the calls `AutomationServerDied` on the delegates of the delegate list as it is at
that instant, one per entry of the list and in list order, and no other call; the list stays
as it is. So every delegate is called as often as it occurs in the list: never when it is not
in the list, and exactly once each when the list holds no delegate twice.
`ChromeFrameAutomationProxyImpl::OnChannelError` does just that on the entry its
`proxy_entry_` designates. -/
theorem OnChannelError_notifies_the_delegate_list (e : AutomationProxyCacheEntry) :
    e.OnChannelError.calls = e.calls ++ e.launch_delegates_.map Call.AutomationServerDied ∧
    e.OnChannelError.launch_delegates_ = e.launch_delegates_ ∧
    (∀ d, (e.launch_delegates_.map Call.AutomationServerDied).count
        (Call.AutomationServerDied d) = e.launch_delegates_.count d) ∧
    (∀ d, d ∉ e.launch_delegates_ →
        Call.AutomationServerDied d ∉ e.launch_delegates_.map Call.AutomationServerDied) ∧
    (∀ p, ChromeFrameAutomationProxyImpl.OnChannelError p (some e) =
        (p, some e.OnChannelError)) ∧
    (e.launch_delegates_.Nodup → ∀ d ∈ e.launch_delegates_,
        (e.launch_delegates_.map Call.AutomationServerDied).count
          (Call.AutomationServerDied d) = 1) := by
  refine ⟨rfl, rfl, fun d => count_map_AutomationServerDied d _, ?_, fun p => rfl, ?_⟩
  · intro d hd hmem
    obtain ⟨x, hx, hxd⟩ := List.mem_map.1 hmem
    exact hd (Call.AutomationServerDied.inj hxd ▸ hx)
  · intro hnodup d hd
    rw [count_map_AutomationServerDied]
    exact List.count_eq_one_of_mem hnodup hd

/-- Witness of C11: the entry that delegates `11` and `12` hold. -/
theorem OnChannelError_notifies_the_delegate_list_witness :
    (entryLaunched.AddDelegate 12).OnChannelError.calls =
      (entryLaunched.AddDelegate 12).calls ++
        [Call.AutomationServerDied 11, Call.AutomationServerDied 12] ∧
    Call.AutomationServerDied 13 ∉
      (entryLaunched.AddDelegate 12).launch_delegates_.map Call.AutomationServerDied ∧
    ((entryLaunched.AddDelegate 12).launch_delegates_.map Call.AutomationServerDied).count
      (Call.AutomationServerDied 12) = 1 :=
  ⟨(OnChannelError_notifies_the_delegate_list (entryLaunched.AddDelegate 12)).1,
    (OnChannelError_notifies_the_delegate_list (entryLaunched.AddDelegate 12)).2.2.2.1 13
      (by decide),
    (OnChannelError_notifies_the_delegate_list (entryLaunched.AddDelegate 12)).2.2.2.2.2
      (by decide) 12 (by decide)⟩

/-! ## `SendAsAsync` and `CancelAsync` -/

/-- C12: for every message, context and key, `SendAsAsync` first registers the pending call
with the reply dispatcher and then hands the message to the channel: the calls it makes are
`Push` and then `Send`, in that order and nothing else, and `Send` runs on the proxy that
`Push` has left, in which the key is registered with the context; it stays registered when
`SendAsAsync` returns. -/
theorem SendAsAsync_registers_before_it_sends (msg : Message) (context key : Nat)
    (p : ChromeFrameAutomationProxy) :
    ChromeFrameAutomationProxyImpl.SendAsAsync msg context key p =
      ChromeFrameAutomationProxyImpl.channel_Send msg
        (ChromeFrameAutomationProxyImpl.sync_Push msg context key p) ∧
    (ChromeFrameAutomationProxyImpl.SendAsAsync msg context key p).calls =
      p.calls ++ [ProxyCall.Push msg context key, ProxyCall.Send msg] ∧
    ({ token := key, continuation := context } : PendingCall) ∈
      (ChromeFrameAutomationProxyImpl.sync_Push msg context key p).sync_.message_queue_ ∧
    (ChromeFrameAutomationProxyImpl.sync_Push msg context key p).calls =
      p.calls ++ [ProxyCall.Push msg context key] ∧
    ({ token := key, continuation := context } : PendingCall) ∈
      (ChromeFrameAutomationProxyImpl.SendAsAsync msg context key p).sync_.message_queue_ := by
  refine ⟨rfl, ?_, ?_, rfl, ?_⟩
  · simp [ChromeFrameAutomationProxyImpl.SendAsAsync,
      ChromeFrameAutomationProxyImpl.channel_Send, ChromeFrameAutomationProxyImpl.sync_Push]
  · simp [ChromeFrameAutomationProxyImpl.sync_Push, SyncMessageReplyDispatcher.Push]
  · simp [ChromeFrameAutomationProxyImpl.SendAsAsync,
      ChromeFrameAutomationProxyImpl.channel_Send, ChromeFrameAutomationProxyImpl.sync_Push,
      SyncMessageReplyDispatcher.Push]

namespace SyncMessageReplyDispatcher

/-- A reply whose token no pending call carries is dropped: it is not handled and the
dispatcher stays as it is. -/
theorem OnMessageReceived_absent (msg : Message) (T : Nat) (d : SyncMessageReplyDispatcher)
    (hmsg : msg.reply = some T) (hd : ∀ c ∈ d.message_queue_, c.token ≠ T) :
    d.OnMessageReceived msg = (false, d) := by
  have hfind : d.message_queue_.find? (fun c => c.token == T) = none := by
    rw [List.find?_eq_none]
    intro c hc
    simpa using hd c hc
  simp [OnMessageReceived, hmsg, hfind]

/-- What a message does to the queue of the dispatcher: it takes calls out at most. -/
theorem OnMessageReceived_queue (msg : Message) (d : SyncMessageReplyDispatcher) :
    ∀ c ∈ (d.OnMessageReceived msg).2.message_queue_, c ∈ d.message_queue_ := by
  intro c hc
  unfold OnMessageReceived at hc
  cases hr : msg.reply with
  | none => simpa [hr] using hc
  | some token =>
    cases hf : d.message_queue_.find? (fun c => c.token == token) with
    | none => simpa [hr, hf] using hc
    | some c0 =>
      simp only [hr, hf] at hc
      exact List.mem_of_mem_eraseP hc

end SyncMessageReplyDispatcher

namespace ChromeFrameAutomationProxyImpl

/-- A filter is left alone by a reply. -/
theorem filter_OnMessageReceived_reply (handled : TabProxy → Message → Bool) (msg : Message)
    (f : TabProxyNotificationMessageFilter) (h : msg.is_reply = true) :
    f.OnMessageReceived handled msg = (false, f) := by
  simp [TabProxyNotificationMessageFilter.OnMessageReceived, h]

/-- A step that does not send under the key `T` registers no pending call of token `T`. -/
theorem step_keeps_token_absent (handled : TabProxy → Message → Bool)
    (unregisters : TabProxy → List AutomationHandle) (T : Nat) (p q : ChromeFrameAutomationProxy)
    (op : ProxyOp) (hop : op.sendsWith T = false) (hstep : step handled unregisters p op = some q)
    (hp : ∀ c ∈ p.sync_.message_queue_, c.token ≠ T) :
    ∀ c ∈ q.sync_.message_queue_, c.token ≠ T := by
  cases op with
  | SendAsAsync msg context key =>
    simp only [step, Option.some.injEq] at hstep
    subst hstep
    have hkey : key ≠ T := by simpa [ProxyOp.sendsWith] using hop
    intro c hc
    simp only [SendAsAsync, channel_Send, sync_Push, SyncMessageReplyDispatcher.Push,
      List.mem_append, List.mem_singleton] at hc
    rcases hc with hc | hc
    · exact hp c hc
    · subst hc; exact hkey
  | CancelAsync key =>
    simp only [step, Option.some.injEq] at hstep
    subst hstep
    intro c hc
    simp only [CancelAsync, SyncMessageReplyDispatcher.Cancel, List.mem_filter] at hc
    exact hp c hc.1
  | CreateTabProxy tab_proxy handle =>
    simp only [step, Option.some.injEq] at hstep
    subst hstep
    intro c hc
    apply hp c
    unfold CreateTabProxy at hc
    by_cases ht : tab_proxy = NULL
    · simpa [ht] using hc
    · simpa [ht] using hc
  | ReleaseTabProxy handle =>
    simp only [step, Option.some.injEq] at hstep
    subst hstep
    exact hp
  | Dispatch msg =>
    simp only [step, Option.some.injEq] at hstep
    subst hstep
    intro c hc
    apply hp c
    unfold Dispatch at hc
    by_cases hr : (p.message_filter_.OnMessageReceived handled msg).1 = true
    · simpa [hr] using hc
    · simp only [hr, Bool.false_eq_true, if_false] at hc
      exact SyncMessageReplyDispatcher.OnMessageReceived_queue msg p.sync_ c hc
  | OnChannelError =>
    simp only [step, Option.map_eq_some'] at hstep
    obtain ⟨f, _, rfl⟩ := hstep
    exact hp

/-- A run that does not send under the key `T` registers no pending call of token `T`. -/
theorem run_keeps_token_absent (handled : TabProxy → Message → Bool)
    (unregisters : TabProxy → List AutomationHandle) (T : Nat) (ops : List ProxyOp) :
    ∀ p q : ChromeFrameAutomationProxy, (∀ op ∈ ops, op.sendsWith T = false) →
      run handled unregisters p ops = some q →
      (∀ c ∈ p.sync_.message_queue_, c.token ≠ T) →
      ∀ c ∈ q.sync_.message_queue_, c.token ≠ T := by
  induction ops with
  | nil =>
    intro p q _ hrun hp
    simp only [run, Option.some.injEq] at hrun
    subst hrun
    exact hp
  | cons op ops ih =>
    intro p q hops hrun hp
    simp only [run] at hrun
    cases hs : step handled unregisters p op with
    | none => simp [hs] at hrun
    | some r =>
      simp only [hs] at hrun
      exact ih r q (fun o ho => hops o (List.mem_cons_of_mem _ ho)) hrun
        (step_keeps_token_absent handled unregisters T p r op
          (hops op (List.mem_cons_self _ _)) hs hp)

end ChromeFrameAutomationProxyImpl

/-- C13: for every key `T`, after `SendAsAsync(msg, context, T)` followed by `CancelAsync(T)`,
and after whatever the proxy does later short of a new `SendAsAsync` under `T`, a reply that
carries the token `T` invokes no continuation and raises no error: no filter handles it, the
reply dispatcher and the whole proxy stay as they are, and the reply is dropped. -/
theorem cancelled_reply_is_dropped (handled : TabProxy → Message → Bool)
    (unregisters : TabProxy → List AutomationHandle) (msg reply : Message) (context T : Nat)
    (p q : ChromeFrameAutomationProxy) (ops : List ProxyOp)
    (hreply : reply.reply = some T) (hops : ∀ op ∈ ops, op.sendsWith T = false)
    (hrun : ChromeFrameAutomationProxyImpl.run handled unregisters
      (ChromeFrameAutomationProxyImpl.CancelAsync T
        (ChromeFrameAutomationProxyImpl.SendAsAsync msg context T p)) ops = some q) :
    q.sync_.OnMessageReceived reply = (false, q.sync_) ∧
    ChromeFrameAutomationProxyImpl.Dispatch handled reply q = (false, q) := by
  have hcancel : ∀ c ∈ (ChromeFrameAutomationProxyImpl.CancelAsync T
      (ChromeFrameAutomationProxyImpl.SendAsAsync msg context T p)).sync_.message_queue_,
      c.token ≠ T := by
    intro c hc
    simp only [ChromeFrameAutomationProxyImpl.CancelAsync, SyncMessageReplyDispatcher.Cancel,
      List.mem_filter] at hc
    simpa using hc.2
  have hq := ChromeFrameAutomationProxyImpl.run_keeps_token_absent handled unregisters T ops
    _ q hops hrun hcancel
  have hsync := SyncMessageReplyDispatcher.OnMessageReceived_absent reply T q.sync_ hreply hq
  have hfilter := ChromeFrameAutomationProxyImpl.filter_OnMessageReceived_reply handled reply
    q.message_filter_ (by simp [Message.is_reply, hreply])
  refine ⟨hsync, ?_⟩
  simp [ChromeFrameAutomationProxyImpl.Dispatch, hfilter, hsync]

/-- Witness of C13: a call is sent under the key `42` and cancelled, another call is sent under
the key `43`, and then the reply of token `42` arrives. -/
theorem cancelled_reply_is_dropped_witness :
    ChromeFrameAutomationProxyImpl.Dispatch handledAlways reply42
        (ChromeFrameAutomationProxyImpl.SendAsAsync requestFind 8 43
          (ChromeFrameAutomationProxyImpl.CancelAsync 42 proxyOnePending)) =
      (false, ChromeFrameAutomationProxyImpl.SendAsAsync requestFind 8 43
        (ChromeFrameAutomationProxyImpl.CancelAsync 42 proxyOnePending)) :=
  (cancelled_reply_is_dropped handledAlways unregistersNothing requestFind reply42 7 42
    proxyIdle _ [ProxyOp.SendAsAsync requestFind 8 43] rfl (by decide) rfl).2

/-! ## `ChromeFrameAutomationProxyImpl::OnChannelError` and the pending calls -/

/-- C15, as stated, fails: after the channel error has been reported, `SendAsAsync` under the
key `43` registers the pending call and hands the message to the channel, as it does on a
live channel. -/
theorem SendAsAsync_registers_after_channel_error :
    (ChromeFrameAutomationProxyImpl.SendAsAsync requestFind 8 43
      (ChromeFrameAutomationProxyImpl.OnChannelError proxyIdle
        (some entryLaunched)).1).sync_.message_queue_ = [{ token := 43, continuation := 8 }] ∧
    (ChromeFrameAutomationProxyImpl.SendAsAsync requestFind 8 43
      (ChromeFrameAutomationProxyImpl.OnChannelError proxyIdle
        (some entryLaunched)).1).calls =
      [ProxyCall.Push requestFind 8 43, ProxyCall.Send requestFind] := by
  decide

/-- C15, amended: after the channel-error callback has fired on a connection, every later
`SendAsAsync` on it does what it does on a live connection, since the callback has left no
trace in the proxy: it registers the pending call under its key and then hands the message
to the channel, and, being `void`, reports no condition to its caller. -/
theorem SendAsAsync_after_channel_error (msg : Message) (context key : Nat)
    (p : ChromeFrameAutomationProxy) (proxy_entry_ : Option AutomationProxyCacheEntry) :
    ChromeFrameAutomationProxyImpl.SendAsAsync msg context key
        (ChromeFrameAutomationProxyImpl.OnChannelError p proxy_entry_).1 =
      ChromeFrameAutomationProxyImpl.SendAsAsync msg context key p ∧
    (ChromeFrameAutomationProxyImpl.SendAsAsync msg context key
        (ChromeFrameAutomationProxyImpl.OnChannelError p proxy_entry_).1).sync_.message_queue_ =
      p.sync_.message_queue_ ++ [{ token := key, continuation := context }] ∧
    (ChromeFrameAutomationProxyImpl.SendAsAsync msg context key
        (ChromeFrameAutomationProxyImpl.OnChannelError p proxy_entry_).1).calls =
      p.calls ++ [ProxyCall.Push msg context key, ProxyCall.Send msg] := by
  have h : (ChromeFrameAutomationProxyImpl.OnChannelError p proxy_entry_).1 = p := by
    cases proxy_entry_ <;> rfl
  rw [h]
  refine ⟨rfl, rfl, ?_⟩
  simp [ChromeFrameAutomationProxyImpl.SendAsAsync,
    ChromeFrameAutomationProxyImpl.channel_Send, ChromeFrameAutomationProxyImpl.sync_Push]

/-! ## `TabProxyNotificationMessageFilter::OnMessageReceived` -/

/-- C16: for every inbound message that is a reply, whatever the tracker holds and whatever
the tabs would answer, `OnMessageReceived` of the tab filter returns `false` and leaves the
filter as it is: no tab is invoked, the routing mapping playing no part in the outcome. -/
theorem OnMessageReceived_reply_not_handled (handled : TabProxy → Message → Bool)
    (message : Message) (f : TabProxyNotificationMessageFilter)
    (hreply : message.is_reply = true) :
    f.OnMessageReceived handled message = (false, f) := by
  simp [TabProxyNotificationMessageFilter.OnMessageReceived, hreply]

/-- Witness of C16: the reply of token `42` reaches the filter that knows the tab of its
routing id. -/
theorem OnMessageReceived_reply_not_handled_witness :
    proxyTwoTabs.message_filter_.tracker_.GetResource reply42.routing_id = some 70 ∧
    proxyTwoTabs.message_filter_.OnMessageReceived handledAlways reply42 =
      (false, proxyTwoTabs.message_filter_) :=
  ⟨by decide,
    OnMessageReceived_reply_not_handled handledAlways reply42 proxyTwoTabs.message_filter_
      (by decide)⟩

/-- C18: for every inbound tab message that is no reply and whose routing id the tracker does
not resolve, `OnMessageReceived` returns `true`, so that the message counts as handled and
is dropped, and leaves the filter as it is: no tab is invoked, and neither the list of tabs
nor anything outside the filter (no channel error, no delegate) is touched. -/
theorem OnMessageReceived_unroutable_is_dropped (handled : TabProxy → Message → Bool)
    (message : Message) (f : TabProxyNotificationMessageFilter)
    (hreply : message.is_reply = false) (htab : message.tab_message = true)
    (hres : f.tracker_.GetResource message.routing_id = none) :
    f.OnMessageReceived handled message = (true, f) := by
  simp [TabProxyNotificationMessageFilter.OnMessageReceived, hreply, htab, hres]

/-- Witness of C18: a notification for routing id `5` reaches a proxy without tabs. -/
theorem OnMessageReceived_unroutable_is_dropped_witness :
    proxyIdle.message_filter_.OnMessageReceived handledAlways tabMessage5 =
      (true, proxyIdle.message_filter_) :=
  OnMessageReceived_unroutable_is_dropped handledAlways tabMessage5 proxyIdle.message_filter_
    (by decide) (by decide) (by decide)

/-! ## `TabProxyNotificationMessageFilter::OnChannelError` -/

namespace TabProxyNotificationMessageFilter

/-- What the `RemoveTabProxy` calls of a callback do to the filter. -/
theorem foldl_RemoveTabProxy (R : List AutomationHandle) :
    ∀ f : TabProxyNotificationMessageFilter,
      (R.foldl (fun g h => RemoveTabProxy h g) f).tracker_ = f.tracker_ ∧
      (R.foldl (fun g h => RemoveTabProxy h g) f).calls = f.calls ∧
      ∀ x ∈ (R.foldl (fun g h => RemoveTabProxy h g) f).tabs_list_, x ∈ f.tabs_list_ := by
  induction R with
  | nil => intro f; exact ⟨rfl, rfl, fun x hx => hx⟩
  | cons r R ih =>
    intro f
    obtain ⟨h1, h2, h3⟩ := ih (RemoveTabProxy r f)
    refine ⟨h1, h2, fun x hx => ?_⟩
    have := h3 x hx
    simp only [RemoveTabProxy, List.mem_filter] at this
    exact this.1

/-- Every call of a full broadcast is `OnChannelError` for a handle of the list. -/
theorem mem_broadcast (tracker : AutomationHandleTracker) (l : List AutomationHandle) :
    ∀ c ∈ tracker.broadcast l, ∃ handle tab, handle ∈ l ∧ c = TabCall.OnChannelError handle tab := by
  induction l with
  | nil => intro c hc; simp [AutomationHandleTracker.broadcast] at hc
  | cons x xs ih =>
    intro c hc
    unfold AutomationHandleTracker.broadcast at hc
    cases hr : tracker.GetResource x with
    | none =>
      simp only [hr] at hc
      obtain ⟨handle, tab, hm, he⟩ := ih c hc
      exact ⟨handle, tab, List.mem_cons_of_mem _ hm, he⟩
    | some t =>
      simp only [hr, List.mem_cons] at hc
      rcases hc with hc | hc
      · exact ⟨x, t, List.mem_cons_self _ _, hc⟩
      · obtain ⟨handle, tab, hm, he⟩ := ih c hc
        exact ⟨handle, tab, List.mem_cons_of_mem _ hm, he⟩

/-- Whatever the callbacks unregister, a broadcast that comes to its end keeps the tracker,
adds calls only, all of them calls of the full broadcast and in its order, and adds no handle
to the list. -/
theorem OnChannelErrorFrom_some (unregisters : TabProxy → List AutomationHandle)
    (rest : List AutomationHandle) :
    ∀ (removed : List AutomationHandle) (f f' : TabProxyNotificationMessageFilter),
      OnChannelErrorFrom unregisters removed rest f = some f' →
      f'.tracker_ = f.tracker_ ∧
      (∃ new, f'.calls = f.calls ++ new ∧ new.Sublist (f.tracker_.broadcast rest)) ∧
      ∀ x ∈ f'.tabs_list_, x ∈ f.tabs_list_ := by
  induction rest with
  | nil =>
    intro removed f f' h
    simp only [OnChannelErrorFrom, Option.some.injEq] at h
    subst h
    exact ⟨rfl, ⟨[], by simp, List.Sublist.refl _⟩, fun x hx => hx⟩
  | cons handle rest ih =>
    intro removed f f' h
    unfold OnChannelErrorFrom at h
    by_cases hrem : removed.contains handle = true
    · simp only [hrem, if_true] at h
      obtain ⟨h1, ⟨new, h2, h3⟩, h4⟩ := ih removed f f' h
      refine ⟨h1, ⟨new, h2, ?_⟩, h4⟩
      unfold AutomationHandleTracker.broadcast
      cases f.tracker_.GetResource handle with
      | none => exact h3
      | some tab => exact List.Sublist.cons _ h3
    · simp only [hrem, Bool.false_eq_true, if_false] at h
      cases hr : f.tracker_.GetResource handle with
      | none =>
        simp only [hr] at h
        obtain ⟨h1, ⟨new, h2, h3⟩, h4⟩ := ih removed f f' h
        refine ⟨h1, ⟨new, h2, ?_⟩, h4⟩
        unfold AutomationHandleTracker.broadcast
        simp only [hr]
        exact h3
      | some tab =>
        simp only [hr] at h
        by_cases hself : (unregisters tab).contains handle = true
        · rw [if_pos hself] at h
          exact absurd h (by simp)
        · rw [if_neg hself] at h
          obtain ⟨h1, ⟨new, h2, h3⟩, h4⟩ := ih _ _ f' h
          obtain ⟨g1, g2, g3⟩ := foldl_RemoveTabProxy (unregisters tab)
            { f with calls := f.calls ++ [TabCall.OnChannelError handle tab] }
          rw [g1] at h1 h3
          rw [g2] at h2
          refine ⟨h1, ⟨TabCall.OnChannelError handle tab :: new, ?_, ?_⟩, ?_⟩
          · rw [h2]; simp
          · unfold AutomationHandleTracker.broadcast
            simp only [hr]
            exact List.Sublist.cons₂ _ h3
          · intro x hx
            exact g3 x (h4 x hx)

end TabProxyNotificationMessageFilter

namespace TabProxyNotificationMessageFilter

end TabProxyNotificationMessageFilter

namespace ChromeFrameAutomationProxyImpl

/-- What a message does to the tab filter: the list and the tracker stay, and no
`OnChannelError` call is added. -/
theorem filter_OnMessageReceived_keeps (handled : TabProxy → Message → Bool) (msg : Message)
    (h : AutomationHandle) (f : TabProxyNotificationMessageFilter) :
    (f.OnMessageReceived handled msg).2.tabs_list_ = f.tabs_list_ ∧
    (f.OnMessageReceived handled msg).2.tracker_ = f.tracker_ ∧
    (f.OnMessageReceived handled msg).2.calls.countP (TabCall.isOnChannelErrorFor h) =
      f.calls.countP (TabCall.isOnChannelErrorFor h) := by
  unfold TabProxyNotificationMessageFilter.OnMessageReceived
  by_cases h1 : msg.is_reply = true
  · simp [h1]
  · by_cases h2 : msg.tab_message = true
    · cases hr : f.tracker_.GetResource msg.routing_id with
      | none => simp [h1, h2, hr]
      | some tab =>
        simp [h1, h2, hr, List.countP_append, TabCall.isOnChannelErrorFor]
    · simp [h1, h2]

/-- A step that does not create a tab under the handle `h` keeps `h` out of the list of the
filter and adds no `OnChannelError` call for `h`. -/
theorem step_keeps_released (handled : TabProxy → Message → Bool)
    (unregisters : TabProxy → List AutomationHandle) (h : AutomationHandle)
    (p q : ChromeFrameAutomationProxy) (op : ProxyOp) (hop : op.creates h = false)
    (hstep : step handled unregisters p op = some q)
    (hp : h ∉ p.message_filter_.tabs_list_) :
    h ∉ q.message_filter_.tabs_list_ ∧
    q.message_filter_.calls.countP (TabCall.isOnChannelErrorFor h) =
      p.message_filter_.calls.countP (TabCall.isOnChannelErrorFor h) := by
  cases op with
  | SendAsAsync msg context key =>
    simp only [step, Option.some.injEq] at hstep
    subst hstep
    exact ⟨hp, rfl⟩
  | CancelAsync key =>
    simp only [step, Option.some.injEq] at hstep
    subst hstep
    exact ⟨hp, rfl⟩
  | CreateTabProxy tab_proxy handle =>
    simp only [step, Option.some.injEq] at hstep
    subst hstep
    have hne : handle ≠ h := by simpa [ProxyOp.creates] using hop
    unfold CreateTabProxy
    by_cases ht : tab_proxy = NULL
    · rw [if_neg (fun hn => hn ht)]
      exact ⟨hp, rfl⟩
    · rw [if_pos ht]
      refine ⟨?_, rfl⟩
      simp only [TabProxyNotificationMessageFilter.AddTabProxy, List.mem_append,
        List.mem_singleton, not_or]
      exact ⟨hp, fun he => hne he.symm⟩
  | ReleaseTabProxy handle =>
    simp only [step, Option.some.injEq] at hstep
    subst hstep
    refine ⟨?_, rfl⟩
    simp only [ReleaseTabProxy, TabProxyNotificationMessageFilter.RemoveTabProxy,
      List.mem_filter, not_and]
    exact fun hm => absurd hm hp
  | Dispatch msg =>
    simp only [step, Option.some.injEq] at hstep
    subst hstep
    obtain ⟨k1, _, k3⟩ := filter_OnMessageReceived_keeps handled msg h p.message_filter_
    unfold Dispatch
    by_cases hr : (p.message_filter_.OnMessageReceived handled msg).1 = true
    · simp only [hr, if_true]
      exact ⟨by rw [k1]; exact hp, k3⟩
    · simp only [hr, Bool.false_eq_true, if_false]
      exact ⟨by rw [k1]; exact hp, k3⟩
  | OnChannelError =>
    simp only [step, Option.map_eq_some'] at hstep
    obtain ⟨f', hf, rfl⟩ := hstep
    obtain ⟨_, ⟨new, h2, h3⟩, h4⟩ :=
      TabProxyNotificationMessageFilter.OnChannelErrorFrom_some unregisters
        p.message_filter_.tabs_list_ [] p.message_filter_ f' hf
    refine ⟨fun hm => hp (h4 h hm), ?_⟩
    simp only [h2, List.countP_append]
    have hzero : new.countP (TabCall.isOnChannelErrorFor h) = 0 := by
      rw [List.countP_eq_zero]
      intro c hc
      obtain ⟨handle, tab, hm, he⟩ :=
        TabProxyNotificationMessageFilter.mem_broadcast _ _ c (h3.subset hc)
      subst he
      have hne : handle ≠ h := fun e => hp (e ▸ hm)
      simpa [TabCall.isOnChannelErrorFor] using hne
    rw [hzero]
    rfl

/-- A run that does not create a tab under the handle `h` keeps `h` out of the list of the
filter and adds no `OnChannelError` call for `h`. -/
theorem run_keeps_released (handled : TabProxy → Message → Bool)
    (unregisters : TabProxy → List AutomationHandle) (h : AutomationHandle)
    (ops : List ProxyOp) :
    ∀ p q : ChromeFrameAutomationProxy, (∀ op ∈ ops, op.creates h = false) →
      run handled unregisters p ops = some q → h ∉ p.message_filter_.tabs_list_ →
      h ∉ q.message_filter_.tabs_list_ ∧
      q.message_filter_.calls.countP (TabCall.isOnChannelErrorFor h) =
        p.message_filter_.calls.countP (TabCall.isOnChannelErrorFor h) := by
  induction ops with
  | nil =>
    intro p q _ hrun hp
    simp only [run, Option.some.injEq] at hrun
    subst hrun
    exact ⟨hp, rfl⟩
  | cons op ops ih =>
    intro p q hops hrun hp
    simp only [run] at hrun
    cases hs : step handled unregisters p op with
    | none => simp [hs] at hrun
    | some r =>
      simp only [hs] at hrun
      obtain ⟨s1, s2⟩ := step_keeps_released handled unregisters h p r op
        (hops op (List.mem_cons_self _ _)) hs hp
      obtain ⟨r1, r2⟩ := ih r q (fun o ho => hops o (List.mem_cons_of_mem _ ho)) hrun s1
      exact ⟨r1, r2.trans s2⟩

end ChromeFrameAutomationProxyImpl

/-- C19, as stated, fails: the tab `70` was created under the handle `5`. After
`ReleaseTabProxy(5)` the handle is out of the list of the filter, and yet the notification
for routing id `5` is handed to tab `70`: the tracker, which `OnMessageReceived` asks,
still resolves the handle. -/
theorem ReleaseTabProxy_keeps_routing :
    (5 : AutomationHandle) ∉
      (ChromeFrameAutomationProxyImpl.ReleaseTabProxy 5 proxyTwoTabs).message_filter_.tabs_list_ ∧
    ((ChromeFrameAutomationProxyImpl.ReleaseTabProxy 5
      proxyTwoTabs).message_filter_.OnMessageReceived handledAlways tabMessage5).1 = true ∧
    ((ChromeFrameAutomationProxyImpl.ReleaseTabProxy 5
      proxyTwoTabs).message_filter_.OnMessageReceived handledAlways tabMessage5).2.calls =
      [TabCall.OnMessageReceived 70 tabMessage5] := by
  decide

/-- C19, amended: for every handle `h`, after `ReleaseTabProxy(h)` and whatever the proxy does
later short of a `CreateTabProxy` under `h`, the handle is not in the list of the filter and
no `OnChannelError` broadcast has called the tab of `h`. The release leaves the tracker as it
is, so `OnMessageReceived` treats every message, those of routing id `h` too, as it did before
the release: it hands it to the tab the tracker resolves. -/
theorem ReleaseTabProxy_ends_channel_error_calls (handled : TabProxy → Message → Bool)
    (unregisters : TabProxy → List AutomationHandle) (h : AutomationHandle)
    (p q : ChromeFrameAutomationProxy) (ops : List ProxyOp)
    (hops : ∀ op ∈ ops, op.creates h = false)
    (hrun : ChromeFrameAutomationProxyImpl.run handled unregisters
      (ChromeFrameAutomationProxyImpl.ReleaseTabProxy h p) ops = some q) :
    h ∉ q.message_filter_.tabs_list_ ∧
    q.message_filter_.calls.countP (TabCall.isOnChannelErrorFor h) =
      p.message_filter_.calls.countP (TabCall.isOnChannelErrorFor h) ∧
    (ChromeFrameAutomationProxyImpl.ReleaseTabProxy h p).message_filter_.tracker_ =
      p.message_filter_.tracker_ ∧
    ∀ msg, (ChromeFrameAutomationProxyImpl.ReleaseTabProxy h p).message_filter_.OnMessageReceived
        handled msg =
      ((p.message_filter_.OnMessageReceived handled msg).1,
        (p.message_filter_.OnMessageReceived handled msg).2.RemoveTabProxy h) := by
  have hrel : h ∉
      (ChromeFrameAutomationProxyImpl.ReleaseTabProxy h p).message_filter_.tabs_list_ := by
    simp [ChromeFrameAutomationProxyImpl.ReleaseTabProxy,
      TabProxyNotificationMessageFilter.RemoveTabProxy]
  obtain ⟨r1, r2⟩ := ChromeFrameAutomationProxyImpl.run_keeps_released handled unregisters h
    ops _ q hops hrun hrel
  refine ⟨r1, r2, rfl, fun msg => ?_⟩
  unfold TabProxyNotificationMessageFilter.OnMessageReceived
  by_cases h1 : msg.is_reply = true
  · simp [h1, ChromeFrameAutomationProxyImpl.ReleaseTabProxy]
  · by_cases h2 : msg.tab_message = true
    · cases hr : p.message_filter_.tracker_.GetResource msg.routing_id with
      | none =>
        simp [h1, h2, hr, ChromeFrameAutomationProxyImpl.ReleaseTabProxy,
          TabProxyNotificationMessageFilter.RemoveTabProxy]
      | some tab =>
        simp [h1, h2, hr, ChromeFrameAutomationProxyImpl.ReleaseTabProxy,
          TabProxyNotificationMessageFilter.RemoveTabProxy]
    · simp [h1, h2, ChromeFrameAutomationProxyImpl.ReleaseTabProxy]

/-- Witness of C19: the handle `5` is released, a message for it arrives, and a channel error
is broadcast: the message still reaches tab `70`, the broadcast reaches tab `71` only. -/
theorem ReleaseTabProxy_ends_channel_error_calls_witness :
    (ChromeFrameAutomationProxyImpl.run handledAlways unregistersNothing
      (ChromeFrameAutomationProxyImpl.ReleaseTabProxy 5 proxyTwoTabs)
      [ProxyOp.Dispatch tabMessage5, ProxyOp.OnChannelError]).map
        (fun q => q.message_filter_.calls) =
      some [TabCall.OnMessageReceived 70 tabMessage5, TabCall.OnChannelError 6 71] ∧
    (ChromeFrameAutomationProxyImpl.run handledAlways unregistersNothing
      (ChromeFrameAutomationProxyImpl.ReleaseTabProxy 5 proxyTwoTabs)
      [ProxyOp.Dispatch tabMessage5, ProxyOp.OnChannelError]).all
        (fun q => decide ((5 : AutomationHandle) ∉ q.message_filter_.tabs_list_)) = true := by
  refine ⟨by decide, ?_⟩
  cases hq : ChromeFrameAutomationProxyImpl.run handledAlways unregistersNothing
      (ChromeFrameAutomationProxyImpl.ReleaseTabProxy 5 proxyTwoTabs)
      [ProxyOp.Dispatch tabMessage5, ProxyOp.OnChannelError] with
  | none => exact absurd hq (by decide)
  | some q =>
    have h := (ReleaseTabProxy_ends_channel_error_calls handledAlways unregistersNothing 5
      proxyTwoTabs q [ProxyOp.Dispatch tabMessage5, ProxyOp.OnChannelError] (by decide) hq).1
    simpa using h

/-! ## A launch that fails -/

/-- C21: delegate `D1` asks for a profile the registry has no entry of, the process starts
and the handshake `WaitForAppLaunch` returns the result `r`, which is not the success (a
timeout, say). Then the entry makes exactly one `LaunchComplete` call on `D1`, with `r`; and
when `D1` calls `ReleaseAutomationServer`, the worker releases the proxy of the entry, without
a further `LaunchComplete`, and the registry is left without the entry. -/
theorem launch_failure_then_release (s : ProxyFactory) (D1 : LaunchDelegate)
    (params : ChromeFrameLaunchParams) (env env2 : LaunchEnv) (r : AutomationLaunchResult)
    (hD1 : D1 ≠ NULL)
    (hfresh : ∀ x ∈ s.proxies_, x.profile_name ≠ params.profile_name)
    (haddr : ∀ x ∈ s.proxies_, x.addr ≠ s.next_addr) (h0 : s.next_addr ≠ NULL)
    (hcmd : env.command_line_string.isEmpty = false) (hlaunch : env.LaunchProcess = true)
    (hwait : env.WaitForAppLaunch = r) (_hr : r ≠ AUTOMATION_SUCCESS) :
    (s.GetAutomationServer D1 params).1 = s.next_addr ∧
    (∃ entry, (s.run [Op.GetAutomationServer D1 params, Op.DoWork env s.next_addr]).proxies_ =
        s.proxies_ ++ [entry] ∧
      entry.addr = s.next_addr ∧
      entry.launch_delegates_ = [D1] ∧
      entry.launch_result_ = r ∧
      entry.calls = [Call.LaunchProcess env.command_line_string, Call.WaitForAppLaunch,
        Call.LaunchComplete D1 entry.proxy_ r] ∧
      entry.proxy_.isSome = true ∧
      entry.launchCompletes D1 = 1 ∧
      (entry.WaitRemoveDelegate env2 D1 ProxyFactory.done).1.proxy_ = none ∧
      (entry.WaitRemoveDelegate env2 D1 ProxyFactory.done).1.launch_delegates_ = [] ∧
      (entry.WaitRemoveDelegate env2 D1 ProxyFactory.done).1.calls =
        entry.calls ++ [Call.Signal ProxyFactory.done true] ∧
      (entry.WaitRemoveDelegate env2 D1 ProxyFactory.done).1.launchCompletes D1 = 1) ∧
    (s.run [Op.GetAutomationServer D1 params, Op.DoWork env s.next_addr,
        Op.ReleaseAutomationServer env2 s.next_addr D1]).proxies_ = s.proxies_ := by
  have h1 := GetAutomationServer_miss_all s D1 params hfresh
  have hp : ∀ x ∈ s.proxies_,
      (fun p : AutomationProxyCacheEntry => p.addr == s.next_addr) x = false := by
    intro x hx
    simpa using haddr x hx
  have hrun : (s.run [Op.GetAutomationServer D1 params, Op.DoWork env s.next_addr]).proxies_ =
      s.proxies_ ++
        [{ addr := s.next_addr
           profile_name := params.profile_name
           thread_ := []
           posted := [PendingTask.CreateProxy params D1]
           proxy_ := some
             { proxy_entry_ := s.next_addr
               channel_id := env.channel_id
               launch_timeout := params.launch_timeout
               perform_version_check := params.version_check }
           launch_result_ := r
           launch_delegates_ := [D1]
           calls :=
             [Call.LaunchProcess env.command_line_string, Call.WaitForAppLaunch,
              Call.LaunchComplete D1
                (some
                  { proxy_entry_ := s.next_addr
                    channel_id := env.channel_id
                    launch_timeout := params.launch_timeout
                    perform_version_check := params.version_check })
                r] }] := by
    simp only [ProxyFactory.run, List.foldl, ProxyFactory.step]
    rw [h1]
    simp only
    rw [updateFirst_first _ _ s.proxies_ [] _ hp (by simp)]
    simp [AutomationProxyCacheEntry.DoWork, AutomationProxyCacheEntry.RunTask,
      AutomationProxyCacheEntry.CreateProxy, hcmd, hlaunch, hwait]
  refine ⟨by rw [h1], ⟨_, hrun, rfl, rfl, rfl, rfl, rfl, ?_, ?_, ?_, ?_, ?_⟩, ?_⟩
  · simp [AutomationProxyCacheEntry.launchCompletes, Call.isLaunchCompleteOn, List.countP_cons]
  · simp [AutomationProxyCacheEntry.WaitRemoveDelegate, AutomationProxyCacheEntry.RunTasks,
      AutomationProxyCacheEntry.RemoveDelegate, AutomationProxyCacheEntry.find]
  · simp [AutomationProxyCacheEntry.WaitRemoveDelegate, AutomationProxyCacheEntry.RunTasks,
      AutomationProxyCacheEntry.RemoveDelegate, AutomationProxyCacheEntry.find]
  · simp [AutomationProxyCacheEntry.WaitRemoveDelegate, AutomationProxyCacheEntry.RunTasks,
      AutomationProxyCacheEntry.RemoveDelegate, AutomationProxyCacheEntry.find]
  · simp [AutomationProxyCacheEntry.WaitRemoveDelegate, AutomationProxyCacheEntry.RunTasks,
      AutomationProxyCacheEntry.RemoveDelegate, AutomationProxyCacheEntry.find,
      AutomationProxyCacheEntry.launchCompletes, Call.isLaunchCompleteOn, List.countP_cons]
  · have hstep : s.run [Op.GetAutomationServer D1 params, Op.DoWork env s.next_addr,
          Op.ReleaseAutomationServer env2 s.next_addr D1] =
        ((s.run [Op.GetAutomationServer D1 params, Op.DoWork env s.next_addr]).ReleaseAutomationServer
          env2 s.next_addr D1).2 := rfl
    rw [hstep]
    have hrel := ProxyFactory.ReleaseAutomationServer_at env2
      (s.run [Op.GetAutomationServer D1 params, Op.DoWork env s.next_addr]) s.proxies_ [] _ D1
      hrun haddr h0 hD1
    simp only at hrel
    rw [hrel]
    simp [AutomationProxyCacheEntry.WaitRemoveDelegate, AutomationProxyCacheEntry.RunTasks,
      AutomationProxyCacheEntry.RemoveDelegate, AutomationProxyCacheEntry.find]

/-- Witness of C21: delegate `11` asks a new factory for `"profileA"`, the handshake times
out, and the delegate releases the server. -/
theorem launch_failure_then_release_witness :
    (ProxyFactory.ctor.run [Op.GetAutomationServer 11 profileA, Op.DoWork launchTimeout 1,
      Op.ReleaseAutomationServer launchOk 1 11]).proxies_ = [] ∧
    (ProxyFactory.ctor.run [Op.GetAutomationServer 11 profileA,
      Op.DoWork launchTimeout 1]).proxies_.map (fun e => (e.launch_result_, e.launchCompletes 11)) =
      [(AUTOMATION_TIMEOUT, 1)] :=
  ⟨(launch_failure_then_release ProxyFactory.ctor 11 profileA launchTimeout launchOk
      AUTOMATION_TIMEOUT (by decide) (by simp [ProxyFactory.ctor])
      (by simp [ProxyFactory.ctor]) (by decide) (by decide) rfl rfl (by decide)).2.2,
    by decide⟩

/-- C22: when the process cannot be started, the command line being empty or `LaunchProcess`
failing, `CreateProxy` does not wait for the handshake: apart from the attempt to start the
process, the one call it makes is `LaunchComplete` on the initiating delegate, once, with the
result `AUTOMATION_LAUNCH_RESULT_INVALID`, which is not `AUTOMATION_SUCCESS`; it makes no
`AutomationServerDied` call. -/
theorem CreateProxy_process_not_started (env : LaunchEnv) (params : ChromeFrameLaunchParams)
    (delegate : LaunchDelegate) (e : AutomationProxyCacheEntry)
    (h : env.command_line_string.isEmpty = true ∨ env.LaunchProcess = false) :
    (e.CreateProxy env params delegate).calls =
      e.calls ++
        ((if env.command_line_string.isEmpty then []
          else [Call.LaunchProcess env.command_line_string]) ++
        [Call.LaunchComplete delegate (e.CreateProxy env params delegate).proxy_
          AUTOMATION_LAUNCH_RESULT_INVALID]) ∧
    (e.CreateProxy env params delegate).launch_result_ = AUTOMATION_LAUNCH_RESULT_INVALID ∧
    AUTOMATION_LAUNCH_RESULT_INVALID ≠ AUTOMATION_SUCCESS ∧
    (e.CreateProxy env params delegate).calls.count Call.WaitForAppLaunch =
      e.calls.count Call.WaitForAppLaunch ∧
    (e.CreateProxy env params delegate).launchCompletes delegate =
      e.launchCompletes delegate + 1 ∧
    ∀ d, (e.CreateProxy env params delegate).calls.count (Call.AutomationServerDied d) =
      e.calls.count (Call.AutomationServerDied d) := by
  by_cases hcmd : env.command_line_string.isEmpty = true
  · refine ⟨?_, ?_, by decide, ?_, ?_, ?_⟩ <;>
      simp [AutomationProxyCacheEntry.CreateProxy, hcmd,
        AutomationProxyCacheEntry.launchCompletes, Call.isLaunchCompleteOn, List.countP_append,
        List.countP_cons, List.count_append, List.count_cons]
  · have hl : env.LaunchProcess = false := by
      cases h with
      | inl h1 => exact absurd h1 hcmd
      | inr h2 => exact h2
    refine ⟨?_, ?_, by decide, ?_, ?_, ?_⟩ <;>
      simp [AutomationProxyCacheEntry.CreateProxy, hcmd, hl,
        AutomationProxyCacheEntry.launchCompletes, Call.isLaunchCompleteOn, List.countP_append,
        List.countP_cons, List.count_append, List.count_cons]

/-- Witness of C22: the launch for delegate `11` with no command line. -/
theorem CreateProxy_process_not_started_witness :
    ((AutomationProxyCacheEntry.ctor 1 profileA 11).CreateProxy launchNoCommandLine profileA
      11).calls =
      [Call.LaunchComplete 11
        ((AutomationProxyCacheEntry.ctor 1 profileA 11).CreateProxy launchNoCommandLine profileA
          11).proxy_ AUTOMATION_LAUNCH_RESULT_INVALID] :=
  (CreateProxy_process_not_started launchNoCommandLine profileA 11
    (AutomationProxyCacheEntry.ctor 1 profileA 11) (Or.inl (by decide))).1

/-! ## `GetAutomationServer` against a `ReleaseAutomationServer` under way -/

namespace ProxyFactory

/-- The method `ReleaseAutomationServer` is its two halves, one after the other. -/
theorem ReleaseAutomationServer_halves (env : LaunchEnv) (server_id : Nat)
    (delegate : LaunchDelegate) (s : ProxyFactory) (h0 : server_id ≠ NULL) :
    s.ReleaseAutomationServer env server_id delegate =
      (true, ReleaseAutomationServer_erase server_id
        (s.ReleaseAutomationServer_wait env server_id delegate).1
        (s.ReleaseAutomationServer_wait env server_id delegate).2) := by
  unfold ReleaseAutomationServer ReleaseAutomationServer_wait ReleaseAutomationServer_erase
  rw [if_neg h0]
  cases hfind : s.proxies_.find? (fun p => p.addr == server_id) with
  | none => simp
  | some entry =>
    by_cases hl : (PostRemoveDelegate env delegate entry).2 = true
    · simp [hl]
    · simp [hl]

end ProxyFactory

/-- C23 fails on the code: delegate `11` holds `"profileA"` alone and calls
`ReleaseAutomationServer`. Once the worker has run `RemoveDelegate` (the entry has no delegate
and no proxy any more) and before the caller erases the entry from the registry, which it
does under a lock it takes only then, `GetAutomationServer(12, "profileA")` finds the entry in
the registry: it returns the address `1` of the entry whose proxy has been released and posts
`AddDelegate(12)` to it; no new entry is created. The caller then erases the entry, with the
task of delegate `12` pending. -/
theorem GetAutomationServer_returns_released_entry :
    (factoryOneHolder.ReleaseAutomationServer_wait launchOk 1 11).1 = true ∧
    (factoryOneHolder.ReleaseAutomationServer_wait launchOk 1 11).2.proxies_.map
        (fun e => (e.addr, e.profile_name, e.proxy_, e.launch_delegates_)) =
      [(1, "profileA", none, [])] ∧
    ((factoryOneHolder.ReleaseAutomationServer_wait launchOk 1 11).2.GetAutomationServer 12
        profileA).1 = 1 ∧
    ((factoryOneHolder.ReleaseAutomationServer_wait launchOk 1 11).2.GetAutomationServer 12
        profileA).2.proxies_.map
        (fun e => (e.addr, e.proxy_, e.launch_delegates_, e.thread_)) =
      [(1, none, [], [PendingTask.AddDelegate 12])] ∧
    (ProxyFactory.ReleaseAutomationServer_erase 1 true
      ((factoryOneHolder.ReleaseAutomationServer_wait launchOk 1 11).2.GetAutomationServer 12
        profileA).2).proxies_ = [] := by
  decide

/-! ## `RemoveDelegate`: the pending tasks, and the delegate that is not registered -/

namespace AutomationProxyCacheEntry

/-- The method `CreateProxy` only adds to the calls of an entry. -/
theorem calls_CreateProxy_append (env : LaunchEnv) (params : ChromeFrameLaunchParams)
    (delegate : LaunchDelegate) (e : AutomationProxyCacheEntry) :
    ∃ new, (CreateProxy env params delegate e).calls = e.calls ++ new := by
  unfold CreateProxy
  by_cases hcmd : env.command_line_string.isEmpty = true
  · simp only [hcmd, if_true]
    exact ⟨_, rfl⟩
  · by_cases hl : env.LaunchProcess = true
    · simp only [hcmd, hl, Bool.not_true, Bool.false_eq_true, if_false]
      exact ⟨_, List.append_assoc _ _ _⟩
    · have hl2 : env.LaunchProcess = false := by simpa using hl
      simp only [hcmd, hl2, Bool.not_false, Bool.false_eq_true, if_false, if_true]
      exact ⟨_, List.append_assoc _ _ _⟩

/-- The worker only ever adds to the calls of an entry. -/
theorem calls_RunTasks_append (env : LaunchEnv) (q : List PendingTask) :
    ∀ e : AutomationProxyCacheEntry, ∃ new, (RunTasks env q e).calls = e.calls ++ new := by
  induction q with
  | nil => intro e; exact ⟨[], by simp [RunTasks]⟩
  | cons t q ih =>
    intro e
    cases t with
    | CreateProxy params delegate =>
      obtain ⟨new, hnew⟩ := ih (CreateProxy env params delegate e)
      obtain ⟨n1, hn1⟩ := calls_CreateProxy_append env params delegate e
      refine ⟨n1 ++ new, ?_⟩
      simp only [RunTasks, RunTask, Bool.false_eq_true, if_false]
      rw [hnew, hn1, List.append_assoc]
    | AddDelegate delegate =>
      obtain ⟨new, hnew⟩ := ih (AddDelegate delegate e)
      refine ⟨[Call.LaunchComplete delegate e.proxy_ e.launch_result_] ++ new, ?_⟩
      simp only [RunTasks, RunTask, Bool.false_eq_true, if_false]
      rw [hnew]
      exact List.append_assoc _ _ _
    | OnChannelError =>
      obtain ⟨new, hnew⟩ := ih (OnChannelError e)
      refine ⟨e.launch_delegates_.map Call.AutomationServerDied ++ new, ?_⟩
      simp only [RunTasks, RunTask, Bool.false_eq_true, if_false]
      rw [hnew]
      exact List.append_assoc _ _ _
    | RemoveDelegate delegate done =>
      have hc := calls_RemoveDelegate (RunTasks env q) delegate done e
      by_cases hl : (RemoveDelegate (RunTasks env q) delegate done e).2 = true
      · obtain ⟨new, hnew⟩ := ih e
        refine ⟨new ++ [Call.Signal done true], ?_⟩
        simp only [RunTasks, RunTask, hl, if_true]
        rw [hc]
        simp [hl, hnew]
      · obtain ⟨new, hnew⟩ := ih (RemoveDelegate (RunTasks env q) delegate done e).1
        refine ⟨Call.Signal done false :: new, ?_⟩
        simp only [RunTasks, RunTask, hl, Bool.false_eq_true, if_false]
        rw [hnew, hc]
        simp [hl]

end AutomationProxyCacheEntry

/-- C24: when `RemoveDelegate` removes the only delegate `d` of an entry, the tasks pending
behind it on the worker are run first, on the entry as it stands, with its proxy and with `d`
in the list; only then is the proxy released and `d` erased, and `done` is signalled last. So
when the first pending task is a channel error, `d` is told `AutomationServerDied` before it
leaves. -/
theorem RemoveDelegate_runs_pending_tasks_first (env : LaunchEnv) (q : List PendingTask)
    (d : LaunchDelegate) (done : WaitableEvent) (e : AutomationProxyCacheEntry)
    (hlist : e.launch_delegates_ = [d])
    (hthread : e.thread_ = PendingTask.RemoveDelegate d done :: q) :
    e.RemoveDelegate (AutomationProxyCacheEntry.RunTasks env q) d done =
      (AutomationProxyCacheEntry.mk (e.RunTasks env q).addr (e.RunTasks env q).profile_name
        (e.RunTasks env q).thread_ (e.RunTasks env q).posted none
        (e.RunTasks env q).launch_result_ ((e.RunTasks env q).launch_delegates_.eraseIdx 0)
        ((e.RunTasks env q).calls ++ [Call.Signal done true]), true) ∧
    (e.DoWork env).calls = (e.RunTasks env q).calls ++ [Call.Signal done true] ∧
    (e.DoWork env).proxy_ = none ∧
    (e.DoWork env).thread_ = [] ∧
    (∀ q', q = PendingTask.OnChannelError :: q' →
      ∃ new, (e.DoWork env).calls =
        e.calls ++ Call.AutomationServerDied d :: new ++ [Call.Signal done true]) := by
  have hrem : e.RemoveDelegate (AutomationProxyCacheEntry.RunTasks env q) d done =
      (AutomationProxyCacheEntry.mk (e.RunTasks env q).addr (e.RunTasks env q).profile_name
        (e.RunTasks env q).thread_ (e.RunTasks env q).posted none
        (e.RunTasks env q).launch_result_ ((e.RunTasks env q).launch_delegates_.eraseIdx 0)
        ((e.RunTasks env q).calls ++ [Call.Signal done true]), true) := by
    simp [AutomationProxyCacheEntry.RemoveDelegate, hlist, AutomationProxyCacheEntry.find]
  have hwork : e.DoWork env =
      { (e.RemoveDelegate (AutomationProxyCacheEntry.RunTasks env q) d done).1 with
        thread_ := [] } := by
    simp [AutomationProxyCacheEntry.DoWork, hthread, AutomationProxyCacheEntry.RunTask, hrem]
  refine ⟨hrem, ?_, ?_, ?_, ?_⟩
  · rw [hwork, hrem]
  · rw [hwork, hrem]
  · rw [hwork]
  · intro q' hq'
    obtain ⟨new, hnew⟩ := AutomationProxyCacheEntry.calls_RunTasks_append env q' e.OnChannelError
    refine ⟨new, ?_⟩
    rw [hwork, hrem, hq']
    simp only [AutomationProxyCacheEntry.RunTasks, AutomationProxyCacheEntry.RunTask,
      Bool.false_eq_true, if_false]
    rw [hnew]
    simp [AutomationProxyCacheEntry.OnChannelError, hlist]

/-- Witness of C24: delegate `11` leaves the entry it holds alone while a channel error is
pending behind its `RemoveDelegate`. -/
theorem RemoveDelegate_runs_pending_tasks_first_witness :
    (entryLeavingOnError.DoWork launchOk).calls =
      (entryLeavingOnError.RunTasks launchOk [PendingTask.OnChannelError]).calls ++
        [Call.Signal 1 true] ∧
    (entryLeavingOnError.RunTasks launchOk [PendingTask.OnChannelError]).calls =
      entryLeavingOnError.calls ++ [Call.AutomationServerDied 11] :=
  ⟨(RemoveDelegate_runs_pending_tasks_first launchOk [PendingTask.OnChannelError] 11 1
      entryLeavingOnError (by decide) (by decide)).2.1,
    by decide⟩

/-- C25 fails on the code: the launch of `"profileA"` for delegate `11` finds no command line,
so `CreateProxy` stores `AUTOMATION_LAUNCH_RESULT_INVALID`; delegate `12` then asks for the
profile. When the worker comes to its `AddDelegate(12)`, the stored result is
`AUTOMATION_LAUNCH_RESULT_INVALID`, the condition of the `DCHECK` is false, and delegate `12`
is told `LaunchComplete` with that result. -/
theorem AddDelegate_DCHECK_fails_after_failed_launch :
    factoryLaunchFailed.proxies_.map
        (fun e => (e.thread_, e.launch_result_, e.AddDelegate_DCHECK_launch_result)) =
      [([PendingTask.AddDelegate 12], AUTOMATION_LAUNCH_RESULT_INVALID, false)] ∧
    (factoryLaunchFailed.step (Op.DoWork launchOk 1)).proxies_.map
        (fun e => (e.launch_delegates_, e.calls.getLast?)) =
      [([11, 12],
        some (Call.LaunchComplete 12
          (some { proxy_entry_ := 1, channel_id := "channel", launch_timeout := 1000,
                  perform_version_check := true })
          AUTOMATION_LAUNCH_RESULT_INVALID))] := by
  decide

/-- C26: for every entry state and every delegate `d` that is not in the delegate list,
whatever is pending on the worker, `RemoveDelegate(d)` leaves the entry as it is (the list,
the proxy and the stored result), does not run the pending tasks, leaves `false` in
`*was_last_delegate`, and makes one call, `done->Signal()`. -/
theorem RemoveDelegate_unregistered_delegate
    (R : AutomationProxyCacheEntry → AutomationProxyCacheEntry) (d : LaunchDelegate)
    (done : WaitableEvent) (e : AutomationProxyCacheEntry) (hd : d ∉ e.launch_delegates_) :
    e.RemoveDelegate R d done =
      (AutomationProxyCacheEntry.mk e.addr e.profile_name e.thread_ e.posted e.proxy_
        e.launch_result_ e.launch_delegates_ (e.calls ++ [Call.Signal done false]), false) ∧
    (e.RemoveDelegate R d done).1.calls.countP (Call.isSignalOn done) =
      e.calls.countP (Call.isSignalOn done) + 1 := by
  have hfind := (AutomationProxyCacheEntry.find_eq_none d e.launch_delegates_).2 hd
  have hrem : e.RemoveDelegate R d done =
      (AutomationProxyCacheEntry.mk e.addr e.profile_name e.thread_ e.posted e.proxy_
        e.launch_result_ e.launch_delegates_ (e.calls ++ [Call.Signal done false]), false) := by
    simp [AutomationProxyCacheEntry.RemoveDelegate, hfind]
  refine ⟨hrem, ?_⟩
  rw [hrem]
  simp [List.countP_append, Call.isSignalOn]

/-- Witness of C26: delegate `12` is not registered with the entry that delegate `11` holds. -/
theorem RemoveDelegate_unregistered_delegate_witness :
    (entryLaunched.RemoveDelegate (AutomationProxyCacheEntry.RunTasks launchOk []) 12 1).2 =
      false ∧
    (entryLaunched.RemoveDelegate (AutomationProxyCacheEntry.RunTasks launchOk [])
      12 1).1.launch_delegates_ = [11] ∧
    (entryLaunched.RemoveDelegate (AutomationProxyCacheEntry.RunTasks launchOk [])
      12 1).1.calls = entryLaunched.calls ++ [Call.Signal 1 false] := by
  rw [(RemoveDelegate_unregistered_delegate (AutomationProxyCacheEntry.RunTasks launchOk [])
    12 1 entryLaunched (by decide)).1]
  decide

/-! ## No delegate is registered twice -/

/-- The first element that satisfies `p` splits the list. -/
theorem find?_split {α : Type} (p : α → Bool) (l : List α) (a : α) (h : l.find? p = some a) :
    ∃ l1 l2, l = l1 ++ a :: l2 ∧ (∀ x ∈ l1, p x = false) ∧ p a = true := by
  induction l with
  | nil => simp at h
  | cons x xs ih =>
    by_cases hx : p x = true
    · have hxa : x = a := by simpa [List.find?_cons, hx] using h
      subst hxa
      exact ⟨[], xs, rfl, by simp, hx⟩
    · have hx2 : p x = false := by simpa using hx
      have h2 : xs.find? p = some a := by simpa [List.find?_cons, hx2] using h
      obtain ⟨l1, l2, h3, h4, h5⟩ := ih h2
      refine ⟨x :: l1, l2, by rw [h3]; rfl, ?_, h5⟩
      intro y hy
      cases List.mem_cons.1 hy with
      | inl h6 => rw [h6]; exact hx2
      | inr h6 => exact h4 y h6

/-- No element satisfies `p`: nothing is updated. -/
theorem updateFirst_none {α : Type} (p : α → Bool) (f : α → α) (l : List α)
    (h : l.find? p = none) : updateFirst p f l = l := by
  induction l with
  | nil => rfl
  | cons x xs ih =>
    by_cases hx : p x = true
    · simp [List.find?_cons, hx] at h
    · have hx2 : p x = false := by simpa using hx
      have h2 : xs.find? p = none := by simpa [List.find?_cons, hx2] using h
      simp [updateFirst, hx2, ih h2]

namespace AutomationProxyCacheEntry

/-- The method `CreateProxy` registers its delegate at the end of the list. -/
theorem launch_delegates_CreateProxy (env : LaunchEnv) (params : ChromeFrameLaunchParams)
    (delegate : LaunchDelegate) (e : AutomationProxyCacheEntry) :
    (CreateProxy env params delegate e).launch_delegates_ = e.launch_delegates_ ++ [delegate] := by
  unfold CreateProxy
  by_cases hcmd : env.command_line_string.isEmpty = true
  · simp only [hcmd, if_true]
  · by_cases hl : env.LaunchProcess = true
    · simp only [hcmd, hl, Bool.not_true, Bool.false_eq_true, if_false]
    · have hl2 : env.LaunchProcess = false := by simpa using hl
      simp only [hcmd, hl2, Bool.not_false, Bool.false_eq_true, if_false, if_true]

/-- A run of tasks none of which is `RemoveDelegate` registers their delegates, in order. -/
theorem launch_delegates_RunTasks (env : LaunchEnv) (q : List PendingTask)
    (hq : ∀ t ∈ q, t.isRemoveDelegate = false) :
    ∀ e : AutomationProxyCacheEntry, (RunTasks env q e).launch_delegates_ =
      e.launch_delegates_ ++ q.filterMap PendingTask.registrant := by
  induction q with
  | nil => intro e; simp [RunTasks]
  | cons t q ih =>
    intro e
    have ih2 := ih (fun x hx => hq x (List.mem_cons_of_mem t hx))
    cases t with
    | CreateProxy params delegate =>
      simp only [RunTasks, RunTask, Bool.false_eq_true, if_false]
      rw [ih2, launch_delegates_CreateProxy]
      simp [PendingTask.registrant]
    | AddDelegate delegate =>
      simp only [RunTasks, RunTask, Bool.false_eq_true, if_false]
      rw [ih2]
      simp [PendingTask.registrant, AddDelegate]
    | OnChannelError =>
      simp only [RunTasks, RunTask, Bool.false_eq_true, if_false]
      rw [ih2]
      simp [PendingTask.registrant, OnChannelError]
    | RemoveDelegate delegate done =>
      have := hq (PendingTask.RemoveDelegate delegate done) (List.mem_cons_self _ _)
      simp [PendingTask.isRemoveDelegate] at this

/-- One turn of the worker on a queue without `RemoveDelegate` keeps the delegates that are
registered or about to be. -/
theorem registrants_DoWork (env : LaunchEnv) (e : AutomationProxyCacheEntry)
    (hq : ∀ t ∈ e.thread_, t.isRemoveDelegate = false) :
    (DoWork env e).registrants = e.registrants ∧
    (∀ t ∈ (DoWork env e).thread_, t.isRemoveDelegate = false) := by
  unfold DoWork
  cases hthread : e.thread_ with
  | nil =>
    refine ⟨rfl, ?_⟩
    intro t ht
    exact hq t ht
  | cons t q =>
    have hq2 : ∀ x ∈ q, x.isRemoveDelegate = false := by
      intro x hx
      exact hq x (by rw [hthread]; exact List.mem_cons_of_mem t hx)
    cases t with
    | CreateProxy params delegate =>
      simp only [RunTask, Bool.false_eq_true, if_false, registrants, hthread]
      refine ⟨?_, hq2⟩
      rw [launch_delegates_CreateProxy]
      simp [PendingTask.registrant]
    | AddDelegate delegate =>
      simp only [RunTask, Bool.false_eq_true, if_false, registrants, hthread]
      refine ⟨?_, hq2⟩
      simp [PendingTask.registrant, AddDelegate]
    | OnChannelError =>
      simp only [RunTask, Bool.false_eq_true, if_false, registrants, hthread]
      refine ⟨?_, hq2⟩
      simp [PendingTask.registrant, OnChannelError]
    | RemoveDelegate delegate done =>
      have := hq (PendingTask.RemoveDelegate delegate done)
        (by rw [hthread]; exact List.mem_cons_self _ _)
      simp [PendingTask.isRemoveDelegate] at this

/-- The worker's side of a release on a queue without `RemoveDelegate`: every pending delegate
is registered, then the first occurrence of the departing one is erased. -/
theorem registrants_WaitRemoveDelegate (env : LaunchEnv) (d : LaunchDelegate)
    (done : WaitableEvent) (e : AutomationProxyCacheEntry)
    (hq : ∀ t ∈ e.thread_, t.isRemoveDelegate = false) :
    (WaitRemoveDelegate env d done e).1.registrants = e.registrants.erase d ∧
    (WaitRemoveDelegate env d done e).1.thread_ = [] := by
  have hl := launch_delegates_RunTasks env e.thread_ hq e
  refine ⟨?_, rfl⟩
  unfold WaitRemoveDelegate RemoveDelegate
  cases hfind : find d (RunTasks env e.thread_ e).launch_delegates_ with
  | none =>
    have hd := (find_eq_none d _).1 hfind
    simp only [registrants, List.filterMap_nil, List.append_nil]
    rw [hl] at hd ⊢
    exact (List.erase_of_not_mem hd).symm
  | some it =>
    have he := eraseIdx_find d _ it hfind
    by_cases hlen : (RunTasks env e.thread_ e).launch_delegates_.length = 1
    · simp only [hlen, if_true, registrants, List.filterMap_nil, List.append_nil, RunTasks]
      rw [he, hl]
    · simp only [hlen, if_false, registrants, List.filterMap_nil, List.append_nil]
      rw [he, hl]

end AutomationProxyCacheEntry

/-- An element of an updated list is an element of the list or the image of one that
satisfies `p`. -/
theorem mem_updateFirst {α : Type} (p : α → Bool) (f : α → α) (l : List α) (x : α)
    (h : x ∈ updateFirst p f l) : x ∈ l ∨ ∃ y ∈ l, p y = true ∧ x = f y := by
  induction l with
  | nil => simp [updateFirst] at h
  | cons a as ih =>
    by_cases ha : p a = true
    · simp only [updateFirst, ha, if_true, List.mem_cons] at h
      cases h with
      | inl h1 => exact Or.inr ⟨a, List.mem_cons_self _ _, ha, h1⟩
      | inr h1 => exact Or.inl (List.mem_cons_of_mem _ h1)
    · have ha2 : p a = false := by simpa using ha
      simp only [updateFirst, ha2, Bool.false_eq_true, if_false, List.mem_cons] at h
      cases h with
      | inl h1 => exact Or.inl (h1 ▸ List.mem_cons_self _ _)
      | inr h1 =>
        cases ih h1 with
        | inl h2 => exact Or.inl (List.mem_cons_of_mem _ h2)
        | inr h2 =>
          obtain ⟨y, hy, hpy, hxy⟩ := h2
          exact Or.inr ⟨y, List.mem_cons_of_mem _ hy, hpy, hxy⟩

namespace AutomationProxyCacheEntry

/-- More acquisitions keep an entry accounted for. -/
theorem accounted_mono (held held2 : List (LaunchDelegate × String))
    (e : AutomationProxyCacheEntry) (hsub : ∀ a ∈ held, a ∈ held2) (h : e.accounted held) :
    e.accounted held2 :=
  ⟨h.1, h.2.1, fun d hd h0 => hsub _ (h.2.2 d hd h0)⟩

/-- An entry with the same queue, delegates and name is accounted for alike. -/
theorem accounted_congr (held : List (LaunchDelegate × String))
    (e e2 : AutomationProxyCacheEntry) (h : e.accounted held)
    (hfree : ∀ t ∈ e2.thread_, t.isRemoveDelegate = false)
    (hreg : e2.registrants = e.registrants) (hname : e2.profile_name = e.profile_name) :
    e2.accounted held := by
  refine ⟨hfree, by rw [hreg]; exact h.2.1, ?_⟩
  intro d hd h0
  rw [hname]
  exact h.2.2 d (by rw [← hreg]; exact hd) h0

/-- Posting a task that is no `RemoveDelegate` appends the delegate it registers. -/
theorem registrants_PostTask (t : PendingTask) (e : AutomationProxyCacheEntry) :
    (PostTask t e).registrants = e.registrants ++ (t.registrant).toList := by
  cases t <;> simp [PostTask, registrants, PendingTask.registrant, List.filterMap_append]

end AutomationProxyCacheEntry

namespace ProxyFactory

/-- The call `GetAutomationServer` of a delegate that does not hold the profile keeps every
entry accounted for. -/
theorem accounted_GetAutomationServer (s : ProxyFactory)
    (held : List (LaunchDelegate × String)) (delegate : LaunchDelegate)
    (params : ChromeFrameLaunchParams)
    (hinv : ∀ e ∈ s.proxies_, e.accounted held)
    (hnot : (delegate, params.profile_name) ∉ held) :
    ∀ e ∈ (s.GetAutomationServer delegate params).2.proxies_,
      e.accounted ((delegate, params.profile_name) :: held) := by
  have hsub : ∀ a ∈ held, a ∈ (delegate, params.profile_name) :: held :=
    fun a ha => List.mem_cons_of_mem _ ha
  intro e he
  cases hfind : s.proxies_.find? (fun p => p.IsSameProfile params.profile_name) with
  | none =>
    rw [GetAutomationServer_miss delegate params s hfind] at he
    simp only [List.mem_append, List.mem_singleton] at he
    cases he with
    | inl h1 => exact AutomationProxyCacheEntry.accounted_mono _ _ e hsub (hinv e h1)
    | inr h1 =>
      subst h1
      refine ⟨?_, ?_, ?_⟩
      · simp [AutomationProxyCacheEntry.ctor, AutomationProxyCacheEntry.PostTask,
          PendingTask.isRemoveDelegate]
      · simp [AutomationProxyCacheEntry.registrants, AutomationProxyCacheEntry.ctor,
          AutomationProxyCacheEntry.PostTask, PendingTask.registrant]
      · intro d hd _
        have hdd : d = delegate := by
          simpa [AutomationProxyCacheEntry.registrants, AutomationProxyCacheEntry.ctor,
            AutomationProxyCacheEntry.PostTask, PendingTask.registrant] using hd
        subst hdd
        simp [AutomationProxyCacheEntry.ctor, AutomationProxyCacheEntry.PostTask]
  | some entry =>
    rw [GetAutomationServer_hit delegate params s entry hfind] at he
    simp only at he
    cases mem_updateFirst _ _ _ _ he with
    | inl h1 => exact AutomationProxyCacheEntry.accounted_mono _ _ e hsub (hinv e h1)
    | inr h1 =>
      obtain ⟨y, hy, hpy, hey⟩ := h1
      have hname : y.profile_name = params.profile_name := by
        simpa [AutomationProxyCacheEntry.IsSameProfile] using hpy
      have hacc := hinv y hy
      by_cases hd : delegate = NULL
      · rw [if_neg (fun hn => hn hd)] at hey
        rw [hey]
        exact AutomationProxyCacheEntry.accounted_mono _ _ y hsub hacc
      · rw [if_pos hd] at hey
        rw [hey]
        have hnotin : delegate ∉ y.registrants :=
          fun hm => hnot (hname ▸ hacc.2.2 delegate hm hd)
        refine ⟨?_, ?_, ?_⟩
        · intro t ht
          simp only [AutomationProxyCacheEntry.PostTask, List.mem_append,
            List.mem_singleton] at ht
          cases ht with
          | inl h2 => exact hacc.1 t h2
          | inr h2 => rw [h2]; rfl
        · rw [AutomationProxyCacheEntry.registrants_PostTask]
          simp [PendingTask.registrant, List.nodup_append, hacc.2.1, hnotin]
        · intro d hdm h0
          rw [AutomationProxyCacheEntry.registrants_PostTask] at hdm
          simp only [PendingTask.registrant, Option.toList, List.mem_append,
            List.mem_singleton] at hdm
          have hpn : (AutomationProxyCacheEntry.PostTask (PendingTask.AddDelegate delegate)
              y).profile_name = y.profile_name := rfl
          rw [hpn]
          cases hdm with
          | inl h2 => exact List.mem_cons_of_mem _ (hacc.2.2 d h2 h0)
          | inr h2 => rw [h2, hname]; exact List.mem_cons_self _ _

end ProxyFactory

namespace ProxyFactory

/-- The call `ReleaseAutomationServer` keeps every entry accounted for, the acquisition it ends
being taken off. -/
theorem accounted_ReleaseAutomationServer (s : ProxyFactory)
    (held : List (LaunchDelegate × String)) (env : LaunchEnv) (server_id : Nat)
    (delegate : LaunchDelegate)
    (hnames : (s.proxies_.map (·.profile_name)).Nodup)
    (hinv : ∀ e ∈ s.proxies_, e.accounted held) :
    ∀ e ∈ (s.ReleaseAutomationServer env server_id delegate).2.proxies_,
      e.accounted (s.acquired held (Op.ReleaseAutomationServer env server_id delegate)) := by
  intro e he
  by_cases h0 : server_id = NULL
  · simp only [ReleaseAutomationServer, h0, if_true] at he
    simp only [acquired, h0, if_true]
    exact hinv e he
  · cases hfind : s.proxies_.find? (fun p => p.addr == server_id) with
    | none =>
      simp only [ReleaseAutomationServer, h0, if_false, hfind] at he
      simp only [acquired, h0, if_false, hfind]
      exact hinv e he
    | some entry =>
      obtain ⟨l1, l2, hl, hl1, hpe⟩ := find?_split _ _ _ hfind
      rw [ReleaseAutomationServer_hit env server_id delegate s entry h0 hfind, hl,
        updateFirst_first _ _ l1 l2 entry hl1 hpe] at he
      simp only [acquired, h0, if_false, hfind]
      have hmem : e ∈ l1 ++ (PostRemoveDelegate env delegate entry).1 :: l2 := by
        by_cases hlast : (PostRemoveDelegate env delegate entry).2 = true
        · simp only [hlast, if_true] at he
          exact List.mem_of_mem_eraseP he
        · simp only [hlast, Bool.false_eq_true, if_false] at he
          exact he
      rw [hl, List.map_append, List.map_cons] at hnames
      have hn1 : ∀ x ∈ l1, x.profile_name ≠ entry.profile_name := by
        intro x hx hxe
        have hd := (List.nodup_append.1 hnames).2.2
        exact hd (List.mem_map_of_mem _ hx) (by rw [hxe]; exact List.mem_cons_self _ _)
      have hn2 : ∀ x ∈ l2, x.profile_name ≠ entry.profile_name := by
        intro x hx hxe
        have hd := (List.nodup_cons.1 (List.nodup_append.1 hnames).2.1).1
        exact hd (by rw [← hxe]; exact List.mem_map_of_mem _ hx)
      have hother : ∀ x ∈ s.proxies_, x.profile_name ≠ entry.profile_name →
          x.accounted (held.filter (fun a => a != (delegate, entry.profile_name))) := by
        intro x hx hne
        have hacc := hinv x hx
        refine ⟨hacc.1, hacc.2.1, ?_⟩
        intro d hd hd0
        refine List.mem_filter.2 ⟨hacc.2.2 d hd hd0, ?_⟩
        simp only [bne_iff_ne, ne_eq, Prod.mk.injEq, not_and]
        exact fun _ => hne
      have hentry : entry ∈ s.proxies_ := by rw [hl]; simp
      have hacc := hinv entry hentry
      simp only [List.mem_append, List.mem_cons] at hmem
      rcases hmem with h1 | h1 | h1
      · exact hother e (by rw [hl]; simp [h1]) (hn1 e h1)
      · rw [h1]
        by_cases hd : delegate = NULL
        · have hpost : (PostRemoveDelegate env delegate entry).1 = entry := by
            simp [PostRemoveDelegate, hd]
          rw [hpost]
          refine ⟨hacc.1, hacc.2.1, ?_⟩
          intro d hdm hd0
          refine List.mem_filter.2 ⟨hacc.2.2 d hdm hd0, ?_⟩
          simp only [bne_iff_ne, ne_eq, Prod.mk.injEq, not_and]
          intro hdd
          exact absurd (hdd.trans hd) hd0
        · have hpost : (PostRemoveDelegate env delegate entry).1 =
              (entry.WaitRemoveDelegate env delegate done).1 := by
            simp [PostRemoveDelegate, hd]
          rw [hpost]
          obtain ⟨hreg, hthread⟩ :=
            AutomationProxyCacheEntry.registrants_WaitRemoveDelegate env delegate done entry
              hacc.1
          have hname := (AutomationProxyCacheEntry.WaitRemoveDelegate_keeps env delegate done
            entry).2.1
          refine ⟨by rw [hthread]; simp, by rw [hreg]; exact hacc.2.1.erase _, ?_⟩
          intro d hdm hd0
          rw [hreg] at hdm
          rw [hname]
          have hdm2 := (List.Nodup.mem_erase_iff hacc.2.1).1 hdm
          refine List.mem_filter.2 ⟨hacc.2.2 d hdm2.2 hd0, ?_⟩
          simp only [bne_iff_ne, ne_eq, Prod.mk.injEq, not_and]
          intro hdd
          exact absurd hdd hdm2.1
      · exact hother e (by rw [hl]; simp [h1]) (hn2 e h1)

end ProxyFactory

namespace ProxyFactory

/-- Every step of a client that keeps the discipline, and every step of a worker or of a
channel, keeps every entry accounted for. -/
theorem accounted_step (s : ProxyFactory) (held : List (LaunchDelegate × String)) (op : Op)
    (hnames : (s.proxies_.map (·.profile_name)).Nodup)
    (hinv : ∀ e ∈ s.proxies_, e.accounted held) (hop : op.reacquires held = false) :
    ∀ e ∈ (s.step op).proxies_, e.accounted (s.acquired held op) := by
  cases op with
  | GetAutomationServer delegate params =>
    exact accounted_GetAutomationServer s held delegate params hinv
      (by simpa [Op.reacquires] using hop)
  | ReleaseAutomationServer env server_id delegate =>
    exact accounted_ReleaseAutomationServer s held env server_id delegate hnames hinv
  | DoWork env server_id =>
    intro e he
    simp only [step] at he
    simp only [acquired]
    cases mem_updateFirst _ _ _ _ he with
    | inl h1 => exact hinv e h1
    | inr h1 =>
      obtain ⟨y, hy, _, hey⟩ := h1
      have hacc := hinv y hy
      obtain ⟨hreg, hfree⟩ := AutomationProxyCacheEntry.registrants_DoWork env y hacc.1
      rw [hey]
      exact AutomationProxyCacheEntry.accounted_congr held y _ hacc hfree hreg
        (AutomationProxyCacheEntry.DoWork_keeps env y).2.1
  | ChannelError server_id =>
    intro e he
    simp only [step] at he
    simp only [acquired]
    cases mem_updateFirst _ _ _ _ he with
    | inl h1 => exact hinv e h1
    | inr h1 =>
      obtain ⟨y, hy, _, hey⟩ := h1
      have hacc := hinv y hy
      rw [hey]
      refine AutomationProxyCacheEntry.accounted_congr held y _ hacc ?_ ?_ rfl
      · intro t ht
        simp only [AutomationProxyCacheEntry.PostTask, List.mem_append,
          List.mem_singleton] at ht
        cases ht with
        | inl h2 => exact hacc.1 t h2
        | inr h2 => rw [h2]; rfl
      · rw [AutomationProxyCacheEntry.registrants_PostTask]
        simp [PendingTask.registrant]

/-- Along a run that keeps the discipline every entry stays accounted for. -/
theorem accounted_run (ops : List Op) :
    ∀ (s : ProxyFactory) (held : List (LaunchDelegate × String)),
      (s.proxies_.map (·.profile_name)).Nodup → (∀ e ∈ s.proxies_, e.accounted held) →
      s.disciplined held ops = true →
      ∀ e ∈ (s.run ops).proxies_, ∃ held2, e.accounted held2 := by
  induction ops with
  | nil =>
    intro s held _ hinv _ e he
    exact ⟨held, hinv e he⟩
  | cons op ops ih =>
    intro s held hnames hinv hdisc e he
    simp only [disciplined, Bool.and_eq_true, Bool.not_eq_true'] at hdisc
    rw [run_cons] at he
    exact ih (s.step op) (s.acquired held op) (names_nodup_run [op] s hnames)
      (accounted_step s held op hnames hinv hdisc.1) hdisc.2 e he

end ProxyFactory

/-- C27: along every run of the factory in which no delegate calls `GetAutomationServer` for a
profile again before it has released its previous acquisition of that profile, the delegate
list of every entry holds no delegate twice; and whenever the worker comes to a pending
`AddDelegate(d)`, having run the tasks ahead of it, the condition of the `DCHECK`
"Same delegate being added twice" holds: `d` is not in the list. -/
theorem launch_delegates_never_twice (ops : List Op)
    (hdisc : ProxyFactory.ctor.disciplined [] ops = true) :
    ∀ e ∈ (ProxyFactory.ctor.run ops).proxies_,
      e.launch_delegates_.Nodup ∧
      ∀ (env : LaunchEnv) (pre post : List PendingTask) (d : LaunchDelegate),
        e.thread_ = pre ++ PendingTask.AddDelegate d :: post →
        (e.RunTasks env pre).AddDelegate_DCHECK_find d = true := by
  intro e he
  obtain ⟨held2, hfree, hnodup, _⟩ := ProxyFactory.accounted_run ops ProxyFactory.ctor []
    (by simp [ProxyFactory.ctor]) (by simp [ProxyFactory.ctor]) hdisc e he
  refine ⟨(List.nodup_append.1 hnodup).1, ?_⟩
  intro env pre post d hthread
  have hpre : ∀ t ∈ pre, t.isRemoveDelegate = false := by
    intro t ht
    exact hfree t (by rw [hthread]; simp [ht])
  have hl := AutomationProxyCacheEntry.launch_delegates_RunTasks env pre hpre e
  simp only [AutomationProxyCacheEntry.registrants, hthread, List.filterMap_append,
    List.filterMap_cons, PendingTask.registrant] at hnodup
  rw [← List.append_assoc, ← hl] at hnodup
  have hd : d ∉ (e.RunTasks env pre).launch_delegates_ := by
    intro hm
    exact (List.nodup_append.1 hnodup).2.2 hm (List.mem_cons_self _ _)
  simp [AutomationProxyCacheEntry.AddDelegate_DCHECK_find,
    (AutomationProxyCacheEntry.find_eq_none d _).2 hd]

/-- Witness of C27: delegates `11` and `12` take `"profileA"`, `11` releases it and takes it
again, and `12` releases it. -/
theorem launch_delegates_never_twice_witness :
    (ProxyFactory.ctor.run
      [Op.GetAutomationServer 11 profileA, Op.GetAutomationServer 12 profileA,
       Op.DoWork launchOk 1, Op.ReleaseAutomationServer launchOk 1 11,
       Op.GetAutomationServer 11 profileA, Op.DoWork launchOk 1,
       Op.ReleaseAutomationServer launchOk 1 12]).proxies_.map (fun e => e.launch_delegates_) =
      [[11]] ∧
    ∀ e ∈ (ProxyFactory.ctor.run
      [Op.GetAutomationServer 11 profileA, Op.GetAutomationServer 12 profileA,
       Op.DoWork launchOk 1, Op.ReleaseAutomationServer launchOk 1 11,
       Op.GetAutomationServer 11 profileA, Op.DoWork launchOk 1,
       Op.ReleaseAutomationServer launchOk 1 12]).proxies_, e.launch_delegates_.Nodup :=
  ⟨by decide, fun e he => (launch_delegates_never_twice _ (by decide) e he).1⟩

/-! ## `ChromeFrameAutomationClient`: release and uninitialization -/

/-- C28: `ChromeFrameAutomationClient::ReleaseAutomationServer` is idempotent. When a server id
is held, the client clears `automation_server_id_`, calls `CancelAsync(this)` on its proxy if
it has one, then calls `ReleaseAutomationServer` of the factory, once, with the id it held and
itself, and ends with `automation_server_` and `automation_server_id_` null, nothing else
being changed. When no id is held nothing changes, so that a second call changes nothing and
makes no call. -/
theorem client_ReleaseAutomationServer_idempotent (c : ChromeFrameAutomationClient) :
    (c.automation_server_id_ ≠ NULL →
      c.ReleaseAutomationServer =
        { c with
          automation_server_id_ := NULL
          automation_server_ := NULL
          calls := c.calls ++
            ((if c.automation_server_ ≠ NULL then [ClientCall.CancelAsync c.addr] else []) ++
              [ClientCall.ReleaseAutomationServer c.automation_server_id_ c.addr]) }) ∧
    (c.automation_server_id_ = NULL → c.ReleaseAutomationServer = c) ∧
    c.ReleaseAutomationServer.automation_server_id_ = NULL ∧
    c.ReleaseAutomationServer.ReleaseAutomationServer = c.ReleaseAutomationServer ∧
    c.ReleaseAutomationServer.ReleaseAutomationServer.calls.countP ClientCall.isFactoryCall =
      c.calls.countP ClientCall.isFactoryCall +
        (if c.automation_server_id_ ≠ NULL then 1 else 0) := by
  have hheld : c.automation_server_id_ ≠ NULL →
      c.ReleaseAutomationServer =
        { c with
          automation_server_id_ := NULL
          automation_server_ := NULL
          calls := c.calls ++
            ((if c.automation_server_ ≠ NULL then [ClientCall.CancelAsync c.addr] else []) ++
              [ClientCall.ReleaseAutomationServer c.automation_server_id_ c.addr]) } := by
    intro hid
    unfold ChromeFrameAutomationClient.ReleaseAutomationServer
    rw [if_pos hid]
    by_cases hs : c.automation_server_ = NULL
    · simp [hs]
    · simp [hs]
  have hfree : ∀ x : ChromeFrameAutomationClient, x.automation_server_id_ = NULL →
      x.ReleaseAutomationServer = x := by
    intro x hx
    unfold ChromeFrameAutomationClient.ReleaseAutomationServer
    rw [if_neg (fun hn => hn hx)]
  have hnull : c.ReleaseAutomationServer.automation_server_id_ = NULL := by
    by_cases hid : c.automation_server_id_ = NULL
    · rw [hfree c hid]; exact hid
    · rw [hheld hid]
  refine ⟨hheld, hfree c, hnull, hfree _ hnull, ?_⟩
  rw [hfree _ hnull]
  by_cases hid : c.automation_server_id_ = NULL
  · rw [hfree c hid]
    simp [hid]
  · rw [hheld hid]
    by_cases hs : c.automation_server_ = NULL
    · simp [hid, hs, List.countP_append, ClientCall.isFactoryCall]
    · simp [hid, hs, List.countP_append, List.countP_cons, ClientCall.isFactoryCall]

/-- Witness of C28: the client that holds the server id `1` and the proxy `50` releases. -/
theorem client_ReleaseAutomationServer_idempotent_witness :
    clientInitialized.ReleaseAutomationServer.calls =
      [ClientCall.CancelAsync 21, ClientCall.ReleaseAutomationServer 1 21] ∧
    clientInitialized.ReleaseAutomationServer.ReleaseAutomationServer =
      clientInitialized.ReleaseAutomationServer :=
  ⟨by decide, (client_ReleaseAutomationServer_idempotent clientInitialized).2.2.2.1⟩

namespace ChromeFrameAutomationClient

/-- What `Uninitialize` does to the members of a client, in every state. -/
theorem Uninitialize_effect (c : ChromeFrameAutomationClient) :
    (c.init_state_ = InitializationState.UNINITIALIZED → c.Uninitialize = c) ∧
    (c.init_state_ ≠ InitializationState.UNINITIALIZED →
      c.Uninitialize.init_state_ = InitializationState.UNINITIALIZED ∧
      c.Uninitialize.chrome_frame_delegate_ = NULL ∧
      c.Uninitialize.tab_ = none ∧
      c.Uninitialize.automation_server_id_ = NULL ∧
      c.Uninitialize.automation_server_ =
        (if c.automation_server_id_ ≠ NULL then NULL else c.automation_server_)) ∧
    c.Uninitialize.Uninitialize = c.Uninitialize := by
  have hdone : ∀ x : ChromeFrameAutomationClient,
      x.init_state_ = InitializationState.UNINITIALIZED → x.Uninitialize = x := by
    intro x hx
    unfold ChromeFrameAutomationClient.Uninitialize
    rw [if_pos hx]
  have hstate : c.init_state_ ≠ InitializationState.UNINITIALIZED →
      c.Uninitialize.init_state_ = InitializationState.UNINITIALIZED := by
    intro hc
    unfold ChromeFrameAutomationClient.Uninitialize
    rw [if_neg hc]
  refine ⟨hdone c, ?_, ?_⟩
  · intro hc
    refine ⟨hstate hc, ?_, ?_, ?_, ?_⟩
    · unfold ChromeFrameAutomationClient.Uninitialize
      rw [if_neg hc]
    · unfold ChromeFrameAutomationClient.Uninitialize
      rw [if_neg hc]
      cases htab : c.tab_ <;> by_cases hid : c.automation_server_id_ = NULL <;>
        by_cases hs : c.automation_server_ = NULL <;> by_cases hu : c.url_fetcher_ = NULL <;>
        by_cases hw : c.m_hWnd = true <;>
        simp [htab, hid, hs, hu, hw, ChromeFrameAutomationClient.ReleaseAutomationServer,
          ChromeFrameAutomationClient.DestroyWindow]
    · unfold ChromeFrameAutomationClient.Uninitialize
      rw [if_neg hc]
      cases htab : c.tab_ <;> by_cases hid : c.automation_server_id_ = NULL <;>
        by_cases hs : c.automation_server_ = NULL <;> by_cases hu : c.url_fetcher_ = NULL <;>
        by_cases hw : c.m_hWnd = true <;>
        simp [htab, hid, hs, hu, hw, ChromeFrameAutomationClient.ReleaseAutomationServer,
          ChromeFrameAutomationClient.DestroyWindow]
    · unfold ChromeFrameAutomationClient.Uninitialize
      rw [if_neg hc]
      cases htab : c.tab_ <;> by_cases hid : c.automation_server_id_ = NULL <;>
        by_cases hs : c.automation_server_ = NULL <;> by_cases hu : c.url_fetcher_ = NULL <;>
        by_cases hw : c.m_hWnd = true <;>
        simp [htab, hid, hs, hu, hw, ChromeFrameAutomationClient.ReleaseAutomationServer,
          ChromeFrameAutomationClient.DestroyWindow]
  · by_cases hc : c.init_state_ = InitializationState.UNINITIALIZED
    · rw [hdone c hc, hdone c hc]
    · exact hdone _ (hstate hc)

/-- The assertion of `ReleaseAutomationServer` holds of a client as constructed, and
`ReleaseAutomationServer` and `Uninitialize`, the two methods of the file that write
`automation_server_`, keep it. -/
theorem ReleaseAutomationServer_DCHECK_kept :
    (∀ addr, (ctor addr).ReleaseAutomationServer_DCHECK = true) ∧
    ∀ c : ChromeFrameAutomationClient, c.ReleaseAutomationServer_DCHECK = true →
      c.ReleaseAutomationServer.ReleaseAutomationServer_DCHECK = true ∧
      c.Uninitialize.ReleaseAutomationServer_DCHECK = true := by
  refine ⟨fun addr => by simp [ctor, ReleaseAutomationServer_DCHECK], ?_⟩
  intro c hc
  constructor
  · by_cases hid : c.automation_server_id_ = NULL
    · have hsame : c.ReleaseAutomationServer = c := by
        unfold ChromeFrameAutomationClient.ReleaseAutomationServer
        rw [if_neg (fun hn => hn hid)]
      rw [hsame]
      exact hc
    · unfold ChromeFrameAutomationClient.ReleaseAutomationServer
      rw [if_pos hid]
      simp [ReleaseAutomationServer_DCHECK]
  · by_cases hu : c.init_state_ = InitializationState.UNINITIALIZED
    · rw [(Uninitialize_effect c).1 hu]
      exact hc
    · obtain ⟨_, _, _, _, hproxy⟩ := (Uninitialize_effect c).2.1 hu
      by_cases hid : c.automation_server_id_ = NULL
      · have hs : c.automation_server_ = NULL := by
          simpa [ReleaseAutomationServer_DCHECK, hid] using hc
        simp [ReleaseAutomationServer_DCHECK, hproxy, hid, hs]
      · simp [ReleaseAutomationServer_DCHECK, hproxy, hid]

end ChromeFrameAutomationClient

/-- Outside the assertion of `ReleaseAutomationServer`: in the state with the proxy `50` and no
server id, which the assertion rules out, `Uninitialize` leaves `automation_server_` as it is,
the proxy being cleared only on the branch with a server id. -/
theorem Uninitialize_keeps_proxy_without_id :
    clientProxyWithoutId.ReleaseAutomationServer_DCHECK = false ∧
    clientProxyWithoutId.init_state_ ≠ InitializationState.UNINITIALIZED ∧
    clientProxyWithoutId.Uninitialize.init_state_ = InitializationState.UNINITIALIZED ∧
    clientProxyWithoutId.Uninitialize.automation_server_ = 50 := by
  decide

/-- C29: `Uninitialize` changes nothing and makes no call when the state of the client is
`UNINITIALIZED`. From every other state it ends with `init_state_ = UNINITIALIZED`, a null
delegate, a null tab, a null server id and, the state being one in which the assertion of
`ReleaseAutomationServer` holds (a proxy is held only together with a server id, as in every
state the methods of the file produce), a null proxy; so calling it twice has the same effect
as calling it once. -/
theorem Uninitialize_resets_the_client (c : ChromeFrameAutomationClient) :
    (c.init_state_ = InitializationState.UNINITIALIZED → c.Uninitialize = c) ∧
    (c.init_state_ ≠ InitializationState.UNINITIALIZED →
      c.Uninitialize.init_state_ = InitializationState.UNINITIALIZED ∧
      c.Uninitialize.chrome_frame_delegate_ = NULL ∧
      c.Uninitialize.tab_ = none ∧
      c.Uninitialize.automation_server_id_ = NULL ∧
      (c.ReleaseAutomationServer_DCHECK = true → c.Uninitialize.automation_server_ = NULL)) ∧
    c.Uninitialize.Uninitialize = c.Uninitialize := by
  obtain ⟨h1, h2, h3⟩ := ChromeFrameAutomationClient.Uninitialize_effect c
  refine ⟨h1, ?_, h3⟩
  intro hc
  obtain ⟨k1, k2, k3, k4, k5⟩ := h2 hc
  refine ⟨k1, k2, k3, k4, ?_⟩
  intro hassert
  rw [k5]
  by_cases hid : c.automation_server_id_ = NULL
  · have hs : c.automation_server_ = NULL := by
      simpa [ChromeFrameAutomationClient.ReleaseAutomationServer_DCHECK, hid] using hassert
    simp [hid, hs]
  · simp [hid]

/-- Witness of C29: the initialized client, which holds a proxy and a server id, is
uninitialized. -/
theorem Uninitialize_resets_the_client_witness :
    clientInitialized.Uninitialize.calls =
      [ClientCall.RemoveObserver 70 21, ClientCall.ReleaseTabProxy 5, ClientCall.CancelAsync 21,
       ClientCall.ReleaseAutomationServer 1 21, ClientCall.DestroyWindow] ∧
    clientInitialized.Uninitialize.automation_server_ = NULL ∧
    clientInitialized.Uninitialize.Uninitialize = clientInitialized.Uninitialize :=
  ⟨by decide,
    ((Uninitialize_resets_the_client clientInitialized).2.1 (by decide)).2.2.2.2 (by decide),
    (Uninitialize_resets_the_client clientInitialized).2.2⟩

/-! ## `NSSProfileFilterChromeOS` -/

namespace NSSProfileFilterChromeOS

/-- The loop of `IsCertAllowed` answers `true` exactly when a slot of the list is allowed. -/
theorem IsCertAllowedFrom_iff (nss : NSS) (filter : NSSProfileFilterChromeOS)
    (slots : List PK11SlotInfo) :
    IsCertAllowedFrom nss filter slots = true ↔
      ∃ slot ∈ slots, IsModuleAllowed nss filter slot = true := by
  induction slots with
  | nil => simp [IsCertAllowedFrom]
  | cons slot rest ih =>
    by_cases h : IsModuleAllowed nss filter slot = true
    · simp [IsCertAllowedFrom, h]
    · simp [IsCertAllowedFrom, h, ih]

end NSSProfileFilterChromeOS

/-- C30: for every certificate, `IsCertAllowed` returns `true` if and only if the certificate
has no slot list or a slot of its list satisfies `IsModuleAllowed`; and `IsModuleAllowed(slot)`
holds exactly when the slot is the public or the private slot of the profile, or is the
internal key slot, or belongs to a module that is neither the module of the public slot nor
that of the private slot. -/
theorem IsCertAllowed_iff_some_slot_allowed (nss : NSS) (filter : NSSProfileFilterChromeOS)
    (cert : X509Certificate) :
    (filter.IsCertAllowed nss cert = true ↔
      (nss.PK11_GetAllSlotsForCert cert = none ∨
        ∃ slots, nss.PK11_GetAllSlotsForCert cert = some slots ∧
          ∃ slot ∈ slots, filter.IsModuleAllowed nss slot = true)) ∧
    ∀ slot, (filter.IsModuleAllowed nss slot = true ↔
      ((slot = filter.public_slot_ ∨ slot = filter.private_slot_) ∨
        nss.PK11_IsInternalKeySlot slot = true ∨
        (nss.PK11_GetModule slot ≠ nss.PK11_GetModule filter.public_slot_ ∧
          nss.PK11_GetModule slot ≠ nss.PK11_GetModule filter.private_slot_))) := by
  constructor
  · unfold NSSProfileFilterChromeOS.IsCertAllowed
    cases hslots : nss.PK11_GetAllSlotsForCert cert with
    | none => simp
    | some slots =>
      simp [NSSProfileFilterChromeOS.IsCertAllowedFrom_iff]
  · intro slot
    unfold NSSProfileFilterChromeOS.IsModuleAllowed
    by_cases h1 : slot = filter.public_slot_
    · simp [h1]
    · by_cases h2 : slot = filter.private_slot_
      · simp [h2]
      · by_cases h3 : nss.PK11_IsInternalKeySlot slot = true
        · simp [h1, h2, h3]
        · simp [h1, h2, h3]

/-- Witness of C30: a certificate without a slot list and one with an allowed slot pass, one
on a slot of the profile's module that is not of the profile, and one with an empty list, are
filtered. -/
theorem IsCertAllowed_iff_some_slot_allowed_witness :
    filterSample.IsCertAllowed nssSample 1 = true ∧
    filterSample.IsCertAllowed nssSample 2 = true ∧
    filterSample.IsCertAllowed nssSample 3 = false ∧
    filterSample.IsCertAllowed nssSample 4 = false ∧
    filterSample.IsModuleAllowed nssSample 3 = true :=
  ⟨by decide, by decide, by decide, by decide,
    ((IsCertAllowed_iff_some_slot_allowed nssSample filterSample 1).2 3).2
      (Or.inr (Or.inl (by decide)))⟩
